import Mathlib

/-!
# go-tcp: the circuit breaker of `health-circuit-breaker/pkg/circuitbreaker`

A shallow embedding of `circuitbreaker.go` and `types.go`.

* The breaker is a record; every method of `*CircuitBreaker` becomes a function that
  takes the record and returns the updated record (explicit state passing).
* `time.Now()` is an explicit argument of the function that reads the clock.
  Instants are integers (nanoseconds counted from the zero `time.Time`), durations are
  integers (nanoseconds); `Before`, `IsZero` and `Add` are the integer order, the test
  against `0` and integer addition.
* `uint32` and `uint64` arithmetic is arithmetic on `Nat` reduced modulo `2^32` and `2^64`.
* The mutex `mu` is a boolean that `Lock` sets and `Unlock` clears; the calls of the
  `onStateChange` observer are appended to the list `notified`, each with the value of
  `mu` at the moment of the call.  Both are bookkeeping of the embedding only.
* The operation handed to `Execute` is a function on an abstract world `W`; it either
  returns a `(result, error)` pair or panics with a value.
-/

set_option linter.unnecessarySeqFocus false
set_option autoImplicit false

namespace circuitbreaker

/-! ## `time` -/

/-- An instant: nanoseconds since the zero `time.Time`. -/
abbrev Time := Int

/-- A `time.Duration`: nanoseconds. -/
abbrev Duration := Int

/-- The zero value of `time.Time` (`var zero time.Time`). -/
def zeroTime : Time := 0

/-- The method `t.IsZero()`. -/
def IsZero (t : Time) : Bool := decide (t = 0)

/-- The method `t.Before(u)`: `t` is strictly earlier than `u`. -/
def Before (t u : Time) : Bool := decide (t < u)

/-- The method `t.Add(d)`. -/
def Add (t : Time) (d : Duration) : Time := t + d

/-- The constant `time.Second`. -/
def Second : Duration := 1000000000

/-! ## `types.go` -/

/-- The sentinel errors of `types.go`, and any other `error` value an operation returns. -/
inductive Error where
  | ErrCircuitOpen
  | ErrTooManyRequests
  | other (msg : String)
  deriving DecidableEq, Repr

/-- The type `State` with its three constants. -/
inductive State where
  | StateClosed
  | StateOpen
  | StateHalfOpen
  deriving DecidableEq, Repr

open State Error

/-- The struct `Counts`; every field is a `uint32`. -/
structure Counts where
  Requests : Nat := 0
  TotalSuccesses : Nat := 0
  TotalFailures : Nat := 0
  ConsecutiveSuccesses : Nat := 0
  ConsecutiveFailures : Nat := 0
  deriving DecidableEq, Repr

/-- One call of the `onStateChange` observer: its three arguments, and whether the
breaker's mutex was held when the call was made. -/
structure StateChange where
  name : String
  prev : State
  state : State
  locked : Bool
  deriving DecidableEq, Repr

/-- The struct `CircuitBreaker`.  `onStateChange` tells whether the observer is non-nil;
`notified` lists the observer's calls, oldest first. -/
structure CircuitBreaker where
  name : String
  maxRequests : Nat
  interval : Duration
  timeout : Duration
  readyToTrip : Counts → Bool
  onStateChange : Bool
  mu : Bool
  state : State
  generation : Nat
  counts : Counts
  expiry : Time
  notified : List StateChange

/-- The struct `Config`.  A nil `ReadyToTrip` is `none`; `OnStateChange` tells whether the
observer is non-nil. -/
structure Config where
  Name : String
  MaxRequests : Nat
  Interval : Duration
  Timeout : Duration
  ReadyToTrip : Option (Counts → Bool)
  OnStateChange : Bool

/-- What a call of the wrapped operation, or of `Execute`, produces: a
`(result, error)` pair, or a panic carrying a value.  The value of a panic is never nil
(`recover()` returns a non-nil value for every panic, `panic(nil)` included, as of Go 1.21). -/
inductive Outcome (R P : Type) where
  | returned (result : Option R) (err : Option Error)
  | panicked (e : P)

/-! ## `circuitbreaker.go` -/

/-- The call `cb.mu.Lock()`. -/
def Lock (cb : CircuitBreaker) : CircuitBreaker := { cb with mu := true }

/-- The call `cb.mu.Unlock()`. -/
def Unlock (cb : CircuitBreaker) : CircuitBreaker := { cb with mu := false }

/-- The method `toNewGeneration`: a new generation with zeroed counts and a new expiry. -/
def toNewGeneration (cb : CircuitBreaker) (now : Time) : CircuitBreaker :=
  let cb1 := { cb with generation := (cb.generation + 1) % 2 ^ 64, counts := {} }
  match cb1.state with
  | StateClosed =>
    if cb1.interval = 0 then { cb1 with expiry := zeroTime }
    else { cb1 with expiry := Add now cb1.interval }
  | StateOpen => { cb1 with expiry := Add now cb1.timeout }
  | StateHalfOpen => { cb1 with expiry := zeroTime }

/-- The method `setState`: a transition to another state starts a new generation and
calls the observer when there is one. -/
def setState (cb : CircuitBreaker) (state : State) (now : Time) : CircuitBreaker :=
  if cb.state = state then cb
  else
    let prev := cb.state
    let cb1 := toNewGeneration { cb with state := state } now
    if cb1.onStateChange then
      { cb1 with notified := cb1.notified ++ [⟨cb1.name, prev, state, cb1.mu⟩] }
    else cb1

/-- The method `currentState`: the lazy, time-based transitions.  The pair the method
returns is `(state, generation)` of the returned breaker. -/
def currentState (cb : CircuitBreaker) (now : Time) : CircuitBreaker :=
  match cb.state with
  | StateClosed =>
    if !IsZero cb.expiry && Before cb.expiry now then toNewGeneration cb now else cb
  | StateOpen =>
    if Before cb.expiry now then setState cb StateHalfOpen now else cb
  | StateHalfOpen => cb

/-- The method `onSuccess`. -/
def onSuccess (cb : CircuitBreaker) (state : State) (now : Time) : CircuitBreaker :=
  let cb1 := { cb with counts := { cb.counts with
    TotalSuccesses := (cb.counts.TotalSuccesses + 1) % 2 ^ 32
    ConsecutiveSuccesses := (cb.counts.ConsecutiveSuccesses + 1) % 2 ^ 32
    ConsecutiveFailures := 0 } }
  if state = StateHalfOpen ∧ cb1.counts.ConsecutiveSuccesses ≥ cb1.maxRequests then
    setState cb1 StateClosed now
  else cb1

/-- The method `onFailure`. -/
def onFailure (cb : CircuitBreaker) (state : State) (now : Time) : CircuitBreaker :=
  let cb1 := { cb with counts := { cb.counts with
    TotalFailures := (cb.counts.TotalFailures + 1) % 2 ^ 32
    ConsecutiveFailures := (cb.counts.ConsecutiveFailures + 1) % 2 ^ 32
    ConsecutiveSuccesses := 0 } }
  if state = StateHalfOpen then setState cb1 StateOpen now
  else if cb1.readyToTrip cb1.counts then setState cb1 StateOpen now
  else cb1

/-- The method `beforeRequest`, reading the clock as `now`: the breaker afterwards, the
generation returned, and the error returned (`none` for nil). -/
def beforeRequest (cb : CircuitBreaker) (now : Time) : CircuitBreaker × Nat × Option Error :=
  let cb1 := currentState (Lock cb) now
  let state := cb1.state
  let generation := cb1.generation
  if state = StateOpen then (Unlock cb1, generation, some ErrCircuitOpen)
  else if state = StateHalfOpen ∧ cb1.counts.Requests ≥ cb1.maxRequests then
    (Unlock cb1, generation, some ErrTooManyRequests)
  else
    (Unlock { cb1 with counts := { cb1.counts with
      Requests := (cb1.counts.Requests + 1) % 2 ^ 32 } }, generation, none)

/-- The method `afterRequest`, reading the clock as `now`. -/
def afterRequest (cb : CircuitBreaker) (now : Time) (generation : Nat) (success : Bool) :
    CircuitBreaker :=
  let cb1 := currentState (Lock cb) now
  let state := cb1.state
  let currentGeneration := cb1.generation
  if generation ≠ currentGeneration then Unlock cb1
  else if success then Unlock (onSuccess cb1 state now)
  else Unlock (onFailure cb1 state now)

/-- The method `Execute`.  `now1` is the clock reading of `beforeRequest`, `now2` the one
of `afterRequest`; `req` acts on the world `w`.  The result is the breaker afterwards, the
world afterwards, and what `Execute` returns or the panic it raises. -/
def Execute {W R P : Type} (cb : CircuitBreaker) (now1 now2 : Time)
    (req : W → W × Outcome R P) (w : W) : CircuitBreaker × W × Outcome R P :=
  match beforeRequest cb now1 with
  | (cb1, _, some err) => (cb1, w, Outcome.returned none (some err))
  | (cb1, generation, none) =>
    match req w with
    | (w1, Outcome.panicked e) =>
      (afterRequest cb1 now2 generation false, w1, Outcome.panicked e)
    | (w1, Outcome.returned result err) =>
      (afterRequest cb1 now2 generation err.isNone, w1, Outcome.returned result err)

/-- The function `NewCircuitBreaker`, reading the clock as `now`. -/
def NewCircuitBreaker (config : Config) (now : Time) : CircuitBreaker :=
  let maxRequests := if config.MaxRequests = 0 then 1 else config.MaxRequests
  let timeout := if config.Timeout = 0 then 60 * Second else config.Timeout
  let readyToTrip : Counts → Bool :=
    match config.ReadyToTrip with
    | some f => f
    | none => fun counts => decide (counts.ConsecutiveFailures > 5)
  toNewGeneration
    { name := config.Name
      maxRequests := maxRequests
      interval := config.Interval
      timeout := timeout
      readyToTrip := readyToTrip
      onStateChange := config.OnStateChange
      mu := false
      state := StateClosed
      generation := 0
      counts := {}
      expiry := zeroTime
      notified := [] } now

/-- Sequential calls of `Execute`, one per entry: the two clock readings and the
operation of each call.  Returns the breaker and the world afterwards and the outcome of
every call, in order. -/
def ExecuteAll {W R P : Type} (cb : CircuitBreaker) :
    List (Time × Time × (W → W × Outcome R P)) → W →
      CircuitBreaker × W × List (Outcome R P)
  | [], w => (cb, w, [])
  | (now1, now2, req) :: rest, w =>
    match Execute cb now1 now2 req w with
    | (cb1, w1, out) =>
      match ExecuteAll cb1 rest w1 with
      | (cb2, w2, outs) => (cb2, w2, out :: outs)

/-- Sequential calls of `beforeRequest`, one per clock reading, none of them followed by
its `afterRequest` yet: the breaker afterwards and the error of every call, in order. -/
def admitAll (cb : CircuitBreaker) : List Time → CircuitBreaker × List (Option Error)
  | [] => (cb, [])
  | now :: rest =>
    match beforeRequest cb now with
    | (cb1, _, err) =>
      match admitAll cb1 rest with
      | (cb2, errs) => (cb2, err :: errs)

/-! ## Example breakers, used to instantiate the theorems -/

/-- The configuration of the test `TestCircuitBreaker_TooManyRequestsInHalfOpen`:
two half-open trials, a 50 ms timeout, trip at two consecutive failures. -/
def exampleConfig : Config :=
  { Name := "test"
    MaxRequests := 2
    Interval := 0
    Timeout := 50000000
    ReadyToTrip := some (fun counts => decide (counts.ConsecutiveFailures ≥ 2))
    OnStateChange := true }

/-- A breaker in state Closed: freshly built at instant `1000`. -/
def exampleClosed : CircuitBreaker := NewCircuitBreaker exampleConfig 1000

/-- An operation that returns `(nil, errors.New("failed"))` and counts its calls in the
world. -/
def failRequest : Nat → Nat × Outcome String String :=
  fun w => (w + 1, Outcome.returned none (some (Error.other "failed")))

/-- A breaker in state Open: `exampleClosed` after two failed calls of `Execute`, the
second completing at instant `1400`. -/
def exampleOpen : CircuitBreaker :=
  (Execute (Execute exampleClosed 1100 1200 failRequest 0).1 1300 1400 failRequest 1).1

/-- A breaker in state HalfOpen at the start of its generation: `exampleOpen` after its
timeout, when a late result of generation `1` arrives and is discarded. -/
def exampleHalfOpen : CircuitBreaker := afterRequest exampleOpen 60000000 1 true

/-- An operation that returns `("ok", nil)` and counts its calls in the world. -/
def okRequest : Nat → Nat × Outcome String String :=
  fun w => (w + 1, Outcome.returned (some "ok") none)

/-- An operation that panics with the value `"boom"` and counts its calls in the world. -/
def panicRequest : Nat → Nat × Outcome String String :=
  fun w => (w + 1, Outcome.panicked "boom")

/-- The counts after the statement `cb.counts.Requests++` of `beforeRequest`. -/
def countRequest (c : Counts) : Counts :=
  { c with Requests := (c.Requests + 1) % 2 ^ 32 }

/-- The counts after the three counting statements of `onSuccess`. -/
def countSuccess (c : Counts) : Counts :=
  { c with
    TotalSuccesses := (c.TotalSuccesses + 1) % 2 ^ 32
    ConsecutiveSuccesses := (c.ConsecutiveSuccesses + 1) % 2 ^ 32
    ConsecutiveFailures := 0 }

/-- The counts after the three counting statements of `onFailure`. -/
def countFailure (c : Counts) : Counts :=
  { c with
    TotalFailures := (c.TotalFailures + 1) % 2 ^ 32
    ConsecutiveFailures := (c.ConsecutiveFailures + 1) % 2 ^ 32
    ConsecutiveSuccesses := 0 }

/-- The operation returns a nil error in every world: it neither fails nor panics. -/
def ReturnsNil {W R P : Type} (req : W → W × Outcome R P) : Prop :=
  ∀ w : W, ∃ (w1 : W) (result : Option R), req w = (w1, Outcome.returned result none)

/-- The method `State()`: the stored state, read between `Lock` and `Unlock`; no clock is
read and `currentState` is not called. -/
def CircuitBreaker.State (cb : CircuitBreaker) : circuitbreaker.State := cb.state

/-- The method `Counts()`: the stored counts, read between `Lock` and `Unlock`. -/
def CircuitBreaker.Counts (cb : CircuitBreaker) : circuitbreaker.Counts := cb.counts

/-- In state Closed with a zero interval the expiry is the zero time (no window is set). -/
def windowUnset (cb : CircuitBreaker) : Prop :=
  cb.state = StateClosed → cb.interval = 0 → cb.expiry = zeroTime

end circuitbreaker

/-!
# The health checks of `health-circuit-breaker/pkg/healthcheck`

A shallow embedding of `types.go` and `passive.go`.  A `*Backend` held by the checker is
the position of the backend in the list `backends`; marking a backend replaces the record
at that position.  A `map[string]int` is a function from keys to integers that is `0` at a
key that was never written.  Go's `int` is taken as 64 bits wide, with wraparound.
-/

namespace healthcheck

open circuitbreaker (Time)

/-- The type `HealthStatus` with its two constants. -/
inductive HealthStatus where
  | Healthy
  | Unhealthy
  deriving DecidableEq, Repr

open HealthStatus

/-- The value of an `int` computation: the integer reduced to the 64-bit signed range. -/
def wrapInt (x : Int) : Int := (x + 2 ^ 63) % 2 ^ 64 - 2 ^ 63

/-- The struct `Backend`, without its mutex. -/
structure Backend where
  URL : String
  Status : HealthStatus
  LastCheck : Time
  FailureCount : Int
  deriving DecidableEq, Repr

/-- The function `NewBackend`, reading the clock as `now`. -/
def NewBackend (url : String) (now : Time) : Backend :=
  { URL := url, Status := Healthy, LastCheck := now, FailureCount := 0 }

/-- The method `IsHealthy`. -/
def Backend.IsHealthy (b : Backend) : Bool := decide (b.Status = Healthy)

/-- The method `MarkHealthy`, reading the clock as `now`. -/
def Backend.MarkHealthy (b : Backend) (now : Time) : Backend :=
  { b with Status := Healthy, FailureCount := 0, LastCheck := now }

/-- The method `MarkUnhealthy`, reading the clock as `now`. -/
def Backend.MarkUnhealthy (b : Backend) (now : Time) : Backend :=
  { b with Status := Unhealthy, FailureCount := wrapInt (b.FailureCount + 1), LastCheck := now }

/-- The method `GetStatus`. -/
def Backend.GetStatus (b : Backend) : HealthStatus := b.Status

/-- The struct `PassiveHealthCheckConfig`. -/
structure PassiveHealthCheckConfig where
  FailureThreshold : Int
  SuccessThreshold : Int

/-- The struct `PassiveHealthChecker`, without its mutex. -/
structure PassiveHealthChecker where
  backends : List Backend
  failureThreshold : Int
  successThreshold : Int
  consecutiveFailures : String → Int
  consecutiveSuccesses : String → Int

/-- The function `NewPassiveHealthChecker`: both maps start empty. -/
def NewPassiveHealthChecker (backends : List Backend) (config : PassiveHealthCheckConfig) :
    PassiveHealthChecker :=
  { backends := backends
    failureThreshold := config.FailureThreshold
    successThreshold := config.SuccessThreshold
    consecutiveFailures := fun _ => 0
    consecutiveSuccesses := fun _ => 0 }

/-- The method `findBackend`: the position of the first backend with the given URL, `none`
for nil. -/
def PassiveHealthChecker.findBackend (phc : PassiveHealthChecker) (url : String) :
    Option Nat :=
  phc.backends.findIdx? (fun backend => decide (backend.URL = url))

/-- The method `RecordSuccess`, reading the clock as `now` when it marks the backend. -/
def PassiveHealthChecker.RecordSuccess (phc : PassiveHealthChecker) (backendURL : String)
    (now : Time) : PassiveHealthChecker :=
  let phc1 := { phc with
    consecutiveFailures := Function.update phc.consecutiveFailures backendURL 0 }
  let phc2 := { phc1 with
    consecutiveSuccesses := Function.update phc1.consecutiveSuccesses backendURL
      (wrapInt (phc1.consecutiveSuccesses backendURL + 1)) }
  if phc2.consecutiveSuccesses backendURL ≥ phc2.successThreshold then
    let phc3 :=
      match phc2.findBackend backendURL with
      | some i =>
        match phc2.backends[i]? with
        | some backend =>
          if backend.GetStatus = Unhealthy then
            { phc2 with backends := phc2.backends.set i (backend.MarkHealthy now) }
          else phc2
        | none => phc2
      | none => phc2
    { phc3 with consecutiveSuccesses := Function.update phc3.consecutiveSuccesses backendURL 0 }
  else phc2

/-- The method `RecordFailure`, reading the clock as `now` when it marks the backend. -/
def PassiveHealthChecker.RecordFailure (phc : PassiveHealthChecker) (backendURL : String)
    (now : Time) : PassiveHealthChecker :=
  let phc1 := { phc with
    consecutiveSuccesses := Function.update phc.consecutiveSuccesses backendURL 0 }
  let phc2 := { phc1 with
    consecutiveFailures := Function.update phc1.consecutiveFailures backendURL
      (wrapInt (phc1.consecutiveFailures backendURL + 1)) }
  if phc2.consecutiveFailures backendURL ≥ phc2.failureThreshold then
    let phc3 :=
      match phc2.findBackend backendURL with
      | some i =>
        match phc2.backends[i]? with
        | some backend =>
          if backend.GetStatus = Healthy then
            { phc2 with backends := phc2.backends.set i (backend.MarkUnhealthy now) }
          else phc2
        | none => phc2
      | none => phc2
    { phc3 with consecutiveFailures := Function.update phc3.consecutiveFailures backendURL 0 }
  else phc2

/-- The method `GetConsecutiveFailures`. -/
def PassiveHealthChecker.GetConsecutiveFailures (phc : PassiveHealthChecker)
    (backendURL : String) : Int :=
  phc.consecutiveFailures backendURL

/-- The method `GetConsecutiveSuccesses`. -/
def PassiveHealthChecker.GetConsecutiveSuccesses (phc : PassiveHealthChecker)
    (backendURL : String) : Int :=
  phc.consecutiveSuccesses backendURL

/-- The status of the backend that `findBackend` returns for the URL, `none` when there is
no such backend. -/
def PassiveHealthChecker.statusOf (phc : PassiveHealthChecker) (url : String) :
    Option HealthStatus :=
  match phc.findBackend url with
  | some i => (phc.backends[i]?).map Backend.GetStatus
  | none => none

/-- Consecutive calls of `RecordFailure` for one URL, one per clock reading. -/
def recordFailures (phc : PassiveHealthChecker) (url : String) :
    List Time → PassiveHealthChecker
  | [] => phc
  | now :: rest => recordFailures (phc.RecordFailure url now) url rest

/-- Consecutive calls of `RecordSuccess` for one URL, one per clock reading. -/
def recordSuccesses (phc : PassiveHealthChecker) (url : String) :
    List Time → PassiveHealthChecker
  | [] => phc
  | now :: rest => recordSuccesses (phc.RecordSuccess url now) url rest

end healthcheck

/-!
# The dispatcher of `health-circuit-breaker/pkg/resilient`

A shallow embedding of `selectHealthyBackend` of `proxy.go`.  A `*BackendServer` is the
position of the backend server in the list `backends`; the reverse proxy of a backend
server, the two health checkers and the mutex of the proxy are left out of the record.
-/

namespace resilient

open circuitbreaker (CircuitBreaker)
open circuitbreaker.State
open healthcheck (Backend)

/-- The struct `BackendServer`. -/
structure BackendServer where
  Backend : healthcheck.Backend
  CircuitBreaker : circuitbreaker.CircuitBreaker

/-- The struct `ResilientProxy`: the pool and the rotation cursor. -/
structure ResilientProxy where
  backends : List BackendServer
  currentIndex : Nat

/-- The condition of the `if` in `selectHealthyBackend`, for the backend server at
position `idx`: it is healthy and the stored state of its breaker is not Open.  A position
outside the list (which the loop never produces) is not eligible. -/
def eligible (rp : ResilientProxy) (idx : Nat) : Bool :=
  match rp.backends[idx]? with
  | some backend => backend.Backend.IsHealthy && backend.CircuitBreaker.State != StateOpen
  | none => false

/-- The loop of `selectHealthyBackend` from the loop counter `i` on, with `remaining`
iterations left. -/
def selectLoop (rp : ResilientProxy) : Nat → Nat → ResilientProxy × Option Nat
  | _, 0 => (rp, none)
  | i, remaining + 1 =>
    let idx := (rp.currentIndex + i) % rp.backends.length
    if eligible rp idx then
      ({ rp with currentIndex := (idx + 1) % rp.backends.length }, some idx)
    else selectLoop rp (i + 1) remaining

/-- The method `selectHealthyBackend`: the proxy afterwards and the position of the
backend server returned, `none` for nil. -/
def selectHealthyBackend (rp : ResilientProxy) : ResilientProxy × Option Nat :=
  selectLoop rp 0 rp.backends.length

/-- Consecutive calls of `selectHealthyBackend`: the proxy afterwards and what each call
returned, in order. -/
def selectMany (rp : ResilientProxy) : Nat → ResilientProxy × List (Option Nat)
  | 0 => (rp, [])
  | k + 1 =>
    match selectHealthyBackend rp with
    | (rp1, r) =>
      match selectMany rp1 k with
      | (rp2, rs) => (rp2, r :: rs)

/-- The number of eligible positions below `x`. -/
def rank (rp : ResilientProxy) (x : Nat) : Nat :=
  ((List.range x).filter (eligible rp)).length

end resilient

namespace circuitbreaker

/-- The operation fails in every world: it returns a non-nil error or it panics. -/
def Fails {W R P : Type} (req : W → W × Outcome R P) : Prop :=
  ∀ w : W, (∃ (w1 : W) (result : Option R) (err : Error),
      req w = (w1, Outcome.returned result (some err))) ∨
    (∃ (w1 : W) (e : P), req w = (w1, Outcome.panicked e))

/-- The operations of a list of calls run one after the other without a breaker: the
world afterwards and the outcome of every operation, in order. -/
def callAll {W R P : Type} :
    List (Time × Time × (W → W × Outcome R P)) → W → W × List (Outcome R P)
  | [], w => (w, [])
  | (_, _, req) :: rest, w =>
    match req w with
    | (w1, out) =>
      match callAll rest w1 with
      | (w2, outs) => (w2, out :: outs)

/-- One step from breaker `a` to breaker `b` as the observer sees it: either the state is
kept and the observer is not called, or the state changes and the observer is called
exactly once, with the name, the state before and the state after. -/
def notifiedStep (a b : CircuitBreaker) : Prop :=
  (b.state = a.state ∧ b.notified = a.notified) ∨
  (b.state ≠ a.state ∧
    b.notified = a.notified ++ [{ name := a.name, prev := a.state, state := b.state,
                                  locked := a.mu }])

end circuitbreaker

namespace healthcheck

open circuitbreaker (Time)
open HealthStatus

/-- What the probe of `checkBackend` comes to: `http.NewRequestWithContext` fails, or
`httpClient.Do` fails (a transport error, a timeout, a cancelled context), or a response
with a status code arrives. -/
inductive ProbeOutcome where
  | requestError
  | transportError
  | response (StatusCode : Int)
  deriving DecidableEq, Repr

/-- The method `checkBackend` of the active checker, for a given outcome of the probe,
reading the clock as `now` when it marks the backend. -/
def checkBackend (backend : Backend) (probe : ProbeOutcome) (now : Time) : Backend :=
  match probe with
  | ProbeOutcome.requestError => backend.MarkUnhealthy now
  | ProbeOutcome.transportError => backend.MarkUnhealthy now
  | ProbeOutcome.response StatusCode =>
    if StatusCode ≥ 200 ∧ StatusCode < 400 then backend.MarkHealthy now
    else backend.MarkUnhealthy now

end healthcheck

/-!
# The request handler of `health-circuit-breaker/pkg/resilient`

A shallow embedding of `ServeHTTP` and `statusRecorder` of `proxy.go`.  An
`http.ResponseWriter` is the list of what has been written to it, oldest first.  The call
`backend.ReverseProxy.ServeHTTP(recorder, r)` is a parameter `forward`: for a position of
the pool and a world it gives the world afterwards, the calls it makes on the response
writer it was handed, in order, and the value it panics with, if it panics.  The backends
that the pool and the passive checker share by pointer are kept in the pool; the checker
works on them and they are written back.
-/

namespace resilient

open circuitbreaker (CircuitBreaker Time Outcome Error Execute)
open circuitbreaker.Error
open healthcheck (Backend PassiveHealthChecker)

/-- A call on an `http.ResponseWriter`. -/
inductive ResponseEvent where
  | WriteHeader (code : Int)
  | Write (body : String)
  deriving DecidableEq, Repr

/-- An `http.ResponseWriter`: the calls made on it so far, oldest first. -/
abbrev ResponseWriter := List ResponseEvent

/-- The constant `http.StatusOK`. -/
def StatusOK : Int := 200

/-- The constant `http.StatusServiceUnavailable`. -/
def StatusServiceUnavailable : Int := 503

/-- The function `http.Error`: the status code, then the message and a newline. -/
def httpError (w : ResponseWriter) (msg : String) (code : Int) : ResponseWriter :=
  w ++ [ResponseEvent.WriteHeader code, ResponseEvent.Write (msg ++ "\n")]

/-- The struct `statusRecorder`. -/
structure statusRecorder where
  ResponseWriter : ResponseWriter
  statusCode : Int

/-- The method `WriteHeader` of `statusRecorder`. -/
def statusRecorder.WriteHeader (rec : statusRecorder) (code : Int) : statusRecorder :=
  { ResponseWriter := rec.ResponseWriter ++ [ResponseEvent.WriteHeader code]
    statusCode := code }

/-- The method `Write` that `statusRecorder` takes over from the embedded response
writer. -/
def statusRecorder.Write (rec : statusRecorder) (body : String) : statusRecorder :=
  { rec with ResponseWriter := rec.ResponseWriter ++ [ResponseEvent.Write body] }

/-- The calls of the forwarded request on the recorder, made in order. -/
def statusRecorder.handle (rec : statusRecorder) : List ResponseEvent → statusRecorder
  | [] => rec
  | ResponseEvent.WriteHeader code :: rest => (rec.WriteHeader code).handle rest
  | ResponseEvent.Write body :: rest => (rec.Write body).handle rest

/-- The function literal that `ServeHTTP` hands to `Execute`, for the backend server at
position `idx`: it acts on the response writer and the world. -/
def forwardOperation {W P : Type} (forward : Nat → W → W × List ResponseEvent × Option P)
    (idx : Nat) : ResponseWriter × W → (ResponseWriter × W) × Outcome Unit P :=
  fun x =>
    let recorder : statusRecorder := { ResponseWriter := x.1, statusCode := StatusOK }
    match forward idx x.2 with
    | (world1, calls, panicValue) =>
      let recorder1 := recorder.handle calls
      match panicValue with
      | some e => ((recorder1.ResponseWriter, world1), Outcome.panicked e)
      | none =>
        if recorder1.statusCode ≥ 500 then
          ((recorder1.ResponseWriter, world1),
            Outcome.returned none
              (some (Error.other ("backend returned " ++ toString recorder1.statusCode))))
        else ((recorder1.ResponseWriter, world1), Outcome.returned none none)

/-- A call on the passive checker. -/
inductive PassiveCall where
  | RecordSuccess (backendURL : String)
  | RecordFailure (backendURL : String)
  deriving DecidableEq, Repr

/-- The proxy together with the passive checker that its field `passiveHealthCheck` points
to.  `passiveCalls` lists the calls made on the checker, oldest first; it is bookkeeping of
the embedding only. -/
structure Dispatcher where
  proxy : ResilientProxy
  passiveHealthCheck : PassiveHealthChecker
  passiveCalls : List PassiveCall

/-- The passive checker as it sees the backends of the pool. -/
def Dispatcher.checker (d : Dispatcher) : PassiveHealthChecker :=
  { d.passiveHealthCheck with backends := d.proxy.backends.map (fun srv => srv.Backend) }

/-- The pool after the checker has worked on the shared backends. -/
def writeBack (rp : ResilientProxy) (backends : List Backend) : ResilientProxy :=
  { rp with backends :=
      List.zipWith (fun srv backend => { srv with Backend := backend }) rp.backends backends }

/-- The call `rp.passiveHealthCheck.RecordFailure(url)`. -/
def Dispatcher.RecordFailure (d : Dispatcher) (url : String) (now : Time) : Dispatcher :=
  let phc := d.checker.RecordFailure url now
  { proxy := writeBack d.proxy phc.backends
    passiveHealthCheck := phc
    passiveCalls := d.passiveCalls ++ [PassiveCall.RecordFailure url] }

/-- The call `rp.passiveHealthCheck.RecordSuccess(url)`. -/
def Dispatcher.RecordSuccess (d : Dispatcher) (url : String) (now : Time) : Dispatcher :=
  let phc := d.checker.RecordSuccess url now
  { proxy := writeBack d.proxy phc.backends
    passiveHealthCheck := phc
    passiveCalls := d.passiveCalls ++ [PassiveCall.RecordSuccess url] }

/-- What `ServeHTTP` writes for an error that `Execute` returned. -/
def writeRejection (w : ResponseWriter) (err : Error) : ResponseWriter :=
  if err = ErrCircuitOpen then
    httpError w "Service Unavailable - Circuit Open" StatusServiceUnavailable
  else if err = ErrTooManyRequests then
    httpError w "Service Unavailable - Too Many Requests" StatusServiceUnavailable
  else w

/-- The part of `ServeHTTP` that follows the selection of the backend server at position
`idx`.  `now1` and `now2` are the clock readings of `Execute`, `now3` the one of the
passive checker.  The result is the dispatcher, the response writer and the world
afterwards, and the value of the panic that leaves `ServeHTTP`, if any. -/
def serveSelected {W P : Type} (d : Dispatcher) (idx : Nat) (w : ResponseWriter)
    (forward : Nat → W → W × List ResponseEvent × Option P) (now1 now2 now3 : Time)
    (world : W) : Dispatcher × ResponseWriter × W × Option P :=
  match d.proxy.backends[idx]? with
  | none => (d, w, world, none)
  | some backend =>
    match Execute backend.CircuitBreaker now1 now2 (forwardOperation forward idx)
      (w, world) with
    | (cb1, (w1, world1), outcome) =>
      let d1 := { d with proxy := { d.proxy with
        backends := d.proxy.backends.set idx { backend with CircuitBreaker := cb1 } } }
      match outcome with
      | Outcome.panicked e => (d1, w1, world1, some e)
      | Outcome.returned _ (some err) =>
        (d1.RecordFailure backend.Backend.URL now3, writeRejection w1 err, world1, none)
      | Outcome.returned _ none =>
        (d1.RecordSuccess backend.Backend.URL now3, w1, world1, none)

/-- The method `ServeHTTP`. -/
def ServeHTTP {W P : Type} (d : Dispatcher) (w : ResponseWriter)
    (forward : Nat → W → W × List ResponseEvent × Option P) (now1 now2 now3 : Time)
    (world : W) : Dispatcher × ResponseWriter × W × Option P :=
  match selectHealthyBackend d.proxy with
  | (rp1, none) =>
    ({ d with proxy := rp1 }, httpError w "Service Unavailable" StatusServiceUnavailable,
      world, none)
  | (rp1, some idx) =>
    serveSelected { d with proxy := rp1 } idx w forward now1 now2 now3 world

/-- The status that the recorder holds after the calls of the forwarded request as the
claim words it: the code last passed to `WriteHeader`, or `200` when there was no such
call. -/
def recordedStatus (calls : List ResponseEvent) : Int :=
  ((calls.filterMap (fun ev =>
    match ev with
    | ResponseEvent.WriteHeader code => some code
    | ResponseEvent.Write _ => none)).getLast?).getD 200

end resilient

/-! # The rate limiters of `rate-limiter/ratelimiter`

Every limiter is a record; `Allow` takes the record, the identifier and the reading of
`time.Now()` and returns the updated record with the answer.  A map is a function on its
keys: `map[string][]time.Time` reads a missing key as the nil slice, `map[string]int` as
`0`, and `map[string]time.Time` is a function to `Option`, `none` standing for a missing
key. -/

namespace ratelimiter

open circuitbreaker (Time Duration zeroTime Before Add)
open healthcheck (wrapInt)

/-- The method `t.After(u)`: `t` is strictly later than `u`. -/
def After (t u : Time) : Bool := decide (u < t)

/-! ## `sliding_window.go` -/

/-- The struct `SlidingWindow`, without its mutex. -/
structure SlidingWindow where
  limit : Int
  window : Duration
  requests : String → List Time

/-- The function `NewSlidingWindow`. -/
def NewSlidingWindow (limit : Int) (window : Duration) : SlidingWindow :=
  { limit := limit, window := window, requests := fun _ => [] }

/-- The method `Allow` of `SlidingWindow`, reading the clock as `now`.  The negation
`-sw.window` is an `int64` negation. -/
def SlidingWindow.Allow (sw : SlidingWindow) (identifier : String) (now : Time) :
    SlidingWindow × Bool :=
  let windowStart := Add now (wrapInt (-sw.window))
  let timestamps := sw.requests identifier
  let validTimestamps := timestamps.filter (fun ts => !Before ts windowStart)
  if (validTimestamps.length : Int) ≥ sw.limit then
    ({ sw with requests := Function.update sw.requests identifier validTimestamps }, false)
  else
    ({ sw with requests := Function.update sw.requests identifier (validTimestamps ++ [now]) },
      true)

/-- Sequential calls of `Allow`, one per entry (identifier and clock reading): the answer
of every call, in order. -/
def SlidingWindow.AllowAll (sw : SlidingWindow) : List (String × Time) → List Bool
  | [] => []
  | (identifier, now) :: rest =>
    match sw.Allow identifier now with
    | (sw1, allowed) => allowed :: SlidingWindow.AllowAll sw1 rest

/-! ## `fixed_window.go` -/

/-- The struct `FixedWindow`, without its mutex. -/
structure FixedWindow where
  limit : Int
  window : Duration
  counters : String → Int
  windowEnd : String → Option Time

/-- The function `NewFixedWindow`. -/
def NewFixedWindow (limit : Int) (window : Duration) : FixedWindow :=
  { limit := limit, window := window, counters := fun _ => 0, windowEnd := fun _ => none }

/-- The method `Allow` of `FixedWindow`, reading the clock as `now`. -/
def FixedWindow.Allow (fw : FixedWindow) (identifier : String) (now : Time) :
    FixedWindow × Bool :=
  let windowEnd := (fw.windowEnd identifier).getD zeroTime
  let «exists» := (fw.windowEnd identifier).isSome
  let fw1 :=
    if !«exists» || After now windowEnd then
      { fw with
        counters := Function.update fw.counters identifier 0
        windowEnd := Function.update fw.windowEnd identifier (some (Add now fw.window)) }
    else fw
  if fw1.counters identifier ≥ fw1.limit then (fw1, false)
  else
    ({ fw1 with
        counters := Function.update fw1.counters identifier
          (wrapInt (fw1.counters identifier + 1)) }, true)

/-- Sequential calls of `Allow`, one per entry (identifier and clock reading): the limiter
afterwards and the answer of every call, in order. -/
def FixedWindow.AllowAll (fw : FixedWindow) : List (String × Time) → FixedWindow × List Bool
  | [] => (fw, [])
  | (identifier, now) :: rest =>
    match fw.Allow identifier now with
    | (fw1, allowed) =>
      match FixedWindow.AllowAll fw1 rest with
      | (fw2, answers) => (fw2, allowed :: answers)

/-! ## Reading the answers of a run -/

/-- The clock readings of the calls made for `identifier` that were answered `true`, in
order. -/
def allowedTimes (identifier : String) (calls : List (String × Time)) (answers : List Bool) :
    List Time :=
  ((calls.zip answers).filter (fun c => decide (c.1.1 = identifier) && c.2)).map
    (fun c => c.1.2)

/-- The answers given to the calls made for `identifier`, in order. -/
def answersFor (identifier : String) (calls : List (String × Time)) (answers : List Bool) :
    List Bool :=
  ((calls.zip answers).filter (fun c => decide (c.1.1 = identifier))).map (fun c => c.2)

/-- How many of the instants lie in the closed interval from `start` to `stop`. -/
def countWithin (start stop : Time) (instants : List Time) : Nat :=
  instants.countP (fun t => decide (start ≤ t) && decide (t ≤ stop))

end ratelimiter

/-! # The middleware of `rate-limiter/middleware/ratelimit.go`

The `http.ResponseWriter` is the list of the calls made on it, oldest first.  The limiter
is any state `L` with an `Allow` function, the wrapped handler `next` acts on a world `W`
and on the response writer.  `nextCalls` counts the calls of `next.ServeHTTP`; it is
bookkeeping of the embedding only.  The two functions of package `net` that `getClientIP`
calls are parameters. -/

namespace middleware

/-- One call on the `http.ResponseWriter`. -/
inductive ResponseEvent where
  | SetHeader (key value : String)
  | WriteHeader (code : Int)
  | Write (body : String)
  deriving DecidableEq, Repr

/-- The response writer: the calls made on it, oldest first. -/
abbrev ResponseWriter := List ResponseEvent

/-- The constant `http.StatusTooManyRequests`. -/
def StatusTooManyRequests : Int := 429

/-- What the handler reads of the `*http.Request`: `r.Header.Get` and `r.RemoteAddr`. -/
structure Request where
  Header : String → String
  RemoteAddr : String

/-- The functions of package `net` used by `getClientIP`: whether `net.ParseIP` returns a
non-nil address, and the host and port of `net.SplitHostPort`, `none` for an error. -/
structure Net where
  ParseIP : String → Bool
  SplitHostPort : String → Option (String × String)

/-- The function `trimSpace`: the string without its leading and trailing blanks. -/
def trimSpace (s : String) : String :=
  String.mk ((s.toList.dropWhile (fun c => c = ' ')).reverse.dropWhile
    (fun c => c = ' ')).reverse

/-- The function `getClientIP`. -/
def getClientIP (net : Net) (r : Request) : String :=
  let forwarded := r.Header "X-Forwarded-For"
  let fromHeader : Option String :=
    if forwarded ≠ "" then
      let forwarded := String.mk (forwarded.toList.takeWhile (fun c => c ≠ ','))
      let forwarded := trimSpace forwarded
      if net.ParseIP forwarded then some forwarded else none
    else none
  match fromHeader with
  | some ip => ip
  | none =>
    match net.SplitHostPort r.RemoteAddr with
    | none => r.RemoteAddr
    | some (host, _) => host

/-- What one request leaves behind: the limiter, the world of the wrapped handler, the
response writer, and the number of calls of `next.ServeHTTP`. -/
structure Served (L W : Type) where
  limiter : L
  world : W
  w : ResponseWriter
  nextCalls : Nat

/-- The handler that `RateLimitMiddleware(limiter)(next)` returns, serving one request. -/
def RateLimitMiddleware {L W : Type} (net : Net) (Allow : L → String → L × Bool)
    (next : ResponseWriter → Request → W → W × ResponseWriter)
    (w : ResponseWriter) (r : Request) (limiter : L) (world : W) : Served L W :=
  let clientIP := getClientIP net r
  match Allow limiter clientIP with
  | (limiter1, false) =>
    { limiter := limiter1
      world := world
      w := w ++
        [ ResponseEvent.SetHeader "X-RateLimit-Exceeded" "true",
          ResponseEvent.WriteHeader StatusTooManyRequests,
          ResponseEvent.Write ("Rate limit exceeded for IP: " ++ clientIP ++ "\n"),
          ResponseEvent.Write "Please try again later.\n" ]
      nextCalls := 0 }
  | (limiter1, true) =>
    match next (w ++ [ResponseEvent.SetHeader "X-RateLimit-Allowed" "true"]) r world with
    | (world1, w1) => { limiter := limiter1, world := world1, w := w1, nextCalls := 1 }

end middleware

/-! # The load balancer of `reverse-proxy/proxy.go`

A `*url.URL` is a value of an arbitrary type `URL`, `url.Parse` is a parameter that
returns `none` for an error.  `NextBackend` returns `none` where the Go code panics
(index out of range). -/

namespace reverseproxy

open healthcheck (wrapInt)

/-- The struct `LoadBalancer`, without its mutex. -/
structure LoadBalancer (URL : Type) where
  backends : List URL
  current : Int

/-- The loop of `NewLoadBalancer`: parse every URL, appending to `backends`; `none` when a
URL does not parse. -/
def parseBackends {URL : Type} (Parse : String → Option URL) :
    List String → List URL → Option (List URL)
  | [], backends => some backends
  | backendURL :: rest, backends =>
    match Parse backendURL with
    | none => none
    | some parsedURL => parseBackends Parse rest (backends ++ [parsedURL])

/-- The function `NewLoadBalancer`; `none` stands for the return `nil, err`. -/
def NewLoadBalancer {URL : Type} (Parse : String → Option URL) (backendURLs : List String) :
    Option (LoadBalancer URL) :=
  match parseBackends Parse backendURLs [] with
  | none => none
  | some backends => some { backends := backends, current := 0 }

/-- The method `NextBackend`: the balancer afterwards and the backend returned, `none`
when the index is out of range. -/
def LoadBalancer.NextBackend {URL : Type} (lb : LoadBalancer URL) :
    Option (LoadBalancer URL × URL) :=
  if 0 ≤ lb.current then
    match lb.backends[lb.current.toNat]? with
    | none => none
    | some backend =>
      some ({ lb with current := Int.tmod (wrapInt (lb.current + 1)) lb.backends.length },
        backend)
  else none

/-- Sequential calls of `NextBackend`: the balancer afterwards and the backends returned,
in order; `none` when one of the calls panics. -/
def LoadBalancer.NextBackends {URL : Type} (lb : LoadBalancer URL) :
    Nat → Option (LoadBalancer URL × List URL)
  | 0 => some (lb, [])
  | k + 1 =>
    match lb.NextBackend with
    | none => none
    | some (lb1, backend) =>
      match LoadBalancer.NextBackends lb1 k with
      | none => none
      | some (lb2, rest) => some (lb2, backend :: rest)

end reverseproxy

/-! # Sequences of calls on the passive checker and on the breaker -/

namespace healthcheck

open circuitbreaker (Time)

/-- One call on the passive checker: `RecordSuccess` or `RecordFailure`, with the URL and
the clock reading. -/
inductive Record where
  | success (backendURL : String) (now : Time)
  | failure (backendURL : String) (now : Time)
  deriving DecidableEq, Repr

/-- The checker after one call. -/
def PassiveHealthChecker.record (phc : PassiveHealthChecker) : Record → PassiveHealthChecker
  | Record.success backendURL now => phc.RecordSuccess backendURL now
  | Record.failure backendURL now => phc.RecordFailure backendURL now

/-- The checker after a sequence of calls. -/
def PassiveHealthChecker.recordAll (phc : PassiveHealthChecker) :
    List Record → PassiveHealthChecker
  | [] => phc
  | call :: rest => PassiveHealthChecker.recordAll (phc.record call) rest

end healthcheck

namespace circuitbreaker

open State Error

/-! ## A breaker in use: admissions and completions in any interleaving -/

/-- A breaker together with the generations returned by the admissions that have not
completed yet, and the clock reading of the latest step in which the stored state changed
to Open.  `pending` and `openedAt` are bookkeeping of the embedding only. -/
structure Flight where
  cb : CircuitBreaker
  pending : List Nat
  openedAt : Time

/-- One step of the clients of a breaker: a call of `beforeRequest`, or the call of
`afterRequest` that completes an earlier admission with the generation it returned. -/
inductive Event where
  | admission (now : Time)
  | completion (now : Time) (generation : Nat) (success : Bool)
  deriving DecidableEq, Repr

/-- A new breaker with no admission in flight. -/
def Flight.start (config : Config) (now : Time) : Flight :=
  { cb := NewCircuitBreaker config now, pending := [], openedAt := zeroTime }

/-- The clock reading of the latest change of the stored state to Open, after a step read
the clock as `now` and took the breaker from `before` to `after`. -/
def openedAtAfter (before after : CircuitBreaker) (now openedAt : Time) : Time :=
  if after.state = StateOpen ∧ before.state ≠ StateOpen then now else openedAt

/-- One step.  An admitted call of `beforeRequest` adds the generation it returned to the
admissions in flight (a rejected call adds nothing: `Execute` returns at once); a
completion calls `afterRequest` with a generation in flight and removes it.  A step is
taken only where no counter wraps around: the generation after the step is not below the
generation before it (a step increments the generation at most twice, so the generation
decreases exactly when it wraps), and an admitted call does not leave `Requests` at zero
(`Requests++` gives zero exactly when it wraps).  `none` where the step cannot be taken. -/
def Flight.step (t : Flight) : Event → Option Flight
  | Event.admission now =>
    match beforeRequest t.cb now with
    | (cb1, generation, none) =>
      if t.cb.generation ≤ cb1.generation ∧ cb1.counts.Requests ≠ 0 then
        some { cb := cb1, pending := generation :: t.pending,
               openedAt := openedAtAfter t.cb cb1 now t.openedAt }
      else none
    | (cb1, _, some _) =>
      if t.cb.generation ≤ cb1.generation then
        some { cb := cb1, pending := t.pending,
               openedAt := openedAtAfter t.cb cb1 now t.openedAt }
      else none
  | Event.completion now generation success =>
    if generation ∈ t.pending ∧
        t.cb.generation ≤ (afterRequest t.cb now generation success).generation then
      some { cb := afterRequest t.cb now generation success,
             pending := t.pending.erase generation,
             openedAt :=
               openedAtAfter t.cb (afterRequest t.cb now generation success) now t.openedAt }
    else none

/-- A sequence of steps; `none` when one of them cannot be taken. -/
def Flight.run (t : Flight) : List Event → Option Flight
  | [] => some t
  | ev :: rest =>
    match t.step ev with
    | none => none
    | some t1 => Flight.run t1 rest

end circuitbreaker

namespace circuitbreaker

open State Error

/-- The invariant of a breaker in use.  The results counted in the current generation and
the admissions of the current generation still in flight are at most `Requests`; the
consecutive counts are at most the totals and at most one of them is non-zero; no
admission in flight carries a later generation than the current one; `Requests` is in the
range of `uint32` and `maxRequests` is at least one; in state Open the counts are zero and
the expiry is the time of the change to Open plus the timeout; in state HalfOpen there is
no failure, the consecutive successes are below `maxRequests`, `Requests` is at most
`maxRequests` and the expiry is the zero time. -/
def Flight.Invariant (t : Flight) : Prop :=
  t.cb.counts.TotalSuccesses + t.cb.counts.TotalFailures + t.pending.count t.cb.generation ≤
    t.cb.counts.Requests ∧
  t.cb.counts.ConsecutiveSuccesses ≤ t.cb.counts.TotalSuccesses ∧
  t.cb.counts.ConsecutiveFailures ≤ t.cb.counts.TotalFailures ∧
  (t.cb.counts.ConsecutiveSuccesses = 0 ∨ t.cb.counts.ConsecutiveFailures = 0) ∧
  (∀ x ∈ t.pending, x ≤ t.cb.generation) ∧
  t.cb.counts.Requests < 2 ^ 32 ∧
  1 ≤ t.cb.maxRequests ∧
  (t.cb.state = StateOpen →
    t.cb.counts = {} ∧ t.cb.expiry = t.openedAt + t.cb.timeout) ∧
  (t.cb.state = StateHalfOpen →
    t.cb.counts.TotalFailures = 0 ∧ t.cb.counts.ConsecutiveSuccesses < t.cb.maxRequests ∧
    t.cb.counts.Requests ≤ t.cb.maxRequests ∧ t.cb.expiry = zeroTime)

end circuitbreaker

namespace circuitbreaker

/-- The clock reading of a step. -/
def Event.now : Event → Time
  | Event.admission now => now
  | Event.completion now _ _ => now

end circuitbreaker

/-! ## Example values, used to instantiate the theorems -/

namespace healthcheck

open HealthStatus

/-- The configuration of the tests of `passive_test.go`. -/
def exampleThresholds : PassiveHealthCheckConfig :=
  { FailureThreshold := 3, SuccessThreshold := 2 }

/-- The checker of `TestPassiveHealthChecker_RecordFailure`: one backend, healthy. -/
def exampleChecker : PassiveHealthChecker :=
  NewPassiveHealthChecker [NewBackend "http://localhost:8081" 1000] exampleThresholds

/-- The checker of `TestPassiveHealthChecker_RecordSuccess`: one backend, marked
unhealthy first. -/
def exampleCheckerUnhealthy : PassiveHealthChecker :=
  NewPassiveHealthChecker [(NewBackend "http://localhost:8081" 1000).MarkUnhealthy 1500]
    exampleThresholds

end healthcheck

namespace resilient

/-- Three healthy backends A, B, C (positions 0, 1, 2) with Closed breakers, cursor 0. -/
def examplePool : ResilientProxy :=
  { backends :=
      [ { Backend := healthcheck.NewBackend "A" 1000,
          CircuitBreaker := circuitbreaker.exampleClosed },
        { Backend := healthcheck.NewBackend "B" 1000,
          CircuitBreaker := circuitbreaker.exampleClosed },
        { Backend := healthcheck.NewBackend "C" 1000,
          CircuitBreaker := circuitbreaker.exampleClosed } ]
    currentIndex := 0 }

/-- The backends A, B, C, all healthy, the breaker of B Open, cursor 0. -/
def examplePoolOpenB : ResilientProxy :=
  { backends :=
      [ { Backend := healthcheck.NewBackend "A" 1000,
          CircuitBreaker := circuitbreaker.exampleClosed },
        { Backend := healthcheck.NewBackend "B" 1000,
          CircuitBreaker := circuitbreaker.exampleOpen },
        { Backend := healthcheck.NewBackend "C" 1000,
          CircuitBreaker := circuitbreaker.exampleClosed } ]
    currentIndex := 0 }

/-- One healthy backend whose breaker is `exampleOpen`: Open since instant `1400`, with a
timeout of `50 ms`. -/
def examplePoolSoleOpen : ResilientProxy :=
  { backends :=
      [ { Backend := healthcheck.NewBackend "A" 1000,
          CircuitBreaker := circuitbreaker.exampleOpen } ]
    currentIndex := 0 }

end resilient

namespace circuitbreaker

/-- The configuration of `TestCircuitBreaker_OpenAfterFailures`: trip at three consecutive
failures, a timeout of `100 ms`, no observer. -/
def exampleConfigTripAt3 : Config :=
  { Name := "test"
    MaxRequests := 1
    Interval := 0
    Timeout := 100000000
    ReadyToTrip := some (fun counts => decide (counts.ConsecutiveFailures ≥ 3))
    OnStateChange := false }

/-- A configuration with a nil `ReadyToTrip`, a zero `MaxRequests` and a zero `Timeout`. -/
def exampleConfigDefaults : Config :=
  { Name := "test"
    MaxRequests := 0
    Interval := 0
    Timeout := 0
    ReadyToTrip := none
    OnStateChange := false }

/-- Failing calls of `Execute`, `n` of them, at the instants `2000`, `2001`, and so on. -/
def exampleFailingCalls (n : Nat) : List (Time × Time × (Nat → Nat × Outcome String String)) :=
  (List.range n).map (fun i => ((2000 + i : Int), (2000 + i : Int), failRequest))

end circuitbreaker

namespace resilient

open circuitbreaker (Outcome)

/-- A forwarded request that answers `200` with a body. -/
def exampleForwardOK : Nat → Nat → Nat × List ResponseEvent × Option String :=
  fun _ world => (world + 1, [ResponseEvent.WriteHeader 200, ResponseEvent.Write "hello"], none)

/-- A forwarded request whose backend cannot be reached: the reverse proxy answers `502`. -/
def exampleForwardBadGateway : Nat → Nat → Nat × List ResponseEvent × Option String :=
  fun _ world => (world + 1, [ResponseEvent.WriteHeader 502], none)

/-- A forwarded request that answers `404`. -/
def exampleForwardNotFound : Nat → Nat → Nat × List ResponseEvent × Option String :=
  fun _ world => (world + 1, [ResponseEvent.WriteHeader 404, ResponseEvent.Write "no"], none)

/-- A forwarded request that sends its header and then panics, as the reverse proxy does
with `http.ErrAbortHandler` when copying the body fails. -/
def exampleForwardAbort : Nat → Nat → Nat × List ResponseEvent × Option String :=
  fun _ world => (world + 1, [ResponseEvent.WriteHeader 200], some "net/http: abort Handler")

/-- The dispatcher over `examplePool` with the thresholds of the demo, nothing recorded. -/
def exampleDispatcher : Dispatcher :=
  { proxy := examplePool
    passiveHealthCheck :=
      healthcheck.NewPassiveHealthChecker (examplePool.backends.map (fun srv => srv.Backend))
        healthcheck.exampleThresholds
    passiveCalls := [] }

/-- The dispatcher over `examplePoolSoleOpen`: one healthy backend, breaker Open. -/
def exampleDispatcherSoleOpen : Dispatcher :=
  { exampleDispatcher with proxy := examplePoolSoleOpen }

/-- The dispatcher over one healthy backend whose breaker is HalfOpen with both of its two
trial slots taken. -/
def exampleDispatcherTrialsTaken : Dispatcher :=
  { exampleDispatcher with
    proxy :=
      { backends :=
          [ { Backend := healthcheck.NewBackend "A" 1000,
              CircuitBreaker :=
                (circuitbreaker.admitAll circuitbreaker.exampleHalfOpen
                  [60000001, 60000002]).1 } ]
        currentIndex := 0 } }

end resilient

namespace reverseproxy

/-- A `url.Parse` that accepts every string; the parsed URL is the string itself. -/
def exampleParse : String → Option String := fun s => some s

/-- The three backend URLs of `TestRoundRobin`. -/
def exampleBackendURLs : List String :=
  ["http://backend1.com", "http://backend2.com", "http://backend3.com"]

/-- The load balancer of `TestRoundRobin`. -/
def exampleLoadBalancer : LoadBalancer String :=
  { backends := exampleBackendURLs, current := 0 }

end reverseproxy

namespace healthcheck

/-- A sequence of calls on the passive checker: two failures, a success, three failures,
all for the backend of the tests. -/
def exampleRecords : List Record :=
  [ Record.failure "http://localhost:8081" 2000, Record.failure "http://localhost:8081" 3000,
    Record.success "http://localhost:8081" 4000, Record.failure "http://localhost:8081" 5000,
    Record.failure "http://localhost:8081" 6000, Record.failure "http://localhost:8081" 7000 ]

end healthcheck

namespace ratelimiter

open circuitbreaker (Time Second)

/-- The fixed window of `testNormalRateLimiting`: five requests per ten seconds. -/
def exampleFixedWindow : FixedWindow := NewFixedWindow 5 (10 * Second)

/-- Seven calls for one identifier, `100 ms` apart, that follow a first call at instant
zero (the eight rapid requests of `testNormalRateLimiting`). -/
def exampleRapidCalls : List (String × Time) :=
  [ ("192.168.1.1", 100000000), ("192.168.1.1", 200000000), ("192.168.1.1", 300000000),
    ("192.168.1.1", 400000000), ("192.168.1.1", 500000000), ("192.168.1.1", 600000000),
    ("192.168.1.1", 700000000) ]

end ratelimiter

namespace ratelimiter

open circuitbreaker (Time Second)

/-- The calls of `testEdgeCase` for the one identifier, with the clock readings of the
demo: one at `0 s`, four at `4 s`, five at `5.5 s`. -/
def exampleEdgeCalls : List (String × Time) :=
  [ ("192.168.1.1", 0),
    ("192.168.1.1", 4000000000), ("192.168.1.1", 4000000000),
    ("192.168.1.1", 4000000000), ("192.168.1.1", 4000000000),
    ("192.168.1.1", 5500000000), ("192.168.1.1", 5500000000),
    ("192.168.1.1", 5500000000), ("192.168.1.1", 5500000000),
    ("192.168.1.1", 5500000000) ]

/-- The fixed window of `testEdgeCase`: five requests per five seconds. -/
def exampleEdgeFixed : FixedWindow := NewFixedWindow 5 (5 * Second)

/-- The sliding window of `testEdgeCase`: five requests per five seconds. -/
def exampleEdgeSliding : SlidingWindow := NewSlidingWindow 5 (5 * Second)

end ratelimiter

namespace circuitbreaker

/-- Two admissions that overlap, the first completed with a failure and the second with a
success, on the breaker of `exampleConfigTripAt3` (generation `1` after construction). -/
def exampleEventsOverlap : List Event :=
  [ Event.admission 1000, Event.admission 1001,
    Event.completion 1002 1 false, Event.completion 1003 1 true ]

/-- The breaker in use after `exampleEventsOverlap`. -/
def exampleFlightOverlap : Flight :=
  ((Flight.start exampleConfigTripAt3 0).run exampleEventsOverlap).getD
    (Flight.start exampleConfigTripAt3 0)

/-- Three calls that fail one after the other: the third failure opens the breaker of
`exampleConfigTripAt3` at instant `1005`. -/
def exampleEventsToOpen : List Event :=
  [ Event.admission 1000, Event.completion 1001 1 false,
    Event.admission 1002, Event.completion 1003 1 false,
    Event.admission 1004, Event.completion 1005 1 false ]

/-- The breaker in use after `exampleEventsToOpen`. -/
def exampleFlightOpen : Flight :=
  ((Flight.start exampleConfigTripAt3 0).run exampleEventsToOpen).getD
    (Flight.start exampleConfigTripAt3 0)

end circuitbreaker

namespace circuitbreaker

open State Error

/-! ## Helper lemmas -/

section helpers

variable (cb : CircuitBreaker) (now : Time)

@[simp] theorem toNewGeneration_state : (toNewGeneration cb now).state = cb.state := by
  simp only [toNewGeneration]
  split <;> try split_ifs
  all_goals rfl

@[simp] theorem toNewGeneration_generation :
    (toNewGeneration cb now).generation = (cb.generation + 1) % 2 ^ 64 := by
  simp only [toNewGeneration]
  split <;> try split_ifs
  all_goals rfl

@[simp] theorem toNewGeneration_counts : (toNewGeneration cb now).counts = {} := by
  simp only [toNewGeneration]
  split <;> try split_ifs
  all_goals rfl

theorem toNewGeneration_expiry_closed (h : cb.state = StateClosed) :
    (toNewGeneration cb now).expiry = if cb.interval = 0 then zeroTime else now + cb.interval := by
  simp only [toNewGeneration, h]
  split_ifs <;> simp [Add]

theorem toNewGeneration_expiry_open (h : cb.state = StateOpen) :
    (toNewGeneration cb now).expiry = now + cb.timeout := by
  simp [toNewGeneration, h, Add]

theorem toNewGeneration_expiry_halfOpen (h : cb.state = StateHalfOpen) :
    (toNewGeneration cb now).expiry = zeroTime := by
  simp [toNewGeneration, h]

@[simp] theorem Lock_name : (Lock cb).name = cb.name := rfl
@[simp] theorem Lock_maxRequests : (Lock cb).maxRequests = cb.maxRequests := rfl
@[simp] theorem Lock_interval : (Lock cb).interval = cb.interval := rfl
@[simp] theorem Lock_timeout : (Lock cb).timeout = cb.timeout := rfl
@[simp] theorem Lock_readyToTrip : (Lock cb).readyToTrip = cb.readyToTrip := rfl
@[simp] theorem Lock_onStateChange : (Lock cb).onStateChange = cb.onStateChange := rfl
@[simp] theorem Lock_state : (Lock cb).state = cb.state := rfl
@[simp] theorem Lock_generation : (Lock cb).generation = cb.generation := rfl
@[simp] theorem Lock_counts : (Lock cb).counts = cb.counts := rfl
@[simp] theorem Lock_expiry : (Lock cb).expiry = cb.expiry := rfl
@[simp] theorem Lock_notified : (Lock cb).notified = cb.notified := rfl
@[simp] theorem Unlock_name : (Unlock cb).name = cb.name := rfl
@[simp] theorem Unlock_maxRequests : (Unlock cb).maxRequests = cb.maxRequests := rfl
@[simp] theorem Unlock_interval : (Unlock cb).interval = cb.interval := rfl
@[simp] theorem Unlock_timeout : (Unlock cb).timeout = cb.timeout := rfl
@[simp] theorem Unlock_readyToTrip : (Unlock cb).readyToTrip = cb.readyToTrip := rfl
@[simp] theorem Unlock_onStateChange : (Unlock cb).onStateChange = cb.onStateChange := rfl
@[simp] theorem Unlock_state : (Unlock cb).state = cb.state := rfl
@[simp] theorem Unlock_generation : (Unlock cb).generation = cb.generation := rfl
@[simp] theorem Unlock_counts : (Unlock cb).counts = cb.counts := rfl
@[simp] theorem Unlock_expiry : (Unlock cb).expiry = cb.expiry := rfl
@[simp] theorem Unlock_notified : (Unlock cb).notified = cb.notified := rfl
@[simp] theorem Lock_mu : (Lock cb).mu = true := rfl
@[simp] theorem Unlock_mu : (Unlock cb).mu = false := rfl

@[simp] theorem toNewGeneration_name : (toNewGeneration cb now).name = cb.name := by
  simp only [toNewGeneration]
  split <;> try split_ifs
  all_goals rfl

@[simp] theorem toNewGeneration_maxRequests : (toNewGeneration cb now).maxRequests = cb.maxRequests := by
  simp only [toNewGeneration]
  split <;> try split_ifs
  all_goals rfl

@[simp] theorem toNewGeneration_interval : (toNewGeneration cb now).interval = cb.interval := by
  simp only [toNewGeneration]
  split <;> try split_ifs
  all_goals rfl

@[simp] theorem toNewGeneration_timeout : (toNewGeneration cb now).timeout = cb.timeout := by
  simp only [toNewGeneration]
  split <;> try split_ifs
  all_goals rfl

@[simp] theorem toNewGeneration_readyToTrip : (toNewGeneration cb now).readyToTrip = cb.readyToTrip := by
  simp only [toNewGeneration]
  split <;> try split_ifs
  all_goals rfl

@[simp] theorem toNewGeneration_onStateChange : (toNewGeneration cb now).onStateChange = cb.onStateChange := by
  simp only [toNewGeneration]
  split <;> try split_ifs
  all_goals rfl

@[simp] theorem toNewGeneration_mu : (toNewGeneration cb now).mu = cb.mu := by
  simp only [toNewGeneration]
  split <;> try split_ifs
  all_goals rfl

@[simp] theorem toNewGeneration_notified :
    (toNewGeneration cb now).notified = cb.notified := by
  simp only [toNewGeneration]
  split <;> try split_ifs
  all_goals rfl

@[simp] theorem setState_name (s : State) : (setState cb s now).name = cb.name := by
  simp only [setState]
  split_ifs <;> simp

@[simp] theorem setState_maxRequests (s : State) : (setState cb s now).maxRequests = cb.maxRequests := by
  simp only [setState]
  split_ifs <;> simp

@[simp] theorem setState_interval (s : State) : (setState cb s now).interval = cb.interval := by
  simp only [setState]
  split_ifs <;> simp

@[simp] theorem setState_timeout (s : State) : (setState cb s now).timeout = cb.timeout := by
  simp only [setState]
  split_ifs <;> simp

@[simp] theorem setState_readyToTrip (s : State) : (setState cb s now).readyToTrip = cb.readyToTrip := by
  simp only [setState]
  split_ifs <;> simp

@[simp] theorem setState_onStateChange (s : State) : (setState cb s now).onStateChange = cb.onStateChange := by
  simp only [setState]
  split_ifs <;> simp

@[simp] theorem setState_mu (s : State) : (setState cb s now).mu = cb.mu := by
  simp only [setState]
  split_ifs <;> simp

theorem currentState_halfOpen (h : cb.state = StateHalfOpen) : currentState cb now = cb := by
  simp [currentState, h]

theorem currentState_open (h : cb.state = StateOpen) :
    currentState cb now = if cb.expiry < now then setState cb StateHalfOpen now else cb := by
  simp [currentState, h, Before]

theorem currentState_closed (h : cb.state = StateClosed) :
    currentState cb now =
      if cb.expiry ≠ 0 ∧ cb.expiry < now then toNewGeneration cb now else cb := by
  simp [currentState, h, Before, IsZero]

theorem currentState_state_closed (h : cb.state = StateClosed) :
    (currentState cb now).state = StateClosed := by
  rw [currentState_closed cb now h]
  split_ifs <;> simp [h]

@[simp] theorem currentState_name : (currentState cb now).name = cb.name := by
  simp only [currentState]
  split <;> (try split_ifs) <;> simp

@[simp] theorem currentState_maxRequests : (currentState cb now).maxRequests = cb.maxRequests := by
  simp only [currentState]
  split <;> (try split_ifs) <;> simp

@[simp] theorem currentState_interval : (currentState cb now).interval = cb.interval := by
  simp only [currentState]
  split <;> (try split_ifs) <;> simp

@[simp] theorem currentState_timeout : (currentState cb now).timeout = cb.timeout := by
  simp only [currentState]
  split <;> (try split_ifs) <;> simp

@[simp] theorem currentState_readyToTrip : (currentState cb now).readyToTrip = cb.readyToTrip := by
  simp only [currentState]
  split <;> (try split_ifs) <;> simp

@[simp] theorem currentState_onStateChange : (currentState cb now).onStateChange = cb.onStateChange := by
  simp only [currentState]
  split <;> (try split_ifs) <;> simp

@[simp] theorem currentState_mu : (currentState cb now).mu = cb.mu := by
  simp only [currentState]
  split <;> (try split_ifs) <;> simp

@[simp] theorem currentState_Lock_state :
    (currentState (Lock cb) now).state = (currentState cb now).state := by
  simp only [currentState, setState, Lock]
  cases h : cb.state <;> simp <;> (try split_ifs) <;>
    simp [toNewGeneration, h] <;> (try split_ifs) <;> rfl

@[simp] theorem currentState_Lock_generation :
    (currentState (Lock cb) now).generation = (currentState cb now).generation := by
  simp only [currentState, setState, Lock]
  cases h : cb.state <;> simp <;> (try split_ifs) <;>
    simp [toNewGeneration, h] <;> (try split_ifs) <;> rfl

@[simp] theorem currentState_Lock_counts :
    (currentState (Lock cb) now).counts = (currentState cb now).counts := by
  simp only [currentState, setState, Lock]
  cases h : cb.state <;> simp <;> (try split_ifs) <;>
    simp [toNewGeneration, h] <;> (try split_ifs) <;> rfl

@[simp] theorem currentState_Lock_expiry :
    (currentState (Lock cb) now).expiry = (currentState cb now).expiry := by
  simp only [currentState, setState, Lock]
  cases h : cb.state <;> simp <;> (try split_ifs) <;>
    simp [toNewGeneration, h] <;> (try split_ifs) <;> rfl

theorem setState_eq_of_state (s : State) (h : cb.state = s) : setState cb s now = cb := by
  simp [setState, h]

theorem setState_state (s : State) : (setState cb s now).state = s := by
  simp only [setState]
  split_ifs <;> simp [*]

theorem setState_generation (s : State) (h : cb.state ≠ s) :
    (setState cb s now).generation = (cb.generation + 1) % 2 ^ 64 := by
  simp only [setState, if_neg h]
  split_ifs <;> simp

theorem setState_counts (s : State) (h : cb.state ≠ s) : (setState cb s now).counts = {} := by
  simp only [setState, if_neg h]
  split_ifs <;> simp

theorem setState_expiry_closed (h : cb.state ≠ StateClosed) :
    (setState cb StateClosed now).expiry =
      if cb.interval = 0 then zeroTime else now + cb.interval := by
  simp only [setState, if_neg h]
  split_ifs <;> simp_all [toNewGeneration_expiry_closed]

theorem setState_expiry_open (h : cb.state ≠ StateOpen) :
    (setState cb StateOpen now).expiry = now + cb.timeout := by
  simp only [setState, if_neg h]
  split_ifs <;> simp [toNewGeneration_expiry_open]

theorem setState_expiry_halfOpen (h : cb.state ≠ StateHalfOpen) :
    (setState cb StateHalfOpen now).expiry = zeroTime := by
  simp only [setState, if_neg h]
  split_ifs <;> simp [toNewGeneration_expiry_halfOpen]

theorem beforeRequest_halfOpen (h : cb.state = StateHalfOpen) :
    beforeRequest cb now =
      if cb.maxRequests ≤ cb.counts.Requests then
        (Unlock (Lock cb), cb.generation, some ErrTooManyRequests)
      else
        (Unlock { Lock cb with counts := { cb.counts with
          Requests := (cb.counts.Requests + 1) % 2 ^ 32 } }, cb.generation, none) := by
  have hcur : currentState (Lock cb) now = Lock cb :=
    currentState_halfOpen (Lock cb) now (by simpa using h)
  simp only [beforeRequest, hcur, Lock_state, h, Lock_counts, Lock_maxRequests,
    Lock_generation]
  simp

/-- The admissions of one HalfOpen generation, started with `k` requests already admitted. -/
theorem admitAll_halfOpen (ts : List Time) :
    ∀ cb : CircuitBreaker, cb.state = StateHalfOpen → cb.maxRequests < 2 ^ 32 →
      cb.counts.Requests ≤ cb.maxRequests →
      (admitAll cb ts).2 =
          List.replicate (min ts.length (cb.maxRequests - cb.counts.Requests)) none ++
          List.replicate (ts.length - (cb.maxRequests - cb.counts.Requests))
            (some ErrTooManyRequests) ∧
        (admitAll cb ts).1.state = StateHalfOpen ∧
        (admitAll cb ts).1.generation = cb.generation ∧
        (admitAll cb ts).1.maxRequests = cb.maxRequests ∧
        (admitAll cb ts).1.counts =
          { cb.counts with
            Requests := min (cb.counts.Requests + ts.length) cb.maxRequests } := by
  induction ts with
  | nil =>
    intro cb hs _ hle
    simp [admitAll, Nat.min_eq_left hle, hs]
  | cons t rest ih =>
    intro cb hs hmax hle
    by_cases hfull : cb.maxRequests ≤ cb.counts.Requests
    · have hb := beforeRequest_halfOpen cb t hs
      rw [if_pos hfull] at hb
      have hrec := ih (Unlock (Lock cb)) (by simpa using hs) (by simpa using hmax)
        (by simpa using hle)
      simp only [Unlock_maxRequests, Lock_maxRequests, Unlock_counts, Lock_counts,
        Unlock_generation, Lock_generation] at hrec
      have hz : cb.maxRequests - cb.counts.Requests = 0 := by omega
      simp only [admitAll, hb, hrec, hz, List.length_cons]
      refine ⟨?_, trivial, trivial, trivial, ?_⟩
      · simp [List.replicate_succ]
      · congr 1
        omega
    · have hb := beforeRequest_halfOpen cb t hs
      rw [if_neg hfull] at hb
      have hlt : cb.counts.Requests + 1 < 2 ^ 32 := by omega
      have hmod : (cb.counts.Requests + 1) % 2 ^ 32 = cb.counts.Requests + 1 :=
        Nat.mod_eq_of_lt hlt
      rw [hmod] at hb
      have hrec := ih (Unlock { Lock cb with counts := { cb.counts with
          Requests := cb.counts.Requests + 1 } }) (by simpa [Unlock] using hs)
        (by simpa [Unlock] using hmax) (by simp [Unlock]; omega)
      simp only [Unlock, Lock] at hrec hb
      simp only [admitAll, hb, hrec, List.length_cons]
      refine ⟨?_, trivial, trivial, trivial, ?_⟩
      · have h1 : min (rest.length + 1) (cb.maxRequests - cb.counts.Requests) =
            min rest.length (cb.maxRequests - (cb.counts.Requests + 1)) + 1 := by omega
        have h2 : rest.length + 1 - (cb.maxRequests - cb.counts.Requests) =
            rest.length - (cb.maxRequests - (cb.counts.Requests + 1)) := by omega
        rw [h1, h2, List.replicate_succ, List.cons_append]
      · congr 1
        omega

theorem afterRequest_halfOpen (h : cb.state = StateHalfOpen) (success : Bool) :
    afterRequest cb now cb.generation success =
      if success then Unlock (onSuccess (Lock cb) StateHalfOpen now)
      else Unlock (onFailure (Lock cb) StateHalfOpen now) := by
  have hcur : currentState (Lock cb) now = Lock cb :=
    currentState_halfOpen (Lock cb) now (by simpa using h)
  simp [afterRequest, hcur, h]

theorem onSuccess_halfOpen_close (h : cb.state = StateHalfOpen)
    (hge : cb.maxRequests ≤ (cb.counts.ConsecutiveSuccesses + 1) % 2 ^ 32) :
    (onSuccess cb StateHalfOpen now).state = StateClosed ∧
    (onSuccess cb StateHalfOpen now).counts = {} ∧
    (onSuccess cb StateHalfOpen now).generation = (cb.generation + 1) % 2 ^ 64 ∧
    (onSuccess cb StateHalfOpen now).maxRequests = cb.maxRequests := by
  simp only [onSuccess, ge_iff_le, hge, and_self, if_true]
  refine ⟨setState_state _ _ _, ?_, ?_, by simp⟩
  · rw [setState_counts _ _ _ (by simp [h])]
  · rw [setState_generation _ _ _ (by simp [h])]

theorem onSuccess_halfOpen_stay
    (hlt : (cb.counts.ConsecutiveSuccesses + 1) % 2 ^ 32 < cb.maxRequests) :
    onSuccess cb StateHalfOpen now =
      { cb with counts := { cb.counts with
        TotalSuccesses := (cb.counts.TotalSuccesses + 1) % 2 ^ 32
        ConsecutiveSuccesses := (cb.counts.ConsecutiveSuccesses + 1) % 2 ^ 32
        ConsecutiveFailures := 0 } } := by
  simp only [onSuccess, ge_iff_le, not_le.mpr hlt, and_false, if_false]

/-- One successful trial, admitted and completed in state HalfOpen. -/
theorem Execute_halfOpen_ok {W R P : Type} (now2 : Time) (req : W → W × Outcome R P) (w : W)
    (h : cb.state = StateHalfOpen) (hmax : cb.maxRequests < 2 ^ 32)
    (hreq : cb.counts.Requests < cb.maxRequests)
    (hcs : cb.counts.ConsecutiveSuccesses = cb.counts.Requests) (hr : ReturnsNil req) :
    (cb.maxRequests ≤ cb.counts.ConsecutiveSuccesses + 1 →
      (Execute cb now now2 req w).1.state = StateClosed ∧
      (Execute cb now now2 req w).1.counts = {}) ∧
    (cb.counts.ConsecutiveSuccesses + 1 < cb.maxRequests →
      (Execute cb now now2 req w).1.state = StateHalfOpen ∧
      (Execute cb now now2 req w).1.counts.Requests = cb.counts.Requests + 1 ∧
      (Execute cb now now2 req w).1.counts.ConsecutiveSuccesses =
        cb.counts.ConsecutiveSuccesses + 1 ∧
      (Execute cb now now2 req w).1.maxRequests = cb.maxRequests) := by
  obtain ⟨w1, result, hw⟩ := hr w
  have hmod : (cb.counts.ConsecutiveSuccesses + 1) % 2 ^ 32 =
      cb.counts.ConsecutiveSuccesses + 1 := Nat.mod_eq_of_lt (by omega)
  have hmodr : (cb.counts.Requests + 1) % 2 ^ 32 = cb.counts.Requests + 1 :=
    Nat.mod_eq_of_lt (by omega)
  obtain ⟨cb1, hb, hs1, hg1, hm1, hc1⟩ : ∃ cb1 : CircuitBreaker,
      beforeRequest cb now = (cb1, cb.generation, none) ∧ cb1.state = StateHalfOpen ∧
      cb1.generation = cb.generation ∧ cb1.maxRequests = cb.maxRequests ∧
      cb1.counts = { cb.counts with Requests := cb.counts.Requests + 1 } := by
    have hb := beforeRequest_halfOpen cb now h
    rw [if_neg (by omega), hmodr] at hb
    exact ⟨_, hb, by simp [Unlock, Lock, h], by simp [Unlock, Lock], by simp [Unlock, Lock],
      by simp [Unlock, Lock]⟩
  have hex : (Execute cb now now2 req w).1 = afterRequest cb1 now2 cb1.generation true := by
    simp [Execute, hb, hw, hg1]
  rw [hex, afterRequest_halfOpen cb1 now2 hs1 true]
  simp only [if_true, Unlock_state, Unlock_counts, Unlock_maxRequests]
  have hcs1 : (Lock cb1).counts.ConsecutiveSuccesses = cb.counts.ConsecutiveSuccesses := by
    simp [hc1]
  constructor
  · intro hge
    have hc := onSuccess_halfOpen_close (Lock cb1) now2 (by simpa using hs1)
      (by rw [hcs1, hmod]; simpa [hm1] using hge)
    exact ⟨hc.1, hc.2.1⟩
  · intro hlt
    rw [onSuccess_halfOpen_stay (Lock cb1) now2 (by rw [hcs1, hmod]; simpa [hm1] using hlt)]
    simp [hs1, hc1, hmod, hm1]
    omega

/-- Successful trials in sequence, from a HalfOpen breaker that has admitted and completed
the same number of trials so far. -/
theorem ExecuteAll_halfOpen_ok {W R P : Type}
    (calls : List (Time × Time × (W → W × Outcome R P))) :
    ∀ (cb : CircuitBreaker) (w : W), cb.state = StateHalfOpen → cb.maxRequests < 2 ^ 32 →
      cb.counts.ConsecutiveSuccesses = cb.counts.Requests →
      (∀ c ∈ calls, ReturnsNil c.2.2) →
      (cb.counts.Requests + calls.length < cb.maxRequests →
        (ExecuteAll cb calls w).1.state = StateHalfOpen) ∧
      (1 ≤ calls.length → cb.counts.Requests + calls.length = cb.maxRequests →
        (ExecuteAll cb calls w).1.state = StateClosed ∧
        (ExecuteAll cb calls w).1.counts = {}) := by
  induction calls with
  | nil =>
    intro cb w hs _ _ _
    simp [ExecuteAll, hs]
  | cons c rest ih =>
    intro cb w hs hmax hcs hall
    obtain ⟨now1, now2, req⟩ := c
    have hreq : ReturnsNil req := hall (now1, now2, req) (List.mem_cons_self _ _)
    have hrest : ∀ c ∈ rest, ReturnsNil c.2.2 := fun c hc => hall c (List.mem_cons_of_mem _ hc)
    have hexec : (ExecuteAll cb ((now1, now2, req) :: rest) w).1 =
        (ExecuteAll (Execute cb now1 now2 req w).1 rest (Execute cb now1 now2 req w).2.1).1 := by
      simp [ExecuteAll]
    rw [hexec]
    simp only [List.length_cons]
    constructor
    · intro hlt
      have hstep := (Execute_halfOpen_ok cb now1 now2 req w hs hmax (by omega) hcs hreq).2
        (by omega)
      exact (ih _ _ hstep.1 (by rw [hstep.2.2.2]; exact hmax)
        (by rw [hstep.2.1, hstep.2.2.1, hcs]) hrest).1 (by rw [hstep.2.1, hstep.2.2.2]; omega)
    · intro _ heq
      cases rest with
      | nil =>
        have hstep := (Execute_halfOpen_ok cb now1 now2 req w hs hmax
          (by simp at heq; omega) hcs hreq).1 (by simp at heq; omega)
        simpa [ExecuteAll] using hstep
      | cons c2 rest2 =>
        have hstep := (Execute_halfOpen_ok cb now1 now2 req w hs hmax
          (by simp at heq; omega) hcs hreq).2 (by simp at heq; omega)
        exact (ih _ _ hstep.1 (by rw [hstep.2.2.2]; exact hmax)
          (by rw [hstep.2.1, hstep.2.2.1, hcs]) hrest).2 (by simp)
          (by rw [hstep.2.1, hstep.2.2.2]; simp at heq ⊢; omega)

/-- What `setState` does to generation and counts: nothing, or a new generation. -/
theorem setState_cases (s : State) :
    ((setState cb s now).generation = cb.generation ∧ (setState cb s now).counts = cb.counts) ∨
    ((setState cb s now).generation = (cb.generation + 1) % 2 ^ 64 ∧
      (setState cb s now).counts = {}) := by
  by_cases h : cb.state = s
  · left
    rw [setState_eq_of_state cb now s h]
    exact ⟨rfl, rfl⟩
  · right
    exact ⟨setState_generation cb now s h, setState_counts cb now s h⟩

/-- What `currentState` does to generation and counts: nothing, or a new generation. -/
theorem currentState_cases :
    ((currentState cb now).generation = cb.generation ∧
      (currentState cb now).counts = cb.counts) ∨
    ((currentState cb now).generation = (cb.generation + 1) % 2 ^ 64 ∧
      (currentState cb now).counts = {}) := by
  simp only [currentState]
  split
  · split_ifs
    · right
      exact ⟨toNewGeneration_generation cb now, toNewGeneration_counts cb now⟩
    · left
      exact ⟨rfl, rfl⟩
  · split_ifs
    · exact setState_cases cb now StateHalfOpen
    · left
      exact ⟨rfl, rfl⟩
  · left
    exact ⟨rfl, rfl⟩

/-- What `onSuccess` does to generation and counts: it counts, or starts a new generation. -/
theorem onSuccess_cases (s : State) :
    ((onSuccess cb s now).generation = cb.generation ∧
      (onSuccess cb s now).counts = countSuccess cb.counts) ∨
    ((onSuccess cb s now).generation = (cb.generation + 1) % 2 ^ 64 ∧
      (onSuccess cb s now).counts = {}) := by
  simp only [onSuccess]
  split_ifs
  · exact setState_cases _ now StateClosed
  · left
    exact ⟨rfl, rfl⟩

/-- What `onFailure` does to generation and counts: it counts, or starts a new generation. -/
theorem onFailure_cases (s : State) :
    ((onFailure cb s now).generation = cb.generation ∧
      (onFailure cb s now).counts = countFailure cb.counts) ∨
    ((onFailure cb s now).generation = (cb.generation + 1) % 2 ^ 64 ∧
      (onFailure cb s now).counts = {}) := by
  simp only [onFailure]
  split_ifs
  · exact setState_cases _ now StateOpen
  · exact setState_cases _ now StateOpen
  · left
    exact ⟨rfl, rfl⟩

/-- What `beforeRequest` does to generation and counts. -/
theorem beforeRequest_cases :
    ((beforeRequest cb now).1.generation = cb.generation ∧
      ((beforeRequest cb now).1.counts = cb.counts ∨
        (beforeRequest cb now).1.counts = countRequest cb.counts)) ∨
    ((beforeRequest cb now).1.generation = (cb.generation + 1) % 2 ^ 64 ∧
      ((beforeRequest cb now).1.counts = {} ∨
        (beforeRequest cb now).1.counts = countRequest {})) := by
  have hcur := currentState_cases (Lock cb) now
  simp only [currentState_Lock_generation, currentState_Lock_counts, Lock_generation,
    Lock_counts] at hcur
  simp only [beforeRequest, currentState_Lock_state, currentState_Lock_counts]
  split_ifs
  · simp only [Unlock_generation, Unlock_counts, currentState_Lock_generation,
      currentState_Lock_counts]
    rcases hcur with h | h
    · exact Or.inl ⟨h.1, Or.inl h.2⟩
    · exact Or.inr ⟨h.1, Or.inl h.2⟩
  · simp only [Unlock_generation, Unlock_counts, currentState_Lock_generation,
      currentState_Lock_counts]
    rcases hcur with h | h
    · exact Or.inl ⟨h.1, Or.inl h.2⟩
    · exact Or.inr ⟨h.1, Or.inl h.2⟩
  · simp only [Unlock, currentState_Lock_generation]
    rcases hcur with h | h
    · exact Or.inl ⟨h.1, Or.inr (by rw [h.2]; rfl)⟩
    · exact Or.inr ⟨h.1, Or.inr (by rw [h.2]; rfl)⟩

/-- What `afterRequest` does to generation and counts. -/
theorem afterRequest_cases (g : Nat) (success : Bool) :
    ((afterRequest cb now g success).generation = cb.generation ∧
      ((afterRequest cb now g success).counts = cb.counts ∨
        (afterRequest cb now g success).counts = countSuccess cb.counts ∨
        (afterRequest cb now g success).counts = countFailure cb.counts)) ∨
    ((afterRequest cb now g success).generation = (cb.generation + 1) % 2 ^ 64 ∧
      ((afterRequest cb now g success).counts = {} ∨
        (afterRequest cb now g success).counts = countSuccess {} ∨
        (afterRequest cb now g success).counts = countFailure {})) ∨
    ((afterRequest cb now g success).generation = (cb.generation + 1 + 1) % 2 ^ 64 ∧
      (afterRequest cb now g success).counts = {}) := by
  have hcur := currentState_cases (Lock cb) now
  simp only [currentState_Lock_generation, currentState_Lock_counts, Lock_generation,
    Lock_counts] at hcur
  have hs := onSuccess_cases (currentState (Lock cb) now) now (currentState (Lock cb) now).state
  have hf := onFailure_cases (currentState (Lock cb) now) now (currentState (Lock cb) now).state
  simp only [currentState_Lock_generation, currentState_Lock_counts] at hs hf
  simp only [afterRequest]
  split_ifs
  · simp only [Unlock_generation, Unlock_counts, currentState_Lock_generation,
      currentState_Lock_counts]
    rcases hcur with h | h
    · exact Or.inl ⟨h.1, Or.inl h.2⟩
    · exact Or.inr (Or.inl ⟨h.1, Or.inl h.2⟩)
  · simp only [Unlock_generation, Unlock_counts]
    rcases hcur with h | h <;> rcases hs with k | k
    · exact Or.inl ⟨by rw [k.1, h.1], Or.inr (Or.inl (by rw [k.2, h.2]))⟩
    · exact Or.inr (Or.inl ⟨by rw [k.1, h.1], Or.inl k.2⟩)
    · exact Or.inr (Or.inl ⟨by rw [k.1, h.1], Or.inr (Or.inl (by rw [k.2, h.2]))⟩)
    · exact Or.inr (Or.inr ⟨by rw [k.1, h.1]; simp, k.2⟩)
  · simp only [Unlock_generation, Unlock_counts]
    rcases hcur with h | h <;> rcases hf with k | k
    · exact Or.inl ⟨by rw [k.1, h.1], Or.inr (Or.inr (by rw [k.2, h.2]))⟩
    · exact Or.inr (Or.inl ⟨by rw [k.1, h.1], Or.inl k.2⟩)
    · exact Or.inr (Or.inl ⟨by rw [k.1, h.1], Or.inr (Or.inr (by rw [k.2, h.2]))⟩)
    · exact Or.inr (Or.inr ⟨by rw [k.1, h.1]; simp, k.2⟩)

@[simp] theorem onSuccess_maxRequests (s : State) :
    (onSuccess cb s now).maxRequests = cb.maxRequests := by
  simp only [onSuccess]
  split_ifs <;> simp

@[simp] theorem onFailure_maxRequests (s : State) :
    (onFailure cb s now).maxRequests = cb.maxRequests := by
  simp only [onFailure]
  split_ifs <;> simp

@[simp] theorem beforeRequest_maxRequests :
    (beforeRequest cb now).1.maxRequests = cb.maxRequests := by
  simp only [beforeRequest]
  split_ifs <;> simp [Unlock]

@[simp] theorem afterRequest_maxRequests (g : Nat) (success : Bool) :
    (afterRequest cb now g success).maxRequests = cb.maxRequests := by
  simp only [afterRequest]
  split_ifs <;> simp

/-- `Execute` never changes `maxRequests`. -/
theorem Execute_maxRequests {W R P : Type} (now2 : Time) (req : W → W × Outcome R P)
    (w : W) : (Execute cb now now2 req w).1.maxRequests = cb.maxRequests := by
  have hb := beforeRequest_maxRequests cb now
  simp only [Execute]
  rcases hq : beforeRequest cb now with ⟨cb1, g, _ | err⟩
  · rw [hq] at hb
    rcases req w with ⟨w1, ⟨r, e⟩ | e⟩ <;> simpa using hb
  · rw [hq] at hb
    simpa using hb

/-- A breaker built by `NewCircuitBreaker` has `1 ≤ maxRequests`; the bound of `uint32`
carries over from the configuration. -/
theorem NewCircuitBreaker_maxRequests (config : Config) :
    1 ≤ (NewCircuitBreaker config now).maxRequests ∧
    (config.MaxRequests < 2 ^ 32 → (NewCircuitBreaker config now).maxRequests < 2 ^ 32) := by
  simp only [NewCircuitBreaker, toNewGeneration_maxRequests]
  split_ifs with h
  · exact ⟨le_refl 1, fun _ => by norm_num⟩
  · exact ⟨by omega, fun hlt => hlt⟩

end helpers

/-! ## The claims -/

/-- C1. In state Closed, a failure recorded for the generation that is current at
completion time opens the breaker if and only if `readyToTrip` holds of the counts with that
failure added (`TotalFailures` and `ConsecutiveFailures` incremented as `uint32`,
`ConsecutiveSuccesses` zeroed); a recorded success, of whatever generation, never opens a
Closed breaker. -/
theorem C1_closed_opens_iff_readyToTrip (cb : CircuitBreaker) (now : Time)
    (hclosed : cb.state = StateClosed) :
    ((afterRequest cb now (currentState cb now).generation false).state = StateOpen ↔
      cb.readyToTrip
        { Requests := (currentState cb now).counts.Requests
          TotalSuccesses := (currentState cb now).counts.TotalSuccesses
          TotalFailures := ((currentState cb now).counts.TotalFailures + 1) % 2 ^ 32
          ConsecutiveSuccesses := 0
          ConsecutiveFailures :=
            ((currentState cb now).counts.ConsecutiveFailures + 1) % 2 ^ 32 } = true) ∧
    ∀ g : Nat, (afterRequest cb now g true).state ≠ StateOpen := by
  have hc : (currentState cb now).state = StateClosed := currentState_state_closed cb now hclosed
  constructor
  · simp only [afterRequest, currentState_Lock_generation, ne_eq, not_true_eq_false,
      if_false, Bool.false_eq_true, Unlock_state, onFailure, currentState_Lock_state, hc]
    simp only [reduceCtorEq, if_false]
    split_ifs with h
    · simp only [setState_state, true_iff]
      simpa using h
    · constructor
      · intro h2
        simp [hc] at h2
      · intro h2
        exact absurd (by simpa using h2) h
  · intro g
    simp only [afterRequest, onSuccess, currentState_Lock_state, hc]
    split_ifs <;> simp_all

/-- Witness of C1 on `exampleClosed`. -/
theorem C1_closed_opens_iff_readyToTrip_witness :
    exampleClosed.state = StateClosed ∧
    (((afterRequest exampleClosed 1500 (currentState exampleClosed 1500).generation
        false).state = StateOpen ↔
      exampleClosed.readyToTrip
        { Requests := (currentState exampleClosed 1500).counts.Requests
          TotalSuccesses := (currentState exampleClosed 1500).counts.TotalSuccesses
          TotalFailures := ((currentState exampleClosed 1500).counts.TotalFailures + 1) % 2 ^ 32
          ConsecutiveSuccesses := 0
          ConsecutiveFailures :=
            ((currentState exampleClosed 1500).counts.ConsecutiveFailures + 1) % 2 ^ 32 }
        = true) ∧
    ∀ g : Nat, (afterRequest exampleClosed 1500 g true).state ≠ StateOpen) :=
  ⟨rfl, C1_closed_opens_iff_readyToTrip exampleClosed 1500 rfl⟩

/-- C2. While the breaker is Open and its expiry is not before `now`, `Execute` returns
`(nil, ErrCircuitOpen)`, leaves the world of the operation untouched whatever the operation
is (the operation is not called), and leaves state, generation, counts, expiry and the list
of observer calls as they were. -/
theorem C2_open_rejects_until_timeout {W R P : Type} (cb : CircuitBreaker) (now1 now2 : Time)
    (req : W → W × Outcome R P) (w : W)
    (hopen : cb.state = StateOpen) (hnot : now1 ≤ cb.expiry) :
    (Execute cb now1 now2 req w).2.2 = Outcome.returned none (some ErrCircuitOpen) ∧
    (Execute cb now1 now2 req w).2.1 = w ∧
    (Execute cb now1 now2 req w).1.state = StateOpen ∧
    (Execute cb now1 now2 req w).1.generation = cb.generation ∧
    (Execute cb now1 now2 req w).1.counts = cb.counts ∧
    (Execute cb now1 now2 req w).1.expiry = cb.expiry ∧
    (Execute cb now1 now2 req w).1.notified = cb.notified := by
  have hcur : currentState (Lock cb) now1 = Lock cb := by
    rw [currentState_open (Lock cb) now1 (by simpa using hopen)]
    simp [not_lt.mpr hnot]
  have hb : beforeRequest cb now1 = (Unlock (Lock cb), cb.generation, some ErrCircuitOpen) := by
    simp [beforeRequest, hcur, hopen]
  simp [Execute, hb, hopen]

/-- Witness of C2 on `exampleOpen`, `10 ms` after it opened. -/
theorem C2_open_rejects_until_timeout_witness :
    exampleOpen.state = StateOpen ∧ (10000000 : Time) ≤ exampleOpen.expiry ∧
    (Execute exampleOpen 10000000 10000500 okRequest 7).2.2
      = Outcome.returned none (some ErrCircuitOpen) ∧
    (Execute exampleOpen 10000000 10000500 okRequest 7).2.1 = 7 ∧
    (Execute exampleOpen 10000000 10000500 okRequest 7).1.state = StateOpen ∧
    (Execute exampleOpen 10000000 10000500 okRequest 7).1.generation = exampleOpen.generation ∧
    (Execute exampleOpen 10000000 10000500 okRequest 7).1.counts = exampleOpen.counts ∧
    (Execute exampleOpen 10000000 10000500 okRequest 7).1.expiry = exampleOpen.expiry ∧
    (Execute exampleOpen 10000000 10000500 okRequest 7).1.notified = exampleOpen.notified :=
  ⟨rfl, by decide, C2_open_rejects_until_timeout exampleOpen 10000000 10000500 okRequest 7 rfl
    (by decide)⟩

/-- C3. In state HalfOpen `beforeRequest` admits a request if and only if
`counts.Requests < maxRequests`; an admission adds one to `Requests` and touches nothing
else; a rejection is `ErrTooManyRequests`, and `Execute` then returns it with a nil result,
without calling the operation and without changing the counts.  Hence, from the start of a
HalfOpen generation and with no completion in between, of any number of admission attempts
exactly the first `maxRequests` succeed and every later one fails with
`ErrTooManyRequests`; attempt `maxRequests + 1` is the first to fail. -/
theorem C3_halfOpen_admits_maxRequests (W R P : Type) (cb : CircuitBreaker) (now : Time)
    (hhalf : cb.state = StateHalfOpen) (hmax : cb.maxRequests < 2 ^ 32) :
    ((beforeRequest cb now).2.2 = none ↔ cb.counts.Requests < cb.maxRequests) ∧
    (cb.counts.Requests < cb.maxRequests →
      (beforeRequest cb now).1.counts =
          { cb.counts with Requests := cb.counts.Requests + 1 } ∧
        (beforeRequest cb now).2.1 = cb.generation ∧
        (beforeRequest cb now).1.state = StateHalfOpen ∧
        (beforeRequest cb now).1.generation = cb.generation) ∧
    (cb.maxRequests ≤ cb.counts.Requests →
      (beforeRequest cb now).2.2 = some ErrTooManyRequests ∧
      ∀ (now2 : Time) (req : W → W × Outcome R P) (w : W),
        (Execute cb now now2 req w).2.2 = Outcome.returned none (some ErrTooManyRequests) ∧
        (Execute cb now now2 req w).2.1 = w ∧
        (Execute cb now now2 req w).1.counts = cb.counts ∧
        (Execute cb now now2 req w).1.state = StateHalfOpen ∧
        (Execute cb now now2 req w).1.generation = cb.generation) ∧
    (cb.counts.Requests = 0 → ∀ ts : List Time,
      (admitAll cb ts).2 =
          List.replicate (min ts.length cb.maxRequests) none ++
          List.replicate (ts.length - cb.maxRequests) (some ErrTooManyRequests) ∧
        (admitAll cb ts).1.state = StateHalfOpen ∧
        (admitAll cb ts).1.generation = cb.generation ∧
        (admitAll cb ts).1.counts =
          { cb.counts with Requests := min ts.length cb.maxRequests }) := by
  have hb := beforeRequest_halfOpen cb now hhalf
  refine ⟨?_, ?_, ?_, ?_⟩
  · rw [hb]
    split_ifs with h
    · simp
      omega
    · simp
      omega
  · intro hlt
    rw [hb, if_neg (by omega)]
    have hmod : (cb.counts.Requests + 1) % 2 ^ 32 = cb.counts.Requests + 1 :=
      Nat.mod_eq_of_lt (by omega)
    rw [hmod]
    simp [hhalf]
  · intro hge
    rw [if_pos hge] at hb
    refine ⟨by rw [hb], ?_⟩
    intro now2 req w
    simp [Execute, hb, hhalf]
  · intro hzero ts
    have h := admitAll_halfOpen ts cb hhalf hmax (by omega)
    simp only [hzero, Nat.sub_zero, Nat.zero_add] at h
    exact ⟨h.1, h.2.1, h.2.2.1, h.2.2.2.2⟩

/-- Witness of C3 on `exampleHalfOpen`, whose `maxRequests` is `2`. -/
theorem C3_halfOpen_admits_maxRequests_witness :
    exampleHalfOpen.state = StateHalfOpen ∧ exampleHalfOpen.maxRequests < 2 ^ 32 ∧
    exampleHalfOpen.counts.Requests = 0 ∧
    (admitAll exampleHalfOpen [60000001, 60000002, 60000003]).2 =
      [none, none, some ErrTooManyRequests] :=
  ⟨rfl, by decide, rfl,
    ((C3_halfOpen_admits_maxRequests Nat String String exampleHalfOpen 60000001 rfl
      (by decide)).2.2.2 rfl
      [60000001, 60000002, 60000003]).1⟩

/-- C4. In state HalfOpen the lazy evaluation changes nothing, so the current generation
is the stored one; a failure recorded for it moves the breaker to Open at once, whatever
`maxRequests` and `readyToTrip` are: the generation is incremented, all counts are zero and
the expiry is `now + timeout`. -/
theorem C4_halfOpen_failure_reopens (cb : CircuitBreaker) (now : Time)
    (hhalf : cb.state = StateHalfOpen) :
    (currentState cb now).generation = cb.generation ∧
    (afterRequest cb now cb.generation false).state = StateOpen ∧
    (afterRequest cb now cb.generation false).generation = (cb.generation + 1) % 2 ^ 64 ∧
    (afterRequest cb now cb.generation false).counts = {} ∧
    (afterRequest cb now cb.generation false).expiry = now + cb.timeout := by
  rw [currentState_halfOpen cb now hhalf, afterRequest_halfOpen cb now hhalf false]
  have hne : (Lock cb).state ≠ StateOpen := by simp [hhalf]
  simp only [Bool.false_eq_true, if_false, onFailure, if_true, Unlock_state,
    Unlock_generation, Unlock_counts, Unlock_expiry]
  refine ⟨trivial, setState_state _ _ _, ?_, ?_, ?_⟩
  · rw [setState_generation _ _ _ (by simpa using hne)]
    rfl
  · rw [setState_counts _ _ _ (by simpa using hne)]
  · rw [setState_expiry_open _ _ (by simpa using hne)]
    rfl

/-- Witness of C4 on `exampleHalfOpen`. -/
theorem C4_halfOpen_failure_reopens_witness :
    exampleHalfOpen.state = StateHalfOpen ∧
    (currentState exampleHalfOpen 60000500).generation = exampleHalfOpen.generation ∧
    (afterRequest exampleHalfOpen 60000500 exampleHalfOpen.generation false).state
      = StateOpen ∧
    (afterRequest exampleHalfOpen 60000500 exampleHalfOpen.generation false).generation
      = (exampleHalfOpen.generation + 1) % 2 ^ 64 ∧
    (afterRequest exampleHalfOpen 60000500 exampleHalfOpen.generation false).counts = {} ∧
    (afterRequest exampleHalfOpen 60000500 exampleHalfOpen.generation false).expiry
      = 60000500 + exampleHalfOpen.timeout :=
  ⟨rfl, C4_halfOpen_failure_reopens exampleHalfOpen 60000500 rfl⟩

/-- C5. In state HalfOpen a success recorded for the current generation closes the breaker,
with all five counts zero and a new generation, when it brings `ConsecutiveSuccesses` to
`maxRequests` or beyond, and leaves it HalfOpen with the success counted when
`ConsecutiveSuccesses` stays below `maxRequests`.  Hence, from the start of a HalfOpen
generation of a breaker with `1 ≤ maxRequests` (which `NewCircuitBreaker` ensures),
`maxRequests` successful calls of `Execute` in sequence close the breaker and fewer leave
it HalfOpen. -/
theorem C5_halfOpen_successes_close (W R P : Type) (cb : CircuitBreaker) (now : Time)
    (hhalf : cb.state = StateHalfOpen) :
    (cb.maxRequests ≤ (cb.counts.ConsecutiveSuccesses + 1) % 2 ^ 32 →
      (afterRequest cb now cb.generation true).state = StateClosed ∧
      (afterRequest cb now cb.generation true).counts = {} ∧
      (afterRequest cb now cb.generation true).generation = (cb.generation + 1) % 2 ^ 64) ∧
    ((cb.counts.ConsecutiveSuccesses + 1) % 2 ^ 32 < cb.maxRequests →
      (afterRequest cb now cb.generation true).state = StateHalfOpen ∧
      (afterRequest cb now cb.generation true).generation = cb.generation ∧
      (afterRequest cb now cb.generation true).counts =
        { cb.counts with
          TotalSuccesses := (cb.counts.TotalSuccesses + 1) % 2 ^ 32
          ConsecutiveSuccesses := (cb.counts.ConsecutiveSuccesses + 1) % 2 ^ 32
          ConsecutiveFailures := 0 }) ∧
    (cb.counts = {} → 1 ≤ cb.maxRequests → cb.maxRequests < 2 ^ 32 →
      ∀ (calls : List (Time × Time × (W → W × Outcome R P))) (w : W),
        (∀ c ∈ calls, ReturnsNil c.2.2) →
        (calls.length < cb.maxRequests →
          (ExecuteAll cb calls w).1.state = StateHalfOpen) ∧
        (calls.length = cb.maxRequests →
          (ExecuteAll cb calls w).1.state = StateClosed ∧
          (ExecuteAll cb calls w).1.counts = {})) := by
  rw [afterRequest_halfOpen cb now hhalf true]
  simp only [if_true, Unlock_state, Unlock_counts, Unlock_generation]
  refine ⟨?_, ?_, ?_⟩
  · intro hge
    have hc := onSuccess_halfOpen_close (Lock cb) now (by simpa using hhalf)
      (by simpa using hge)
    exact ⟨hc.1, hc.2.1, by simpa using hc.2.2.1⟩
  · intro hlt
    rw [onSuccess_halfOpen_stay (Lock cb) now (by simpa using hlt)]
    simp [hhalf]
  · intro hzero hone hmax calls w hall
    have h := ExecuteAll_halfOpen_ok calls cb w hhalf hmax (by simp [hzero]) hall
    have hr : cb.counts.Requests = 0 := by simp [hzero]
    rw [hr] at h
    refine ⟨fun hlt => h.1 (by omega), fun heq => h.2 (by omega) (by omega)⟩

/-- Witness of C5 on `exampleHalfOpen`, whose `maxRequests` is `2`: two successful calls. -/
theorem C5_halfOpen_successes_close_witness :
    exampleHalfOpen.state = StateHalfOpen ∧ exampleHalfOpen.counts = {} ∧
    1 ≤ exampleHalfOpen.maxRequests ∧ exampleHalfOpen.maxRequests < 2 ^ 32 ∧
    (ExecuteAll exampleHalfOpen
      [(60000001, 60000002, okRequest), (60000003, 60000004, okRequest)] 0).1.state
        = StateClosed :=
  ⟨rfl, rfl, by decide, by decide,
    (((C5_halfOpen_successes_close Nat String String exampleHalfOpen 60000001 rfl).2.2 rfl
      (by decide) (by decide)
      [(60000001, 60000002, okRequest), (60000003, 60000004, okRequest)] 0
      (by
        intro c hc
        simp only [List.mem_cons, List.mem_singleton, List.not_mem_nil, or_false] at hc
        rcases hc with rfl | rfl <;> exact fun w => ⟨w + 1, some "ok", rfl⟩)).2 rfl).1⟩

/-- C6. A result whose generation differs from the generation current at completion time
is discarded, for every state, instant and outcome: state, generation, counts and expiry
after `afterRequest` are those that the lazy evaluation `currentState` alone produces. -/
theorem C6_stale_result_discarded (cb : CircuitBreaker) (now : Time) (g : Nat)
    (success : Bool) (hstale : g ≠ (currentState cb now).generation) :
    (afterRequest cb now g success).state = (currentState cb now).state ∧
    (afterRequest cb now g success).generation = (currentState cb now).generation ∧
    (afterRequest cb now g success).counts = (currentState cb now).counts ∧
    (afterRequest cb now g success).expiry = (currentState cb now).expiry := by
  simp [afterRequest, hstale]

/-- Witness of C6: a success of generation `1` reaching `exampleOpen`, whose generation
is `2`, before the timeout. -/
theorem C6_stale_result_discarded_witness :
    1 ≠ (currentState exampleOpen 5000).generation ∧
    (afterRequest exampleOpen 5000 1 true).state = (currentState exampleOpen 5000).state ∧
    (afterRequest exampleOpen 5000 1 true).generation
      = (currentState exampleOpen 5000).generation ∧
    (afterRequest exampleOpen 5000 1 true).counts = (currentState exampleOpen 5000).counts ∧
    (afterRequest exampleOpen 5000 1 true).expiry = (currentState exampleOpen 5000).expiry :=
  ⟨by decide, C6_stale_result_discarded exampleOpen 5000 1 true (by decide)⟩

/-- C7. `setState` to a state other than the current one sets that state, increments the
generation by one (as `uint64`), zeroes all counts and sets the expiry: `now + interval`
on entering Closed with a non-zero interval, the zero time on entering Closed with a zero
interval, `now + timeout` on entering Open, the zero time on entering HalfOpen.  `setState`
to the current state returns the breaker unchanged. -/
theorem C7_setState_new_generation (cb : CircuitBreaker) (s : State) (now : Time) :
    (cb.state ≠ s →
      (setState cb s now).state = s ∧
      (setState cb s now).generation = (cb.generation + 1) % 2 ^ 64 ∧
      (setState cb s now).counts = {} ∧
      (s = StateClosed → cb.interval ≠ 0 → (setState cb s now).expiry = now + cb.interval) ∧
      (s = StateClosed → cb.interval = 0 → (setState cb s now).expiry = zeroTime) ∧
      (s = StateOpen → (setState cb s now).expiry = now + cb.timeout) ∧
      (s = StateHalfOpen → (setState cb s now).expiry = zeroTime)) ∧
    (cb.state = s → setState cb s now = cb) := by
  refine ⟨fun hne => ⟨setState_state cb now s, setState_generation cb now s hne,
    setState_counts cb now s hne, ?_, ?_, ?_, ?_⟩, setState_eq_of_state cb now s⟩
  · intro hs hi
    subst hs
    rw [setState_expiry_closed cb now hne, if_neg hi]
  · intro hs hi
    subst hs
    rw [setState_expiry_closed cb now hne, if_pos hi]
  · intro hs
    subst hs
    exact setState_expiry_open cb now hne
  · intro hs
    subst hs
    exact setState_expiry_halfOpen cb now hne

/-- Witness of C7: `exampleClosed` is moved to Open at instant `7000`. -/
theorem C7_setState_new_generation_witness :
    exampleClosed.state ≠ StateOpen ∧
    (setState exampleClosed StateOpen 7000).state = StateOpen ∧
    (setState exampleClosed StateOpen 7000).generation
      = (exampleClosed.generation + 1) % 2 ^ 64 ∧
    (setState exampleClosed StateOpen 7000).counts = {} ∧
    (setState exampleClosed StateOpen 7000).expiry = 7000 + exampleClosed.timeout :=
  have h := (C7_setState_new_generation exampleClosed StateOpen 7000).1 (by decide)
  ⟨by decide, h.1, h.2.1, h.2.2.1, h.2.2.2.2.2.1 rfl⟩

/-- C8. Construction yields generation `1` with zero counts.  Each of the lazy evaluation
`currentState`, the admission `beforeRequest` and the completion `afterRequest` either keeps
the generation, and then the counts are the old ones with at most the one request, success
or failure of that call counted, or increments the generation (once; `afterRequest` possibly
twice), and then the counts are the zero counts with at most that one request, success or
failure counted: the counts are reset in exactly the calls that increment the generation.
Absent `uint64` wraparound the generation never decreases. -/
theorem C8_counts_reset_iff_new_generation (config : Config) (cb : CircuitBreaker)
    (now : Time) (g : Nat) (success : Bool) :
    ((NewCircuitBreaker config now).generation = 1 ∧
      (NewCircuitBreaker config now).counts = {}) ∧
    (((currentState cb now).generation = cb.generation ∧
        (currentState cb now).counts = cb.counts) ∨
      ((currentState cb now).generation = (cb.generation + 1) % 2 ^ 64 ∧
        (currentState cb now).counts = {})) ∧
    (((beforeRequest cb now).1.generation = cb.generation ∧
        ((beforeRequest cb now).1.counts = cb.counts ∨
          (beforeRequest cb now).1.counts = countRequest cb.counts)) ∨
      ((beforeRequest cb now).1.generation = (cb.generation + 1) % 2 ^ 64 ∧
        ((beforeRequest cb now).1.counts = {} ∨
          (beforeRequest cb now).1.counts = countRequest {}))) ∧
    (((afterRequest cb now g success).generation = cb.generation ∧
        ((afterRequest cb now g success).counts = cb.counts ∨
          (afterRequest cb now g success).counts = countSuccess cb.counts ∨
          (afterRequest cb now g success).counts = countFailure cb.counts)) ∨
      ((afterRequest cb now g success).generation = (cb.generation + 1) % 2 ^ 64 ∧
        ((afterRequest cb now g success).counts = {} ∨
          (afterRequest cb now g success).counts = countSuccess {} ∨
          (afterRequest cb now g success).counts = countFailure {})) ∨
      ((afterRequest cb now g success).generation = (cb.generation + 1 + 1) % 2 ^ 64 ∧
        (afterRequest cb now g success).counts = {})) ∧
    (cb.generation + 2 < 2 ^ 64 →
      cb.generation ≤ (currentState cb now).generation ∧
      cb.generation ≤ (beforeRequest cb now).1.generation ∧
      cb.generation ≤ (afterRequest cb now g success).generation) := by
  have hc := currentState_cases cb now
  have hb := beforeRequest_cases cb now
  have ha := afterRequest_cases cb now g success
  refine ⟨⟨?_, ?_⟩, hc, hb, ha, ?_⟩
  · simp [NewCircuitBreaker]
  · simp [NewCircuitBreaker]
  · intro hw
    refine ⟨?_, ?_, ?_⟩
    · rcases hc with h | h <;> rw [h.1] <;> omega
    · rcases hb with h | h <;> rw [h.1] <;> omega
    · rcases ha with h | h | h <;> rw [h.1] <;> omega

/-- Witness of C8: `exampleOpen` evaluated after its timeout. -/
theorem C8_counts_reset_iff_new_generation_witness :
    exampleOpen.generation + 2 < 2 ^ 64 ∧
    exampleOpen.generation ≤ (currentState exampleOpen 60000000).generation ∧
    exampleOpen.generation ≤ (beforeRequest exampleOpen 60000000).1.generation ∧
    exampleOpen.generation ≤ (afterRequest exampleOpen 60000000 2 false).generation :=
  ⟨by decide,
    (C8_counts_reset_iff_new_generation exampleConfig exampleOpen 60000000 2 false).2.2.2.2
      (by decide)⟩

/-- C9. For a breaker that is Open with its expiry strictly before `now1`, and with
`1 ≤ maxRequests` (which `NewCircuitBreaker` ensures), the next `Execute` is not rejected:
`beforeRequest` returns a nil error and the new generation, and leaves the breaker HalfOpen
in that new generation with `Requests = 1`, every other count zero and the zero expiry;
`Execute` calls the operation on the given world, hands its outcome on, and completes with
`afterRequest` for the new generation. -/
theorem C9_open_timeout_admits_trial (W R P : Type) (cb : CircuitBreaker) (now1 now2 : Time)
    (req : W → W × Outcome R P) (w : W)
    (hopen : cb.state = StateOpen) (hexpired : cb.expiry < now1)
    (hone : 1 ≤ cb.maxRequests) :
    (beforeRequest cb now1).2.2 = none ∧
    (beforeRequest cb now1).2.1 = (cb.generation + 1) % 2 ^ 64 ∧
    (beforeRequest cb now1).1.state = StateHalfOpen ∧
    (beforeRequest cb now1).1.generation = (cb.generation + 1) % 2 ^ 64 ∧
    (beforeRequest cb now1).1.counts = { Requests := 1 } ∧
    (beforeRequest cb now1).1.expiry = zeroTime ∧
    (Execute cb now1 now2 req w).2.1 = (req w).1 ∧
    (Execute cb now1 now2 req w).2.2 = (req w).2 ∧
    (Execute cb now1 now2 req w).1 =
      afterRequest (beforeRequest cb now1).1 now2 ((cb.generation + 1) % 2 ^ 64)
        (match (req w).2 with
          | Outcome.returned _ err => err.isNone
          | Outcome.panicked _ => false) := by
  have hne : (Lock cb).state ≠ StateHalfOpen := by simp [hopen]
  have hcur : currentState (Lock cb) now1 = setState (Lock cb) StateHalfOpen now1 := by
    rw [currentState_open (Lock cb) now1 (by simpa using hopen)]
    simp [hexpired]
  have hst := setState_state (Lock cb) now1 StateHalfOpen
  have hgen := setState_generation (Lock cb) now1 StateHalfOpen hne
  have hcnt := setState_counts (Lock cb) now1 StateHalfOpen hne
  have hexp := setState_expiry_halfOpen (Lock cb) now1 hne
  have hb : beforeRequest cb now1 =
      (Unlock { setState (Lock cb) StateHalfOpen now1 with
          counts := { Requests := 1 } }, (cb.generation + 1) % 2 ^ 64, none) := by
    simp only [beforeRequest, hcur, hst, hcnt, hgen, Lock_generation, setState_maxRequests,
      Lock_maxRequests]
    have h0 : ¬ cb.maxRequests ≤ 0 := by omega
    simp [h0]
  refine ⟨by rw [hb], by rw [hb], by rw [hb]; exact hst, by rw [hb]; exact hgen,
    by rw [hb]; rfl, by rw [hb]; exact hexp, ?_, ?_, ?_⟩
  · simp only [Execute, hb]
    rcases req w with ⟨w1, ⟨r, e⟩ | e⟩ <;> rfl
  · simp only [Execute, hb]
    rcases req w with ⟨w1, ⟨r, e⟩ | e⟩ <;> rfl
  · simp only [Execute, hb]
    rcases req w with ⟨w1, ⟨r, e⟩ | e⟩ <;> rfl

/-- Witness of C9: `exampleOpen` is called `60 ms` after it opened; its timeout is `50 ms`. -/
theorem C9_open_timeout_admits_trial_witness :
    exampleOpen.state = StateOpen ∧ exampleOpen.expiry < 60000000 ∧
    1 ≤ exampleOpen.maxRequests ∧
    (beforeRequest exampleOpen 60000000).2.2 = none ∧
    (beforeRequest exampleOpen 60000000).1.state = StateHalfOpen ∧
    (beforeRequest exampleOpen 60000000).1.counts = { Requests := 1 } ∧
    (Execute exampleOpen 60000000 60000500 okRequest 7).2.1 = 8 :=
  have h := C9_open_timeout_admits_trial Nat String String exampleOpen 60000000 60000500
    okRequest 7 rfl (by decide) (by decide)
  ⟨rfl, by decide, by decide, h.1, h.2.2.1, h.2.2.2.2.1, h.2.2.2.2.2.2.1⟩

/-- C10. When `beforeRequest` admits the call and the operation panics with the value
`e`, `Execute` leaves the breaker exactly as `afterRequest(generation, false)` leaves it,
for the generation that `beforeRequest` returned, and then panics with the same value `e`:
the panic is not turned into a return.  No success is recorded: neither `TotalSuccesses`
nor `ConsecutiveSuccesses` grows. -/
theorem C10_panic_recorded_and_reraised (W R P : Type) (cb cb1 : CircuitBreaker)
    (now1 now2 : Time) (req : W → W × Outcome R P) (w w1 : W) (generation : Nat) (e : P)
    (hadm : beforeRequest cb now1 = (cb1, generation, none))
    (hpanic : req w = (w1, Outcome.panicked e)) :
    Execute cb now1 now2 req w = (afterRequest cb1 now2 generation false, w1, Outcome.panicked e) ∧
    (Execute cb now1 now2 req w).1.counts.TotalSuccesses ≤ cb1.counts.TotalSuccesses ∧
    (Execute cb now1 now2 req w).1.counts.ConsecutiveSuccesses
      ≤ cb1.counts.ConsecutiveSuccesses := by
  have hex : Execute cb now1 now2 req w =
      (afterRequest cb1 now2 generation false, w1, Outcome.panicked e) := by
    simp [Execute, hadm, hpanic]
  have hcur := currentState_cases (Lock cb1) now2
  have hf := onFailure_cases (currentState (Lock cb1) now2) now2
    (currentState (Lock cb1) now2).state
  have hcounts : (afterRequest cb1 now2 generation false).counts = cb1.counts ∨
      (afterRequest cb1 now2 generation false).counts = countFailure cb1.counts ∨
      (afterRequest cb1 now2 generation false).counts = {} ∨
      (afterRequest cb1 now2 generation false).counts = countFailure {} := by
    simp only [Lock_counts] at hcur
    simp only [afterRequest, Bool.false_eq_true, if_false]
    split_ifs
    · rcases hcur with h | h
      · exact Or.inl h.2
      · exact Or.inr (Or.inr (Or.inl h.2))
    · rcases hcur with h | h <;> rcases hf with k | k
      · exact Or.inr (Or.inl (by rw [Unlock_counts, k.2, h.2]))
      · exact Or.inr (Or.inr (Or.inl k.2))
      · exact Or.inr (Or.inr (Or.inr (by rw [Unlock_counts, k.2, h.2])))
      · exact Or.inr (Or.inr (Or.inl k.2))
  refine ⟨hex, ?_, ?_⟩
  · rw [hex]
    rcases hcounts with h | h | h | h <;> simp [h, countFailure]
  · rw [hex]
    rcases hcounts with h | h | h | h <;> simp [h, countFailure]

/-- Witness of C10: the first call on `exampleClosed` panics with `"boom"`. -/
theorem C10_panic_recorded_and_reraised_witness :
    beforeRequest exampleClosed 1100 = ((beforeRequest exampleClosed 1100).1, 1, none) ∧
    panicRequest 0 = (1, Outcome.panicked "boom") ∧
    Execute exampleClosed 1100 1200 panicRequest 0 =
      (afterRequest (beforeRequest exampleClosed 1100).1 1200 1 false, 1,
        Outcome.panicked "boom") ∧
    (Execute exampleClosed 1100 1200 panicRequest 0).1.counts.TotalFailures = 1 :=
  have h := C10_panic_recorded_and_reraised Nat String String exampleClosed
    (beforeRequest exampleClosed 1100).1 1100 1200 panicRequest 0 1 1 "boom" rfl rfl
  ⟨rfl, rfl, h.1, by rw [h.1]; rfl⟩

end circuitbreaker

namespace healthcheck

open HealthStatus
open circuitbreaker (Time)

/-! ## Helper lemmas for the passive checker -/

theorem wrapInt_of_range (x : Int) (hlo : -2 ^ 63 ≤ x) (hhi : x < 2 ^ 63) : wrapInt x = x := by
  unfold wrapInt
  have h : (x + 2 ^ 63) % 2 ^ 64 = x + 2 ^ 63 := Int.emod_eq_of_lt (by omega) (by omega)
  rw [h]
  omega

/-- A call of `RecordSuccess` that reaches the threshold: the counters afterwards. -/
theorem RecordSuccess_reached (phc : PassiveHealthChecker) (url : String) (now : Time)
    (h : phc.successThreshold ≤ wrapInt (phc.consecutiveSuccesses url + 1)) :
    (phc.RecordSuccess url now).consecutiveSuccesses url = 0 ∧
    (phc.RecordSuccess url now).consecutiveFailures url = 0 ∧
    (phc.RecordSuccess url now).successThreshold = phc.successThreshold ∧
    (phc.RecordSuccess url now).failureThreshold = phc.failureThreshold := by
  simp only [PassiveHealthChecker.RecordSuccess, Function.update_same, ge_iff_le, h, if_true]
  refine ⟨trivial, ?_, ?_, ?_⟩ <;>
  · split
    · split
      · split_ifs <;> simp
      · simp
    · simp

/-- A call of `RecordSuccess` that stays below the threshold changes the two counters of
the URL and nothing else. -/
theorem RecordSuccess_below (phc : PassiveHealthChecker) (url : String) (now : Time)
    (h : wrapInt (phc.consecutiveSuccesses url + 1) < phc.successThreshold) :
    phc.RecordSuccess url now =
      { phc with
        consecutiveFailures := Function.update phc.consecutiveFailures url 0
        consecutiveSuccesses := Function.update phc.consecutiveSuccesses url
          (wrapInt (phc.consecutiveSuccesses url + 1)) } := by
  simp only [PassiveHealthChecker.RecordSuccess, Function.update_same, ge_iff_le,
    not_le.mpr h, if_false]

/-- A call of `RecordFailure` that reaches the threshold: the counters afterwards. -/
theorem RecordFailure_reached (phc : PassiveHealthChecker) (url : String) (now : Time)
    (h : phc.failureThreshold ≤ wrapInt (phc.consecutiveFailures url + 1)) :
    (phc.RecordFailure url now).consecutiveFailures url = 0 ∧
    (phc.RecordFailure url now).consecutiveSuccesses url = 0 ∧
    (phc.RecordFailure url now).successThreshold = phc.successThreshold ∧
    (phc.RecordFailure url now).failureThreshold = phc.failureThreshold := by
  simp only [PassiveHealthChecker.RecordFailure, Function.update_same, ge_iff_le, h, if_true]
  refine ⟨trivial, ?_, ?_, ?_⟩ <;>
  · split
    · split
      · split_ifs <;> simp
      · simp
    · simp

/-- A call of `RecordFailure` that stays below the threshold changes the two counters of
the URL and nothing else. -/
theorem RecordFailure_below (phc : PassiveHealthChecker) (url : String) (now : Time)
    (h : wrapInt (phc.consecutiveFailures url + 1) < phc.failureThreshold) :
    phc.RecordFailure url now =
      { phc with
        consecutiveSuccesses := Function.update phc.consecutiveSuccesses url 0
        consecutiveFailures := Function.update phc.consecutiveFailures url
          (wrapInt (phc.consecutiveFailures url + 1)) } := by
  simp only [PassiveHealthChecker.RecordFailure, Function.update_same, ge_iff_le,
    not_le.mpr h, if_false]

/-- Replacing the element that `findIdx?` finds by one that satisfies the test leaves the
position found unchanged. -/
theorem findIdx?_set_same {α : Type} (xs : List α) (p : α → Bool) (i : Nat) (b : α)
    (h : xs.findIdx? p = some i) (hb : p b = true) : (xs.set i b).findIdx? p = some i := by
  rw [List.findIdx?_eq_some_iff_getElem] at h ⊢
  obtain ⟨hi, _, hlt⟩ := h
  refine ⟨by simpa using hi, by simpa using hb, ?_⟩
  intro j hji
  have hne : i ≠ j := by omega
  rw [List.getElem_set_ne hne]
  exact hlt j hji

/-- The status seen through `statusOf` is decided by the list of backends alone. -/
theorem statusOf_congr (phc phc1 : PassiveHealthChecker) (url : String)
    (h : phc1.backends = phc.backends) : phc1.statusOf url = phc.statusOf url := by
  simp [PassiveHealthChecker.statusOf, PassiveHealthChecker.findBackend, h]

/-- A registered backend with a known status: its position and record. -/
theorem statusOf_eq_some (phc : PassiveHealthChecker) (url : String) (st : HealthStatus)
    (h : phc.statusOf url = some st) :
    ∃ (i : Nat) (b : Backend), phc.findBackend url = some i ∧ phc.backends[i]? = some b ∧
      b.Status = st ∧ b.URL = url := by
  unfold PassiveHealthChecker.statusOf at h
  split at h
  · rename_i i hi
    rw [Option.map_eq_some'] at h
    obtain ⟨b, hb, hst⟩ := h
    refine ⟨i, b, hi, hb, hst, ?_⟩
    have hp := List.findIdx?_of_eq_some hi
    simp only [PassiveHealthChecker.findBackend] at hi
    rw [hb] at hp
    simpa using hp
  · exact absurd h (by simp)

/-- The status of a registered backend after its record is replaced by one with the same
URL. -/
theorem statusOf_set (phc phc1 : PassiveHealthChecker) (url : String) (i : Nat) (b : Backend)
    (hf : phc.findBackend url = some i) (hu : b.URL = url)
    (h : phc1.backends = phc.backends.set i b) : phc1.statusOf url = some b.Status := by
  have hi : i < phc.backends.length := by
    have := (List.findIdx?_eq_some_iff_getElem.mp hf)
    exact this.1
  have hf1 : phc1.findBackend url = some i := by
    simp only [PassiveHealthChecker.findBackend, h]
    exact findIdx?_set_same _ _ _ _ hf (by simpa using hu)
  simp [PassiveHealthChecker.statusOf, hf1, h, hi, Backend.GetStatus]

/-- A call of `RecordFailure` that reaches the threshold marks a registered healthy backend
unhealthy. -/
theorem RecordFailure_marks (phc : PassiveHealthChecker) (url : String) (now : Time)
    (hst : phc.statusOf url = some Healthy)
    (h : phc.failureThreshold ≤ wrapInt (phc.consecutiveFailures url + 1)) :
    (phc.RecordFailure url now).statusOf url = some Unhealthy := by
  obtain ⟨i, b, hf, hb, hs, hu⟩ := statusOf_eq_some phc url Healthy hst
  have hback : (phc.RecordFailure url now).backends =
      phc.backends.set i (b.MarkUnhealthy now) := by
    simp only [PassiveHealthChecker.RecordFailure, Function.update_same, ge_iff_le, h, if_true]
    simp [PassiveHealthChecker.findBackend] at hf
    simp [PassiveHealthChecker.findBackend, hf, hb, Backend.GetStatus, hs]
  exact statusOf_set phc _ url i (b.MarkUnhealthy now) hf (by simpa [Backend.MarkUnhealthy] using hu)
    hback

/-- A call of `RecordSuccess` that reaches the threshold marks a registered unhealthy
backend healthy. -/
theorem RecordSuccess_marks (phc : PassiveHealthChecker) (url : String) (now : Time)
    (hst : phc.statusOf url = some Unhealthy)
    (h : phc.successThreshold ≤ wrapInt (phc.consecutiveSuccesses url + 1)) :
    (phc.RecordSuccess url now).statusOf url = some Healthy := by
  obtain ⟨i, b, hf, hb, hs, hu⟩ := statusOf_eq_some phc url Unhealthy hst
  have hback : (phc.RecordSuccess url now).backends =
      phc.backends.set i (b.MarkHealthy now) := by
    simp only [PassiveHealthChecker.RecordSuccess, Function.update_same, ge_iff_le, h, if_true]
    simp [PassiveHealthChecker.findBackend] at hf
    simp [PassiveHealthChecker.findBackend, hf, hb, Backend.GetStatus, hs]
  exact statusOf_set phc _ url i (b.MarkHealthy now) hf (by simpa [Backend.MarkHealthy] using hu)
    hback

/-- Failures in sequence for one URL, from a counter `f ≥ 0` towards the threshold. -/
theorem recordFailures_run (url : String) (times : List Time) :
    ∀ phc : PassiveHealthChecker, 0 ≤ phc.consecutiveFailures url →
      phc.failureThreshold < 2 ^ 63 →
      (phc.consecutiveFailures url + times.length < phc.failureThreshold →
        (recordFailures phc url times).backends = phc.backends ∧
        (recordFailures phc url times).consecutiveFailures url =
          phc.consecutiveFailures url + times.length) ∧
      (1 ≤ times.length → phc.consecutiveFailures url + times.length = phc.failureThreshold →
        phc.statusOf url = some Healthy →
        (recordFailures phc url times).statusOf url = some Unhealthy ∧
        (recordFailures phc url times).consecutiveFailures url = 0) := by
  induction times with
  | nil =>
    intro phc _ _
    simp [recordFailures]
  | cons t rest ih =>
    intro phc h0 hT
    have hw0 : phc.consecutiveFailures url + 1 ≤ phc.failureThreshold →
        wrapInt (phc.consecutiveFailures url + 1) = phc.consecutiveFailures url + 1 :=
      fun hle => wrapInt_of_range _ (by omega) (by omega)
    simp only [recordFailures, List.length_cons, Nat.cast_add, Nat.cast_one]
    constructor
    · intro hlt
      have hw := hw0 (by omega)
      have hstep := RecordFailure_below phc url t (by rw [hw]; omega)
      have hi := (ih (phc.RecordFailure url t) (by rw [hstep]; simp [hw]; omega)
        (by rw [hstep]; exact hT)).1 (by rw [hstep]; simp [hw]; omega)
      rw [hi.1, hi.2, hstep]
      simp [hw]
      omega
    · intro _ heq hst
      have hw := hw0 (by omega)
      cases rest with
      | nil =>
        simp only [List.length_nil, Nat.cast_zero, zero_add] at heq
        have hreach : phc.failureThreshold ≤ wrapInt (phc.consecutiveFailures url + 1) := by
          rw [hw]; omega
        exact ⟨RecordFailure_marks phc url t hst hreach,
          (RecordFailure_reached phc url t hreach).1⟩
      | cons t2 rest2 =>
        simp only [List.length_cons, Nat.cast_add, Nat.cast_one] at heq
        have hstep := RecordFailure_below phc url t (by rw [hw]; omega)
        have hi := (ih (phc.RecordFailure url t) (by rw [hstep]; simp [hw]; omega)
          (by rw [hstep]; exact hT)).2 (by simp)
          (by rw [hstep]; simp [hw]; omega)
          (by rw [statusOf_congr phc _ url (by rw [hstep])]; exact hst)
        exact hi

/-- Successes in sequence for one URL, from a counter `c ≥ 0` towards the threshold. -/
theorem recordSuccesses_run (url : String) (times : List Time) :
    ∀ phc : PassiveHealthChecker, 0 ≤ phc.consecutiveSuccesses url →
      phc.successThreshold < 2 ^ 63 →
      (phc.consecutiveSuccesses url + times.length < phc.successThreshold →
        (recordSuccesses phc url times).backends = phc.backends ∧
        (recordSuccesses phc url times).consecutiveSuccesses url =
          phc.consecutiveSuccesses url + times.length) ∧
      (1 ≤ times.length → phc.consecutiveSuccesses url + times.length = phc.successThreshold →
        phc.statusOf url = some Unhealthy →
        (recordSuccesses phc url times).statusOf url = some Healthy ∧
        (recordSuccesses phc url times).consecutiveSuccesses url = 0) := by
  induction times with
  | nil =>
    intro phc _ _
    simp [recordSuccesses]
  | cons t rest ih =>
    intro phc h0 hT
    have hw0 : phc.consecutiveSuccesses url + 1 ≤ phc.successThreshold →
        wrapInt (phc.consecutiveSuccesses url + 1) = phc.consecutiveSuccesses url + 1 :=
      fun hle => wrapInt_of_range _ (by omega) (by omega)
    simp only [recordSuccesses, List.length_cons, Nat.cast_add, Nat.cast_one]
    constructor
    · intro hlt
      have hw := hw0 (by omega)
      have hstep := RecordSuccess_below phc url t (by rw [hw]; omega)
      have hi := (ih (phc.RecordSuccess url t) (by rw [hstep]; simp [hw]; omega)
        (by rw [hstep]; exact hT)).1 (by rw [hstep]; simp [hw]; omega)
      rw [hi.1, hi.2, hstep]
      simp [hw]
      omega
    · intro _ heq hst
      have hw := hw0 (by omega)
      cases rest with
      | nil =>
        simp only [List.length_nil, Nat.cast_zero, zero_add] at heq
        have hreach : phc.successThreshold ≤ wrapInt (phc.consecutiveSuccesses url + 1) := by
          rw [hw]; omega
        exact ⟨RecordSuccess_marks phc url t hst hreach,
          (RecordSuccess_reached phc url t hreach).1⟩
      | cons t2 rest2 =>
        simp only [List.length_cons, Nat.cast_add, Nat.cast_one] at heq
        have hstep := RecordSuccess_below phc url t (by rw [hw]; omega)
        have hi := (ih (phc.RecordSuccess url t) (by rw [hstep]; simp [hw]; omega)
          (by rw [hstep]; exact hT)).2 (by simp)
          (by rw [hstep]; simp [hw]; omega)
          (by rw [statusOf_congr phc _ url (by rw [hstep])]; exact hst)
        exact hi

end healthcheck

namespace healthcheck

open HealthStatus
open circuitbreaker (Time)

/-! ## The claims about the passive checker -/

/-- C16. After `RecordSuccess(url)` the consecutive-failure counter of `url` is zero and
after `RecordFailure(url)` its consecutive-success counter is zero, for every checker and
every URL; so after either call at most one of the two counters of `url` is non-zero. -/
theorem C16_record_zeroes_opposite_counter (phc : PassiveHealthChecker) (url : String)
    (now : Time) :
    (phc.RecordSuccess url now).GetConsecutiveFailures url = 0 ∧
    (phc.RecordFailure url now).GetConsecutiveSuccesses url = 0 ∧
    ((phc.RecordSuccess url now).GetConsecutiveFailures url = 0 ∨
      (phc.RecordSuccess url now).GetConsecutiveSuccesses url = 0) ∧
    ((phc.RecordFailure url now).GetConsecutiveFailures url = 0 ∨
      (phc.RecordFailure url now).GetConsecutiveSuccesses url = 0) := by
  have hs : (phc.RecordSuccess url now).GetConsecutiveFailures url = 0 := by
    unfold PassiveHealthChecker.GetConsecutiveFailures
    by_cases h : phc.successThreshold ≤ wrapInt (phc.consecutiveSuccesses url + 1)
    · exact (RecordSuccess_reached phc url now h).2.1
    · rw [RecordSuccess_below phc url now (not_le.mp h)]
      simp
  have hf : (phc.RecordFailure url now).GetConsecutiveSuccesses url = 0 := by
    unfold PassiveHealthChecker.GetConsecutiveSuccesses
    by_cases h : phc.failureThreshold ≤ wrapInt (phc.consecutiveFailures url + 1)
    · exact (RecordFailure_reached phc url now h).2.1
    · rw [RecordFailure_below phc url now (not_le.mp h)]
      simp
  exact ⟨hs, hf, Or.inl hs, Or.inr hf⟩

/-- C17. With `1 ≤ failureThreshold`, a registered healthy backend and a failure counter
of zero: after fewer than `failureThreshold` consecutive calls of `RecordFailure` the
backend is still healthy and `GetConsecutiveFailures` returns the number of calls; after
exactly `failureThreshold` calls the backend is unhealthy and `GetConsecutiveFailures`
returns zero.  The bound `failureThreshold < 2^63` is the range of `int`. -/
theorem C17_failures_to_threshold (phc : PassiveHealthChecker) (url : String)
    (times : List Time)
    (hT : 1 ≤ phc.failureThreshold) (hrange : phc.failureThreshold < 2 ^ 63)
    (hhealthy : phc.statusOf url = some Healthy)
    (hzero : phc.GetConsecutiveFailures url = 0) :
    ((times.length : Int) < phc.failureThreshold →
      (recordFailures phc url times).statusOf url = some Healthy ∧
      (recordFailures phc url times).GetConsecutiveFailures url = times.length) ∧
    ((times.length : Int) = phc.failureThreshold →
      (recordFailures phc url times).statusOf url = some Unhealthy ∧
      (recordFailures phc url times).GetConsecutiveFailures url = 0) := by
  unfold PassiveHealthChecker.GetConsecutiveFailures at hzero ⊢
  have h := recordFailures_run url times phc (by omega) hrange
  rw [hzero] at h
  constructor
  · intro hlt
    have h1 := h.1 (by omega)
    exact ⟨by rw [statusOf_congr phc _ url h1.1]; exact hhealthy, by rw [h1.2]; omega⟩
  · intro heq
    exact h.2 (by omega) (by omega) hhealthy

/-- Witness of C17 on the checker of `TestPassiveHealthChecker_RecordFailure`: three
failures with a threshold of three. -/
theorem C17_failures_to_threshold_witness :
    1 ≤ exampleChecker.failureThreshold ∧ exampleChecker.failureThreshold < 2 ^ 63 ∧
    exampleChecker.statusOf "http://localhost:8081" = some Healthy ∧
    exampleChecker.GetConsecutiveFailures "http://localhost:8081" = 0 ∧
    (recordFailures exampleChecker "http://localhost:8081" [2000, 3000, 4000]).statusOf
      "http://localhost:8081" = some Unhealthy ∧
    (recordFailures exampleChecker "http://localhost:8081"
      [2000, 3000, 4000]).GetConsecutiveFailures "http://localhost:8081" = 0 :=
  ⟨by decide, by decide, rfl, rfl,
    (C17_failures_to_threshold exampleChecker "http://localhost:8081" [2000, 3000, 4000]
      (by decide) (by decide) rfl rfl).2 (by decide)⟩

/-- C18. With `1 ≤ successThreshold`, a registered unhealthy backend and a success counter
of zero: after fewer than `successThreshold` consecutive calls of `RecordSuccess` the
backend is still unhealthy (and `GetConsecutiveSuccesses` returns the number of calls);
after exactly `successThreshold` calls the backend is healthy and `GetConsecutiveSuccesses`
returns zero.  The bound `successThreshold < 2^63` is the range of `int`. -/
theorem C18_successes_to_threshold (phc : PassiveHealthChecker) (url : String)
    (times : List Time)
    (hS : 1 ≤ phc.successThreshold) (hrange : phc.successThreshold < 2 ^ 63)
    (hunhealthy : phc.statusOf url = some Unhealthy)
    (hzero : phc.GetConsecutiveSuccesses url = 0) :
    ((times.length : Int) < phc.successThreshold →
      (recordSuccesses phc url times).statusOf url = some Unhealthy ∧
      (recordSuccesses phc url times).GetConsecutiveSuccesses url = times.length) ∧
    ((times.length : Int) = phc.successThreshold →
      (recordSuccesses phc url times).statusOf url = some Healthy ∧
      (recordSuccesses phc url times).GetConsecutiveSuccesses url = 0) := by
  unfold PassiveHealthChecker.GetConsecutiveSuccesses at hzero ⊢
  have h := recordSuccesses_run url times phc (by omega) hrange
  rw [hzero] at h
  constructor
  · intro hlt
    have h1 := h.1 (by omega)
    exact ⟨by rw [statusOf_congr phc _ url h1.1]; exact hunhealthy, by rw [h1.2]; omega⟩
  · intro heq
    exact h.2 (by omega) (by omega) hunhealthy

/-- Witness of C18 on the checker of `TestPassiveHealthChecker_RecordSuccess`: two
successes with a threshold of two. -/
theorem C18_successes_to_threshold_witness :
    1 ≤ exampleCheckerUnhealthy.successThreshold ∧
    exampleCheckerUnhealthy.successThreshold < 2 ^ 63 ∧
    exampleCheckerUnhealthy.statusOf "http://localhost:8081" = some Unhealthy ∧
    exampleCheckerUnhealthy.GetConsecutiveSuccesses "http://localhost:8081" = 0 ∧
    (recordSuccesses exampleCheckerUnhealthy "http://localhost:8081" [2000, 3000]).statusOf
      "http://localhost:8081" = some Healthy ∧
    (recordSuccesses exampleCheckerUnhealthy "http://localhost:8081"
      [2000, 3000]).GetConsecutiveSuccesses "http://localhost:8081" = 0 :=
  ⟨by decide, by decide, rfl, rfl,
    (C18_successes_to_threshold exampleCheckerUnhealthy "http://localhost:8081" [2000, 3000]
      (by decide) (by decide) rfl rfl).2 (by decide)⟩

/-- C19, refuted as stated: the backend of `exampleChecker` is healthy, its success
counter is `1` after one success, and the second success (threshold `2`) leaves the counter
at `0`, not one higher than before. -/
theorem C19_counterexample :
    (exampleChecker.RecordSuccess "http://localhost:8081" 2000).statusOf
      "http://localhost:8081" = some Healthy ∧
    (exampleChecker.RecordSuccess "http://localhost:8081" 2000).GetConsecutiveSuccesses
      "http://localhost:8081" = 1 ∧
    ((exampleChecker.RecordSuccess "http://localhost:8081" 2000).RecordSuccess
      "http://localhost:8081" 3000).GetConsecutiveSuccesses "http://localhost:8081" = 0 ∧
    ((exampleChecker.RecordSuccess "http://localhost:8081" 2000).RecordSuccess
      "http://localhost:8081" 3000).GetConsecutiveSuccesses "http://localhost:8081" ≠
      (exampleChecker.RecordSuccess "http://localhost:8081" 2000).GetConsecutiveSuccesses
        "http://localhost:8081" + 1 := by
  refine ⟨rfl, rfl, rfl, ?_⟩
  decide

/-- C19, amended. `RecordSuccess` resets `consecutiveSuccesses` of the URL to zero in every
call in which the incremented counter has reached `successThreshold`, whatever the status
of the backend and whether or not the URL is registered; such a call marks the backend
healthy when it is registered and unhealthy.  In every other call the counter ends at the
incremented value, which is one higher than before when that does not leave the range of
`int`, and no backend is changed. -/
theorem C19_success_counter_reset_at_threshold (phc : PassiveHealthChecker) (url : String)
    (now : Time) :
    (phc.successThreshold ≤ wrapInt (phc.GetConsecutiveSuccesses url + 1) →
      (phc.RecordSuccess url now).GetConsecutiveSuccesses url = 0 ∧
      (phc.statusOf url = some Unhealthy →
        (phc.RecordSuccess url now).statusOf url = some Healthy)) ∧
    (wrapInt (phc.GetConsecutiveSuccesses url + 1) < phc.successThreshold →
      (phc.RecordSuccess url now).GetConsecutiveSuccesses url =
        wrapInt (phc.GetConsecutiveSuccesses url + 1) ∧
      (phc.RecordSuccess url now).backends = phc.backends) ∧
    (-2 ^ 63 ≤ phc.GetConsecutiveSuccesses url → phc.GetConsecutiveSuccesses url + 1 < 2 ^ 63 →
      wrapInt (phc.GetConsecutiveSuccesses url + 1) = phc.GetConsecutiveSuccesses url + 1) := by
  unfold PassiveHealthChecker.GetConsecutiveSuccesses
  refine ⟨fun h => ⟨(RecordSuccess_reached phc url now h).1,
    fun hst => RecordSuccess_marks phc url now hst h⟩, fun h => ?_,
    fun hlo hhi => wrapInt_of_range _ (by omega) hhi⟩
  rw [RecordSuccess_below phc url now h]
  simp

/-- Witness of C19 as amended: the second success on the unhealthy backend of
`exampleCheckerUnhealthy` reaches the threshold `2`. -/
theorem C19_success_counter_reset_at_threshold_witness :
    (exampleCheckerUnhealthy.RecordSuccess "http://localhost:8081" 2000).successThreshold ≤
      wrapInt ((exampleCheckerUnhealthy.RecordSuccess "http://localhost:8081"
        2000).GetConsecutiveSuccesses "http://localhost:8081" + 1) ∧
    ((exampleCheckerUnhealthy.RecordSuccess "http://localhost:8081" 2000).RecordSuccess
      "http://localhost:8081" 3000).GetConsecutiveSuccesses "http://localhost:8081" = 0 ∧
    ((exampleCheckerUnhealthy.RecordSuccess "http://localhost:8081" 2000).RecordSuccess
      "http://localhost:8081" 3000).statusOf "http://localhost:8081" = some Healthy :=
  have h := (C19_success_counter_reset_at_threshold
    (exampleCheckerUnhealthy.RecordSuccess "http://localhost:8081" 2000)
    "http://localhost:8081" 3000).1 (by decide)
  ⟨by decide, h.1, h.2 rfl⟩

/-- C20, refuted as stated: the backend of `exampleCheckerUnhealthy` is unhealthy, its
failure counter is `2` after two failures, and the third failure (threshold `3`) leaves the
counter at `0`, not one higher than before. -/
theorem C20_counterexample :
    (recordFailures exampleCheckerUnhealthy "http://localhost:8081" [2000, 3000]).statusOf
      "http://localhost:8081" = some Unhealthy ∧
    (recordFailures exampleCheckerUnhealthy "http://localhost:8081"
      [2000, 3000]).GetConsecutiveFailures "http://localhost:8081" = 2 ∧
    ((recordFailures exampleCheckerUnhealthy "http://localhost:8081"
      [2000, 3000]).RecordFailure "http://localhost:8081" 4000).GetConsecutiveFailures
        "http://localhost:8081" = 0 ∧
    ((recordFailures exampleCheckerUnhealthy "http://localhost:8081"
      [2000, 3000]).RecordFailure "http://localhost:8081" 4000).GetConsecutiveFailures
        "http://localhost:8081" ≠
      (recordFailures exampleCheckerUnhealthy "http://localhost:8081"
        [2000, 3000]).GetConsecutiveFailures "http://localhost:8081" + 1 := by
  refine ⟨rfl, rfl, rfl, ?_⟩
  decide

/-- C20, amended. `RecordFailure` resets `consecutiveFailures` of the URL to zero in every
call in which the incremented counter has reached `failureThreshold`, whatever the status
of the backend and whether or not the URL is registered; such a call marks the backend
unhealthy when it is registered and healthy.  In every other call the counter ends at the
incremented value, which is one higher than before when that does not leave the range of
`int`, and no backend is changed. -/
theorem C20_failure_counter_reset_at_threshold (phc : PassiveHealthChecker) (url : String)
    (now : Time) :
    (phc.failureThreshold ≤ wrapInt (phc.GetConsecutiveFailures url + 1) →
      (phc.RecordFailure url now).GetConsecutiveFailures url = 0 ∧
      (phc.statusOf url = some Healthy →
        (phc.RecordFailure url now).statusOf url = some Unhealthy)) ∧
    (wrapInt (phc.GetConsecutiveFailures url + 1) < phc.failureThreshold →
      (phc.RecordFailure url now).GetConsecutiveFailures url =
        wrapInt (phc.GetConsecutiveFailures url + 1) ∧
      (phc.RecordFailure url now).backends = phc.backends) ∧
    (-2 ^ 63 ≤ phc.GetConsecutiveFailures url → phc.GetConsecutiveFailures url + 1 < 2 ^ 63 →
      wrapInt (phc.GetConsecutiveFailures url + 1) = phc.GetConsecutiveFailures url + 1) := by
  unfold PassiveHealthChecker.GetConsecutiveFailures
  refine ⟨fun h => ⟨(RecordFailure_reached phc url now h).1,
    fun hst => RecordFailure_marks phc url now hst h⟩, fun h => ?_,
    fun hlo hhi => wrapInt_of_range _ (by omega) hhi⟩
  rw [RecordFailure_below phc url now h]
  simp

/-- Witness of C20 as amended: the third failure on the healthy backend of `exampleChecker`
reaches the threshold `3`. -/
theorem C20_failure_counter_reset_at_threshold_witness :
    (recordFailures exampleChecker "http://localhost:8081" [2000, 3000]).failureThreshold ≤
      wrapInt ((recordFailures exampleChecker "http://localhost:8081"
        [2000, 3000]).GetConsecutiveFailures "http://localhost:8081" + 1) ∧
    ((recordFailures exampleChecker "http://localhost:8081" [2000, 3000]).RecordFailure
      "http://localhost:8081" 4000).GetConsecutiveFailures "http://localhost:8081" = 0 ∧
    ((recordFailures exampleChecker "http://localhost:8081" [2000, 3000]).RecordFailure
      "http://localhost:8081" 4000).statusOf "http://localhost:8081" = some Unhealthy :=
  have h := (C20_failure_counter_reset_at_threshold
    (recordFailures exampleChecker "http://localhost:8081" [2000, 3000])
    "http://localhost:8081" 4000).1 (by decide)
  ⟨by decide, h.1, h.2 rfl⟩

end healthcheck

namespace resilient

open circuitbreaker (CircuitBreaker)
open circuitbreaker.State
open healthcheck (Backend)
open healthcheck.HealthStatus

/-! ## Helper lemmas for the dispatcher -/

/-- Eligibility is decided by the list of backend servers alone. -/
theorem eligible_congr (rp rp1 : ResilientProxy) (h : rp1.backends = rp.backends) :
    eligible rp1 = eligible rp := by
  funext idx
  simp [eligible, h]

/-- Eligibility spelled out: the position holds a healthy backend whose stored breaker
state is not Open. -/
theorem eligible_iff (rp : ResilientProxy) (idx : Nat) :
    eligible rp idx = true ↔
      ∃ b : BackendServer, rp.backends[idx]? = some b ∧ b.Backend.Status = Healthy ∧
        b.CircuitBreaker.state ≠ StateOpen := by
  unfold eligible
  cases h : rp.backends[idx]? with
  | none => simp
  | some b => simp [healthcheck.Backend.IsHealthy, CircuitBreaker.State]

theorem eligible_lt (rp : ResilientProxy) (idx : Nat) (h : eligible rp idx = true) :
    idx < rp.backends.length := by
  obtain ⟨b, hb, _⟩ := (eligible_iff rp idx).mp h
  exact (List.getElem?_eq_some_iff.mp hb).1

/-- The loop of `selectHealthyBackend`: it stops at the first loop counter whose position
is eligible, or runs through without finding one. -/
theorem selectLoop_spec (rp : ResilientProxy) (remaining : Nat) :
    ∀ i : Nat,
      (∃ j, i ≤ j ∧ j < i + remaining ∧
        eligible rp ((rp.currentIndex + j) % rp.backends.length) = true ∧
        (∀ k, i ≤ k → k < j →
          eligible rp ((rp.currentIndex + k) % rp.backends.length) = false) ∧
        selectLoop rp i remaining =
          ({ rp with currentIndex :=
              ((rp.currentIndex + j) % rp.backends.length + 1) % rp.backends.length },
            some ((rp.currentIndex + j) % rp.backends.length))) ∨
      ((∀ k, i ≤ k → k < i + remaining →
          eligible rp ((rp.currentIndex + k) % rp.backends.length) = false) ∧
        selectLoop rp i remaining = (rp, none)) := by
  induction remaining with
  | zero =>
    intro i
    right
    exact ⟨fun k h1 h2 => absurd h2 (by omega), rfl⟩
  | succ r ih =>
    intro i
    by_cases he : eligible rp ((rp.currentIndex + i) % rp.backends.length) = true
    · left
      refine ⟨i, le_refl i, by omega, he, fun k h1 h2 => absurd h2 (by omega), ?_⟩
      simp [selectLoop, he]
    · have hstep : selectLoop rp i (r + 1) = selectLoop rp (i + 1) r := by
        simp [selectLoop, he]
      rw [hstep]
      have hf : eligible rp ((rp.currentIndex + i) % rp.backends.length) = false := by
        simpa using he
      rcases ih (i + 1) with ⟨j, h1, h2, h3, h4, h5⟩ | ⟨h1, h2⟩
      · left
        refine ⟨j, by omega, by omega, h3, ?_, h5⟩
        intro k hk1 hk2
        by_cases hki : k = i
        · rw [hki]; exact hf
        · exact h4 k (by omega) hk2
      · right
        refine ⟨?_, h2⟩
        intro k hk1 hk2
        by_cases hki : k = i
        · rw [hki]; exact hf
        · exact h1 k (by omega) (by omega)

/-- Every position of the pool is visited by the rotation that starts at the cursor. -/
theorem rotation_covers (c n idx : Nat) (h : idx < n) :
    ∃ j, j < n ∧ (c + j) % n = idx := by
  have hn : 0 < n := by omega
  have hc : c % n < n := Nat.mod_lt c hn
  refine ⟨(idx + (n - c % n)) % n, Nat.mod_lt _ hn, ?_⟩
  have key : (c % n + (idx + (n - c % n))) % n =
      (c % n + (idx + (n - c % n)) % n) % n := by
    rw [Nat.add_mod, Nat.mod_mod]
  have hsum : c % n + (idx + (n - c % n)) = idx + n := by omega
  rw [Nat.add_mod, Nat.mod_mod, ← key, hsum, Nat.add_mod_right, Nat.mod_eq_of_lt h]

end resilient

namespace resilient

open circuitbreaker (CircuitBreaker)
open circuitbreaker.State
open healthcheck (Backend)
open healthcheck.HealthStatus

/-- A position that is not eligible holds an unhealthy backend or a breaker stored Open. -/
theorem not_eligible_iff (rp : ResilientProxy) (idx : Nat) (b : BackendServer)
    (hb : rp.backends[idx]? = some b) :
    eligible rp idx = false ↔
      (b.Backend.Status = Unhealthy ∨ b.CircuitBreaker.State = StateOpen) := by
  unfold eligible
  rw [hb]
  simp only [healthcheck.Backend.IsHealthy, Bool.and_eq_false_imp, decide_eq_true_eq, bne_eq_false_iff_eq]
  cases hs : b.Backend.Status <;> simp

/-- What `selectHealthyBackend` does: it either returns the first eligible position of the
rotation and moves the cursor one past it, or finds no eligible position and leaves the
proxy as it was. -/
theorem selectHealthyBackend_spec (rp : ResilientProxy) :
    (∃ j, j < rp.backends.length ∧
      eligible rp ((rp.currentIndex + j) % rp.backends.length) = true ∧
      (∀ k, k < j → eligible rp ((rp.currentIndex + k) % rp.backends.length) = false) ∧
      selectHealthyBackend rp =
        ({ rp with currentIndex :=
            ((rp.currentIndex + j) % rp.backends.length + 1) % rp.backends.length },
          some ((rp.currentIndex + j) % rp.backends.length))) ∨
    ((∀ idx, idx < rp.backends.length → eligible rp idx = false) ∧
      selectHealthyBackend rp = (rp, none)) := by
  unfold selectHealthyBackend
  rcases selectLoop_spec rp rp.backends.length 0 with ⟨j, _, h2, h3, h4, h5⟩ | ⟨h1, h2⟩
  · left
    exact ⟨j, by omega, h3, fun k hk => h4 k (Nat.zero_le k) hk, h5⟩
  · right
    refine ⟨?_, h2⟩
    intro idx hidx
    obtain ⟨j, hj, hjeq⟩ := rotation_covers rp.currentIndex rp.backends.length idx hidx
    have := h1 j (Nat.zero_le j) (by omega)
    rwa [hjeq] at this

/-! ## The claims about the dispatcher -/

/-- C12. For every pool and every cursor, `selectHealthyBackend` returns nil if and only
if every backend server of the pool has an unhealthy backend or a breaker whose state, as
`State()` reports it, is Open; and a backend server it returns has a healthy backend and a
breaker whose state is not Open. -/
theorem C12_select_nil_iff_all_excluded (rp : ResilientProxy) :
    ((selectHealthyBackend rp).2 = none ↔
      ∀ b ∈ rp.backends, b.Backend.Status = Unhealthy ∨ b.CircuitBreaker.State = StateOpen) ∧
    (∀ idx, (selectHealthyBackend rp).2 = some idx →
      ∃ b : BackendServer, rp.backends[idx]? = some b ∧ b.Backend.Status = Healthy ∧
        b.CircuitBreaker.State ≠ StateOpen) := by
  constructor
  · constructor
    · intro hnone b hb
      rcases selectHealthyBackend_spec rp with ⟨j, _, _, _, h⟩ | ⟨hall, _⟩
      · rw [h] at hnone
        exact absurd hnone (by simp)
      · obtain ⟨idx, hidx, hget⟩ := List.getElem_of_mem hb
        have hget2 : rp.backends[idx]? = some b := by
          rw [List.getElem?_eq_getElem hidx, hget]
        exact (not_eligible_iff rp idx b hget2).mp (hall idx hidx)
    · intro hall
      rcases selectHealthyBackend_spec rp with ⟨j, _, he, _, _⟩ | ⟨_, h⟩
      · obtain ⟨b, hb, hs, ho⟩ := (eligible_iff rp _).mp he
        have hmem : b ∈ rp.backends := List.getElem?_mem hb
        rcases hall b hmem with h1 | h1
        · rw [hs] at h1
          exact absurd h1 (by decide)
        · exact absurd h1 ho
      · rw [h]
  · intro idx hsome
    rcases selectHealthyBackend_spec rp with ⟨j, _, he, _, h⟩ | ⟨_, h⟩
    · rw [h] at hsome
      have hidx : (rp.currentIndex + j) % rp.backends.length = idx := by simpa using hsome
      rw [hidx] at he
      exact (eligible_iff rp idx).mp he
    · rw [h] at hsome
      exact absurd hsome (by simp)

/-- C13. With cursor `c` over `n` backend servers, `selectHealthyBackend` either returns
the position `(c + j) mod n` for the least `j < n` at which the backend is Healthy and the
state of the breaker, as `State()` reports it, is not Open (at every earlier position of
the rotation `c, c+1, ...` the backend is Unhealthy or the breaker is Open), and sets the
cursor to that position plus one, modulo `n`, leaving the pool as it was; or every backend
server of the pool is Unhealthy or has an Open breaker, it returns nil and leaves the
proxy, cursor included, unchanged. -/
theorem C13_select_first_in_rotation (rp : ResilientProxy) :
    (∃ j, j < rp.backends.length ∧
      (∃ b : BackendServer,
        rp.backends[(rp.currentIndex + j) % rp.backends.length]? = some b ∧
        b.Backend.Status = Healthy ∧ b.CircuitBreaker.State ≠ StateOpen) ∧
      (∀ k, k < j → ∃ b : BackendServer,
        rp.backends[(rp.currentIndex + k) % rp.backends.length]? = some b ∧
        (b.Backend.Status = Unhealthy ∨ b.CircuitBreaker.State = StateOpen)) ∧
      (selectHealthyBackend rp).2 = some ((rp.currentIndex + j) % rp.backends.length) ∧
      (selectHealthyBackend rp).1.currentIndex =
        ((rp.currentIndex + j) % rp.backends.length + 1) % rp.backends.length ∧
      (selectHealthyBackend rp).1.backends = rp.backends) ∨
    ((∀ b ∈ rp.backends, b.Backend.Status = Unhealthy ∨ b.CircuitBreaker.State = StateOpen) ∧
      (selectHealthyBackend rp).2 = none ∧
      (selectHealthyBackend rp).1 = rp) := by
  rcases selectHealthyBackend_spec rp with ⟨j, h1, h2, h3, h4⟩ | ⟨h1, h2⟩
  · left
    refine ⟨j, h1, (eligible_iff rp _).mp h2, ?_, by rw [h4], by rw [h4], by rw [h4]⟩
    intro k hk
    have hlt : (rp.currentIndex + k) % rp.backends.length < rp.backends.length :=
      Nat.mod_lt _ (by omega)
    have hget : rp.backends[(rp.currentIndex + k) % rp.backends.length]? =
        some (rp.backends[(rp.currentIndex + k) % rp.backends.length]) :=
      List.getElem?_eq_getElem hlt
    exact ⟨_, hget, (not_eligible_iff rp _ _ hget).mp (h3 k hk)⟩
  · right
    refine ⟨?_, by rw [h2], by rw [h2]⟩
    intro b hb
    obtain ⟨idx, hidx, hget⟩ := List.getElem_of_mem hb
    have hget2 : rp.backends[idx]? = some b := by
      rw [List.getElem?_eq_getElem hidx, hget]
    exact (not_eligible_iff rp idx b hget2).mp (h1 idx hidx)

end resilient

namespace resilient

open circuitbreaker (CircuitBreaker)
open circuitbreaker.State
open healthcheck (Backend)
open healthcheck.HealthStatus

/-! ## Ranks of eligible positions, for the rotation order -/

theorem rank_zero (rp : ResilientProxy) : rank rp 0 = 0 := by
  simp [rank]

theorem rank_succ (rp : ResilientProxy) (x : Nat) :
    rank rp (x + 1) = rank rp x + (if eligible rp x = true then 1 else 0) := by
  simp only [rank, List.range_succ, List.filter_append, List.length_append]
  by_cases h : eligible rp x = true
  · simp [h]
  · simp [h]

theorem rank_mono (rp : ResilientProxy) (x y : Nat) (h : x ≤ y) : rank rp x ≤ rank rp y := by
  induction y with
  | zero =>
    have : x = 0 := by omega
    rw [this]
  | succ y ih =>
    by_cases hxy : x = y + 1
    · rw [hxy]
    · have := ih (by omega)
      rw [rank_succ]
      omega

/-- No eligible position in `[a, b)`: the rank does not move. -/
theorem rank_eq_of_none (rp : ResilientProxy) (a b : Nat) (hab : a ≤ b)
    (h : ∀ z, a ≤ z → z < b → eligible rp z = false) : rank rp a = rank rp b := by
  induction b with
  | zero =>
    have : a = 0 := by omega
    rw [this]
  | succ b ih =>
    by_cases hb : a = b + 1
    · rw [hb]
    · have h1 := ih (by omega) (fun z hz1 hz2 => h z hz1 (by omega))
      have h2 := h b (by omega) (by omega)
      rw [rank_succ, h1, h2]
      simp

theorem rank_lt_of_eligible (rp : ResilientProxy) (x y : Nat) (hx : eligible rp x = true)
    (hxy : x < y) : rank rp x < rank rp y := by
  have h1 := rank_succ rp x
  rw [hx] at h1
  have h2 := rank_mono rp (x + 1) y (by omega)
  simp at h1
  omega

/-- Two eligible positions of the same rank are the same position. -/
theorem rank_injective (rp : ResilientProxy) (x y : Nat) (hx : eligible rp x = true)
    (hy : eligible rp y = true) (h : rank rp x = rank rp y) : x = y := by
  rcases Nat.lt_trichotomy x y with hlt | heq | hgt
  · have := rank_lt_of_eligible rp x y hx hlt
    omega
  · exact heq
  · have := rank_lt_of_eligible rp y x hy hgt
    omega

/-- The value of `a mod n` for `a` below `2n`. -/
theorem mod_of_lt_two_mul (a n : Nat) (h : a < 2 * n) :
    a % n = if a < n then a else a - n := by
  split_ifs with hlt
  · exact Nat.mod_eq_of_lt hlt
  · rw [Nat.mod_eq_sub_mod (by omega), Nat.mod_eq_of_lt (by omega)]

/-- The position selected from cursor `c` has the rank of `c`, modulo the number of
eligible positions. -/
theorem rank_selected (rp : ResilientProxy) (j : Nat)
    (hc : rp.currentIndex < rp.backends.length) (hj : j < rp.backends.length)
    (he : eligible rp ((rp.currentIndex + j) % rp.backends.length) = true)
    (hfirst : ∀ k, k < j →
      eligible rp ((rp.currentIndex + k) % rp.backends.length) = false) :
    rank rp ((rp.currentIndex + j) % rp.backends.length) =
      rank rp rp.currentIndex % rank rp rp.backends.length := by
  have hmod := mod_of_lt_two_mul (rp.currentIndex + j) rp.backends.length (by omega)
  by_cases hlt : rp.currentIndex + j < rp.backends.length
  · rw [if_pos hlt] at hmod
    rw [hmod] at he ⊢
    have hnone : ∀ z, rp.currentIndex ≤ z → z < rp.currentIndex + j →
        eligible rp z = false := by
      intro z hz1 hz2
      have := hfirst (z - rp.currentIndex) (by omega)
      have hz : rp.currentIndex + (z - rp.currentIndex) = z := by omega
      rw [hz, Nat.mod_eq_of_lt (by omega)] at this
      exact this
    have h1 := rank_eq_of_none rp rp.currentIndex (rp.currentIndex + j) (by omega) hnone
    have h2 := rank_lt_of_eligible rp (rp.currentIndex + j) rp.backends.length he hlt
    rw [← h1] at h2 ⊢
    exact (Nat.mod_eq_of_lt h2).symm
  · rw [if_neg hlt] at hmod
    rw [hmod] at he ⊢
    have hnone1 : ∀ z, rp.currentIndex ≤ z → z < rp.backends.length →
        eligible rp z = false := by
      intro z hz1 hz2
      have := hfirst (z - rp.currentIndex) (by omega)
      have hz : rp.currentIndex + (z - rp.currentIndex) = z := by omega
      rw [hz, Nat.mod_eq_of_lt hz2] at this
      exact this
    have hnone2 : ∀ z, 0 ≤ z → z < rp.currentIndex + j - rp.backends.length →
        eligible rp z = false := by
      intro z _ hz2
      have := hfirst (z + rp.backends.length - rp.currentIndex) (by omega)
      have hz : rp.currentIndex + (z + rp.backends.length - rp.currentIndex) =
          z + rp.backends.length := by omega
      rw [hz, Nat.add_mod_right, Nat.mod_eq_of_lt (by omega)] at this
      exact this
    have h1 := rank_eq_of_none rp rp.currentIndex rp.backends.length (by omega) hnone1
    have h2 := rank_eq_of_none rp 0 (rp.currentIndex + j - rp.backends.length)
      (Nat.zero_le _) hnone2
    rw [rank_zero] at h2
    rw [← h2, h1, Nat.mod_self]

/-- The cursor after selecting the eligible position `x` has the rank of `x` plus one,
modulo the number of eligible positions. -/
theorem rank_next_cursor (rp : ResilientProxy) (x : Nat) (hx : x < rp.backends.length)
    (he : eligible rp x = true) :
    rank rp ((x + 1) % rp.backends.length) % rank rp rp.backends.length =
      (rank rp x + 1) % rank rp rp.backends.length := by
  have hs := rank_succ rp x
  rw [he] at hs
  simp only [if_true] at hs
  by_cases hlt : x + 1 < rp.backends.length
  · rw [Nat.mod_eq_of_lt hlt, hs]
  · have hn : x + 1 = rp.backends.length := by omega
    rw [hn, Nat.mod_self, rank_zero, ← hs, hn, Nat.mod_self, Nat.zero_mod]

end resilient

namespace resilient

open circuitbreaker (CircuitBreaker)
open circuitbreaker.State
open healthcheck (Backend)
open healthcheck.HealthStatus

theorem rank_congr (rp rp1 : ResilientProxy) (h : rp1.backends = rp.backends) (x : Nat) :
    rank rp1 x = rank rp x := by
  simp [rank, eligible_congr rp rp1 h]

/-- One step of the rotation in terms of ranks. -/
theorem rank_advance (a b c t m : Nat) (h1 : a % m = (b + 1) % m) (h2 : b = c % m) :
    (a + t) % m = (c + (t + 1)) % m := by
  have e1 : (a + t) % m = (b + 1 + t) % m := Nat.ModEq.add_right t h1
  have e2 : (b + (1 + t)) % m = (c + (1 + t)) % m := by
    have : b % m = c % m := by rw [h2, Nat.mod_mod]
    exact Nat.ModEq.add_right (1 + t) this
  rw [e1, Nat.add_assoc, e2, Nat.add_comm 1 t]

/-- Consecutive selections over an unchanged pool with an eligible position: the call
number `t` returns the eligible position whose rank is the rank of the cursor plus `t`,
modulo the number of eligible positions. -/
theorem selectMany_spec (k : Nat) :
    ∀ rp : ResilientProxy, rp.currentIndex < rp.backends.length →
      0 < rank rp rp.backends.length →
      (selectMany rp k).1.backends = rp.backends ∧
      (selectMany rp k).2.length = k ∧
      ∀ t, t < k → ∃ x, (selectMany rp k).2[t]? = some (some x) ∧
        x < rp.backends.length ∧ eligible rp x = true ∧
        rank rp x = (rank rp rp.currentIndex + t) % rank rp rp.backends.length := by
  induction k with
  | zero =>
    intro rp _ _
    exact ⟨rfl, rfl, fun t ht => absurd ht (by omega)⟩
  | succ k ih =>
    intro rp hc hm
    rcases selectHealthyBackend_spec rp with ⟨j, hj, he, hfirst, hsel⟩ | ⟨hall, _⟩
    · have hx : (rp.currentIndex + j) % rp.backends.length < rp.backends.length :=
        Nat.mod_lt _ (by omega)
      have hrank := rank_selected rp j hc hj he hfirst
      have hnext := rank_next_cursor rp _ hx he
      obtain ⟨rp1, hsel1, hb1, hc1⟩ : ∃ rp1 : ResilientProxy,
          selectHealthyBackend rp =
            (rp1, some ((rp.currentIndex + j) % rp.backends.length)) ∧
          rp1.backends = rp.backends ∧
          rp1.currentIndex =
            ((rp.currentIndex + j) % rp.backends.length + 1) % rp.backends.length :=
        ⟨_, hsel, rfl, rfl⟩
      have hrec := ih rp1 (by rw [hc1, hb1]; exact Nat.mod_lt _ (by omega))
        (by rw [hb1, rank_congr rp rp1 hb1]; exact hm)
      rw [hb1, hc1] at hrec
      simp only [selectMany, hsel1]
      refine ⟨hrec.1, by simp [hrec.2.1], ?_⟩
      intro t ht
      cases t with
      | zero =>
        exact ⟨_, by simp, hx, he, by rw [hrank]; simp⟩
      | succ t =>
        obtain ⟨x, hx1, hx2, hx3, hx4⟩ := hrec.2.2 t (by omega)
        refine ⟨x, by simpa using hx1, hx2, ?_, ?_⟩
        · rw [← eligible_congr rp rp1 hb1]
          exact hx3
        · rw [rank_congr rp rp1 hb1, rank_congr rp rp1 hb1, rank_congr rp rp1 hb1] at hx4
          rw [hx4]
          exact rank_advance _ _ _ t _ hnext hrank
    · have h0 := rank_eq_of_none rp 0 rp.backends.length (Nat.zero_le _)
        (fun z _ hz => hall z hz)
      rw [rank_zero] at h0
      omega

/-- C14. Over a pool that does not change, with the cursor inside the pool and at least
one usable backend server (healthy, breaker not Open): `k` successive calls of
`selectHealthyBackend` leave the pool as it was and each returns a usable position; call
number `t` (from `0`) returns the usable position whose rank among the usable positions, in
increasing index order, is the rank of the cursor plus `t`, modulo the number of usable
positions, and a usable position is determined by its rank.  So the calls go through the
usable positions in increasing order, cyclically, each once per round, starting from the
first usable position at or after the cursor.  Three usable backends give
`0,1,2,0,1,2,0,1,2` from cursor `0`; with A, B, C and the breaker of B Open, ten calls
alternate between A and C. -/
theorem C14_round_robin_over_usable (rp : ResilientProxy) (k : Nat)
    (hcursor : rp.currentIndex < rp.backends.length)
    (husable : ∃ idx, eligible rp idx = true) :
    (selectMany rp k).1.backends = rp.backends ∧
    (selectMany rp k).2.length = k ∧
    (∀ t, t < k → ∃ x, (selectMany rp k).2[t]? = some (some x) ∧
      x < rp.backends.length ∧ eligible rp x = true ∧
      rank rp x = (rank rp rp.currentIndex + t) % rank rp rp.backends.length) ∧
    (∀ x y, eligible rp x = true → eligible rp y = true → rank rp x = rank rp y → x = y) ∧
    (selectMany examplePool 9).2 =
      [some 0, some 1, some 2, some 0, some 1, some 2, some 0, some 1, some 2] ∧
    (selectMany examplePoolOpenB 10).2 =
      [some 0, some 2, some 0, some 2, some 0, some 2, some 0, some 2, some 0, some 2] := by
  obtain ⟨idx, hidx⟩ := husable
  have hm : 0 < rank rp rp.backends.length := by
    have := rank_lt_of_eligible rp idx rp.backends.length hidx (eligible_lt rp idx hidx)
    omega
  have h := selectMany_spec k rp hcursor hm
  exact ⟨h.1, h.2.1, h.2.2, rank_injective rp, rfl, rfl⟩

/-- Witness of C14 on `examplePoolOpenB`: the fourth of ten calls returns a usable
position of rank `(0 + 3) mod 2`. -/
theorem C14_round_robin_over_usable_witness :
    examplePoolOpenB.currentIndex < examplePoolOpenB.backends.length ∧
    (∃ idx, eligible examplePoolOpenB idx = true) ∧
    ∃ x, (selectMany examplePoolOpenB 10).2[3]? = some (some x) ∧
      x < examplePoolOpenB.backends.length ∧ eligible examplePoolOpenB x = true ∧
      rank examplePoolOpenB x =
        (rank examplePoolOpenB examplePoolOpenB.currentIndex + 3) %
          rank examplePoolOpenB examplePoolOpenB.backends.length :=
  ⟨by decide, ⟨0, rfl⟩,
    (C14_round_robin_over_usable examplePoolOpenB 10 (by decide) ⟨0, rfl⟩).2.2.1 3
      (by decide)⟩

end resilient

namespace circuitbreaker

open State Error

/-! ## The rolling window of state Closed -/

theorem windowUnset_of_fields (cb cb1 : CircuitBreaker) (hs : cb1.state = cb.state)
    (hi : cb1.interval = cb.interval) (he : cb1.expiry = cb.expiry) (h : windowUnset cb) :
    windowUnset cb1 := by
  unfold windowUnset at h ⊢
  rw [hs, hi, he]
  exact h

theorem windowUnset_toNewGeneration (cb : CircuitBreaker) (now : Time) :
    windowUnset (toNewGeneration cb now) := by
  intro hs hi
  rw [toNewGeneration_state] at hs
  rw [toNewGeneration_interval] at hi
  rw [toNewGeneration_expiry_closed cb now hs, if_pos hi]

theorem windowUnset_setState (cb : CircuitBreaker) (s : State) (now : Time)
    (h : windowUnset cb) : windowUnset (setState cb s now) := by
  simp only [setState]
  split_ifs
  · exact h
  · exact windowUnset_of_fields _ _ rfl rfl rfl (windowUnset_toNewGeneration _ now)
  · exact windowUnset_toNewGeneration _ now

theorem windowUnset_currentState (cb : CircuitBreaker) (now : Time) (h : windowUnset cb) :
    windowUnset (currentState cb now) := by
  simp only [currentState]
  split
  · split_ifs
    · exact windowUnset_toNewGeneration cb now
    · exact h
  · split_ifs
    · exact windowUnset_setState cb _ now h
    · exact h
  · exact h

theorem windowUnset_onSuccess (cb : CircuitBreaker) (s : State) (now : Time)
    (h : windowUnset cb) : windowUnset (onSuccess cb s now) := by
  simp only [onSuccess]
  split_ifs
  · exact windowUnset_setState _ _ now (windowUnset_of_fields cb _ rfl rfl rfl h)
  · exact windowUnset_of_fields cb _ rfl rfl rfl h

theorem windowUnset_onFailure (cb : CircuitBreaker) (s : State) (now : Time)
    (h : windowUnset cb) : windowUnset (onFailure cb s now) := by
  simp only [onFailure]
  split_ifs
  · exact windowUnset_setState _ _ now (windowUnset_of_fields cb _ rfl rfl rfl h)
  · exact windowUnset_setState _ _ now (windowUnset_of_fields cb _ rfl rfl rfl h)
  · exact windowUnset_of_fields cb _ rfl rfl rfl h

theorem windowUnset_beforeRequest (cb : CircuitBreaker) (now : Time) (h : windowUnset cb) :
    windowUnset (beforeRequest cb now).1 := by
  have hc := windowUnset_currentState (Lock cb) now (windowUnset_of_fields cb _ rfl rfl rfl h)
  simp only [beforeRequest]
  split_ifs <;> exact windowUnset_of_fields _ _ rfl rfl rfl hc

theorem windowUnset_afterRequest (cb : CircuitBreaker) (now : Time) (g : Nat)
    (success : Bool) (h : windowUnset cb) : windowUnset (afterRequest cb now g success) := by
  have hc := windowUnset_currentState (Lock cb) now (windowUnset_of_fields cb _ rfl rfl rfl h)
  simp only [afterRequest]
  split_ifs
  · exact windowUnset_of_fields _ _ rfl rfl rfl hc
  · exact windowUnset_of_fields _ _ rfl rfl rfl (windowUnset_onSuccess _ _ now hc)
  · exact windowUnset_of_fields _ _ rfl rfl rfl (windowUnset_onFailure _ _ now hc)

/-- The lazy evaluation of a Closed breaker whose window is set and has elapsed. -/
theorem currentState_closed_elapsed (cb : CircuitBreaker) (now : Time)
    (hclosed : cb.state = StateClosed) (hset : cb.expiry ≠ zeroTime)
    (helapsed : cb.expiry < now) : currentState cb now = toNewGeneration cb now := by
  rw [currentState_closed cb now hclosed, if_pos ⟨hset, helapsed⟩]

/-- C11. For a Closed breaker with a positive interval whose window expiry is set and
strictly before `now`: the lazy evaluation, and with it an admission or a completion
evaluated at `now`, resets the counts to zero, increments the generation by one and sets
the expiry to `now + interval`, and the state stays Closed (the admission then counts its
request; a completion of any other generation than the new one is dropped).  With a zero
interval the expiry of a Closed breaker is the zero time: this holds after
`NewCircuitBreaker` and is kept by `currentState`, `beforeRequest` and `afterRequest`; and
a Closed breaker with the zero expiry is left untouched by the lazy evaluation at every
instant. -/
theorem C11_closed_window_rollover (cb cb2 : CircuitBreaker) (config : Config)
    (now now0 : Time) (g : Nat) (success : Bool) (hclosed : cb.state = StateClosed) :
    (0 < cb.interval → cb.expiry ≠ zeroTime → cb.expiry < now →
      ((currentState cb now).state = StateClosed ∧
        (currentState cb now).generation = (cb.generation + 1) % 2 ^ 64 ∧
        (currentState cb now).counts = {} ∧
        (currentState cb now).expiry = now + cb.interval) ∧
      ((beforeRequest cb now).2.2 = none ∧
        (beforeRequest cb now).2.1 = (cb.generation + 1) % 2 ^ 64 ∧
        (beforeRequest cb now).1.state = StateClosed ∧
        (beforeRequest cb now).1.generation = (cb.generation + 1) % 2 ^ 64 ∧
        (beforeRequest cb now).1.counts = { Requests := 1 } ∧
        (beforeRequest cb now).1.expiry = now + cb.interval) ∧
      (g ≠ (cb.generation + 1) % 2 ^ 64 →
        (afterRequest cb now g success).state = StateClosed ∧
        (afterRequest cb now g success).generation = (cb.generation + 1) % 2 ^ 64 ∧
        (afterRequest cb now g success).counts = {} ∧
        (afterRequest cb now g success).expiry = now + cb.interval)) ∧
    (windowUnset (NewCircuitBreaker config now0) ∧
      (NewCircuitBreaker config now0).state = StateClosed ∧
      (config.Interval ≠ 0 → (NewCircuitBreaker config now0).expiry = now0 + config.Interval)) ∧
    (windowUnset cb2 →
      windowUnset (currentState cb2 now) ∧ windowUnset (beforeRequest cb2 now).1 ∧
      windowUnset (afterRequest cb2 now g success)) ∧
    (cb.interval = 0 → windowUnset cb →
      cb.expiry = zeroTime ∧ ∀ t : Time, currentState cb t = cb) := by
  refine ⟨?_, ?_, ?_, ?_⟩
  · intro hpos hset helapsed
    have hi : cb.interval ≠ 0 := ne_of_gt hpos
    have hcur : currentState cb now = toNewGeneration cb now :=
      currentState_closed_elapsed cb now hclosed hset helapsed
    have hcurL : currentState (Lock cb) now = toNewGeneration (Lock cb) now :=
      currentState_closed_elapsed (Lock cb) now (by simpa using hclosed) (by simpa using hset)
        (by simpa using helapsed)
    have hexp : (toNewGeneration cb now).expiry = now + cb.interval := by
      rw [toNewGeneration_expiry_closed cb now hclosed, if_neg hi]
    have hexpL : (toNewGeneration (Lock cb) now).expiry = now + cb.interval := by
      rw [toNewGeneration_expiry_closed (Lock cb) now (by simpa using hclosed)]
      simp [hi]
    refine ⟨?_, ?_, ?_⟩
    · rw [hcur]
      exact ⟨by simp [hclosed], by simp, by simp, hexp⟩
    · simp only [beforeRequest, hcurL, toNewGeneration_state, Lock_state, hclosed,
        toNewGeneration_generation, Lock_generation, toNewGeneration_counts]
      simp only [reduceCtorEq, if_false, false_and]
      exact ⟨trivial, trivial, by simp [hclosed], by simp, by simp [Unlock], by
        simpa [Unlock] using hexpL⟩
    · intro hg
      have hstale : g ≠ (currentState cb now).generation := by
        rw [hcur]
        simpa using hg
      simp only [afterRequest, currentState_Lock_generation, ne_eq, hstale, not_false_eq_true,
        if_true, Unlock_state, Unlock_generation, Unlock_counts, Unlock_expiry,
        currentState_Lock_state, currentState_Lock_counts, currentState_Lock_expiry]
      rw [hcur]
      exact ⟨by simp [hclosed], by simp, by simp, hexp⟩
  · refine ⟨?_, ?_, ?_⟩
    · unfold NewCircuitBreaker
      exact windowUnset_toNewGeneration _ now0
    · simp [NewCircuitBreaker]
    · intro hne
      unfold NewCircuitBreaker
      rw [toNewGeneration_expiry_closed _ now0 rfl]
      simp [hne]
  · intro h
    exact ⟨windowUnset_currentState cb2 now h, windowUnset_beforeRequest cb2 now h,
      windowUnset_afterRequest cb2 now g success h⟩
  · intro hzero hw
    have he : cb.expiry = zeroTime := hw hclosed hzero
    refine ⟨he, fun t => ?_⟩
    rw [currentState_closed cb t hclosed, if_neg]
    intro hcon
    exact hcon.1 he

/-- Witness of C11: a breaker with a rolling window of `10 ms`, built at instant `1000` and
evaluated at instant `20000000`. -/
theorem C11_closed_window_rollover_witness :
    (NewCircuitBreaker { exampleConfig with Interval := 10000000 } 1000).state = StateClosed ∧
    (currentState (NewCircuitBreaker { exampleConfig with Interval := 10000000 } 1000)
      20000000).generation = 2 ∧
    (currentState (NewCircuitBreaker { exampleConfig with Interval := 10000000 } 1000)
      20000000).expiry = 20000000 + 10000000 ∧
    (beforeRequest (NewCircuitBreaker { exampleConfig with Interval := 10000000 } 1000)
      20000000).1.counts = { Requests := 1 } :=
  have h := (C11_closed_window_rollover
    (NewCircuitBreaker { exampleConfig with Interval := 10000000 } 1000) exampleClosed
    exampleConfig 20000000 1000 1 true rfl).1 (by decide) (by decide) (by decide)
  ⟨rfl, h.1.2.1, h.1.2.2.2, h.2.1.2.2.2.2.1⟩

end circuitbreaker

namespace resilient

open circuitbreaker (CircuitBreaker)
open circuitbreaker.State
open healthcheck (Backend)
open healthcheck.HealthStatus

/-- A backend server whose breaker is stored Open is never returned by
`selectHealthyBackend`, whatever the expiry of the breaker: the selection reads no clock. -/
theorem stored_open_never_selected (rp : ResilientProxy) (idx : Nat) (b : BackendServer)
    (hb : rp.backends[idx]? = some b) (hopen : b.CircuitBreaker.state = StateOpen) :
    (selectHealthyBackend rp).2 ≠ some idx := by
  intro hsel
  rcases selectHealthyBackend_spec rp with ⟨j, _, he, _, h⟩ | ⟨_, h⟩
  · rw [h] at hsel
    have hidx : (rp.currentIndex + j) % rp.backends.length = idx := by simpa using hsel
    rw [hidx] at he
    obtain ⟨b2, hb2, _, hne⟩ := (eligible_iff rp idx).mp he
    rw [hb] at hb2
    have hbb : b = b2 := by simpa using hb2
    rw [← hbb] at hne
    exact hne hopen
  · rw [h] at hsel
    exact absurd hsel (by simp)

/-- C15, the code at the failing input.  The only backend of `examplePoolSoleOpen` is
healthy and its breaker has been Open since instant `1400` with a timeout of `50 ms`.  At
instant `60000000` the timeout has elapsed: the lazy evaluation `currentState` gives
HalfOpen and `beforeRequest` would admit a trial; yet `selectHealthyBackend`, which reads
the stored state through `State()`, returns nil, and keeps doing so. -/
theorem C15_timed_out_open_breaker_not_selected :
    examplePoolSoleOpen.backends.map (fun b => b.Backend.Status) = [Healthy] ∧
    examplePoolSoleOpen.backends.map (fun b => b.CircuitBreaker.State) = [StateOpen] ∧
    examplePoolSoleOpen.backends.map (fun b => b.CircuitBreaker.expiry) = [50001400] ∧
    (circuitbreaker.currentState circuitbreaker.exampleOpen 60000000).state = StateHalfOpen ∧
    (circuitbreaker.beforeRequest circuitbreaker.exampleOpen 60000000).2.2 = none ∧
    (selectHealthyBackend examplePoolSoleOpen).2 = none ∧
    (selectMany examplePoolSoleOpen 5).2 = [none, none, none, none, none] :=
  ⟨rfl, rfl, rfl, rfl, rfl, rfl, rfl⟩

end resilient

namespace circuitbreaker

open State Error

/-! ## Fields of the configuration are never changed -/

@[simp] theorem onSuccess_name (cb : CircuitBreaker) (s : State) (now : Time) :
    (onSuccess cb s now).name = cb.name := by
  simp only [onSuccess]
  split_ifs <;> simp

@[simp] theorem onFailure_name (cb : CircuitBreaker) (s : State) (now : Time) :
    (onFailure cb s now).name = cb.name := by
  simp only [onFailure]
  split_ifs <;> simp

@[simp] theorem onSuccess_interval (cb : CircuitBreaker) (s : State) (now : Time) :
    (onSuccess cb s now).interval = cb.interval := by
  simp only [onSuccess]
  split_ifs <;> simp

@[simp] theorem onFailure_interval (cb : CircuitBreaker) (s : State) (now : Time) :
    (onFailure cb s now).interval = cb.interval := by
  simp only [onFailure]
  split_ifs <;> simp

@[simp] theorem onSuccess_timeout (cb : CircuitBreaker) (s : State) (now : Time) :
    (onSuccess cb s now).timeout = cb.timeout := by
  simp only [onSuccess]
  split_ifs <;> simp

@[simp] theorem onFailure_timeout (cb : CircuitBreaker) (s : State) (now : Time) :
    (onFailure cb s now).timeout = cb.timeout := by
  simp only [onFailure]
  split_ifs <;> simp

@[simp] theorem onSuccess_readyToTrip (cb : CircuitBreaker) (s : State) (now : Time) :
    (onSuccess cb s now).readyToTrip = cb.readyToTrip := by
  simp only [onSuccess]
  split_ifs <;> simp

@[simp] theorem onFailure_readyToTrip (cb : CircuitBreaker) (s : State) (now : Time) :
    (onFailure cb s now).readyToTrip = cb.readyToTrip := by
  simp only [onFailure]
  split_ifs <;> simp

@[simp] theorem onSuccess_onStateChange (cb : CircuitBreaker) (s : State) (now : Time) :
    (onSuccess cb s now).onStateChange = cb.onStateChange := by
  simp only [onSuccess]
  split_ifs <;> simp

@[simp] theorem onFailure_onStateChange (cb : CircuitBreaker) (s : State) (now : Time) :
    (onFailure cb s now).onStateChange = cb.onStateChange := by
  simp only [onFailure]
  split_ifs <;> simp

@[simp] theorem onSuccess_mu (cb : CircuitBreaker) (s : State) (now : Time) :
    (onSuccess cb s now).mu = cb.mu := by
  simp only [onSuccess]
  split_ifs <;> simp

@[simp] theorem onFailure_mu (cb : CircuitBreaker) (s : State) (now : Time) :
    (onFailure cb s now).mu = cb.mu := by
  simp only [onFailure]
  split_ifs <;> simp

@[simp] theorem beforeRequest_name (cb : CircuitBreaker) (now : Time) :
    (beforeRequest cb now).1.name = cb.name := by
  simp only [beforeRequest]
  split_ifs <;> simp [Unlock]

@[simp] theorem afterRequest_name (cb : CircuitBreaker) (now : Time) (g : Nat)
    (success : Bool) : (afterRequest cb now g success).name = cb.name := by
  simp only [afterRequest]
  split_ifs <;> simp

@[simp] theorem beforeRequest_interval (cb : CircuitBreaker) (now : Time) :
    (beforeRequest cb now).1.interval = cb.interval := by
  simp only [beforeRequest]
  split_ifs <;> simp [Unlock]

@[simp] theorem afterRequest_interval (cb : CircuitBreaker) (now : Time) (g : Nat)
    (success : Bool) : (afterRequest cb now g success).interval = cb.interval := by
  simp only [afterRequest]
  split_ifs <;> simp

@[simp] theorem beforeRequest_timeout (cb : CircuitBreaker) (now : Time) :
    (beforeRequest cb now).1.timeout = cb.timeout := by
  simp only [beforeRequest]
  split_ifs <;> simp [Unlock]

@[simp] theorem afterRequest_timeout (cb : CircuitBreaker) (now : Time) (g : Nat)
    (success : Bool) : (afterRequest cb now g success).timeout = cb.timeout := by
  simp only [afterRequest]
  split_ifs <;> simp

@[simp] theorem beforeRequest_readyToTrip (cb : CircuitBreaker) (now : Time) :
    (beforeRequest cb now).1.readyToTrip = cb.readyToTrip := by
  simp only [beforeRequest]
  split_ifs <;> simp [Unlock]

@[simp] theorem afterRequest_readyToTrip (cb : CircuitBreaker) (now : Time) (g : Nat)
    (success : Bool) : (afterRequest cb now g success).readyToTrip = cb.readyToTrip := by
  simp only [afterRequest]
  split_ifs <;> simp

@[simp] theorem beforeRequest_onStateChange (cb : CircuitBreaker) (now : Time) :
    (beforeRequest cb now).1.onStateChange = cb.onStateChange := by
  simp only [beforeRequest]
  split_ifs <;> simp [Unlock]

@[simp] theorem afterRequest_onStateChange (cb : CircuitBreaker) (now : Time) (g : Nat)
    (success : Bool) : (afterRequest cb now g success).onStateChange = cb.onStateChange := by
  simp only [afterRequest]
  split_ifs <;> simp


theorem Execute_name {W R P : Type} (cb : CircuitBreaker) (now1 now2 : Time)
    (req : W → W × Outcome R P) (w : W) :
    (Execute cb now1 now2 req w).1.name = cb.name := by
  have hb := beforeRequest_name cb now1
  simp only [Execute]
  rcases hq : beforeRequest cb now1 with ⟨cb1, g, _ | err⟩
  · rw [hq] at hb
    rcases req w with ⟨w1, ⟨r, e⟩ | e⟩ <;> simpa using hb
  · rw [hq] at hb
    simpa using hb

theorem Execute_interval {W R P : Type} (cb : CircuitBreaker) (now1 now2 : Time)
    (req : W → W × Outcome R P) (w : W) :
    (Execute cb now1 now2 req w).1.interval = cb.interval := by
  have hb := beforeRequest_interval cb now1
  simp only [Execute]
  rcases hq : beforeRequest cb now1 with ⟨cb1, g, _ | err⟩
  · rw [hq] at hb
    rcases req w with ⟨w1, ⟨r, e⟩ | e⟩ <;> simpa using hb
  · rw [hq] at hb
    simpa using hb

theorem Execute_timeout {W R P : Type} (cb : CircuitBreaker) (now1 now2 : Time)
    (req : W → W × Outcome R P) (w : W) :
    (Execute cb now1 now2 req w).1.timeout = cb.timeout := by
  have hb := beforeRequest_timeout cb now1
  simp only [Execute]
  rcases hq : beforeRequest cb now1 with ⟨cb1, g, _ | err⟩
  · rw [hq] at hb
    rcases req w with ⟨w1, ⟨r, e⟩ | e⟩ <;> simpa using hb
  · rw [hq] at hb
    simpa using hb

theorem Execute_readyToTrip {W R P : Type} (cb : CircuitBreaker) (now1 now2 : Time)
    (req : W → W × Outcome R P) (w : W) :
    (Execute cb now1 now2 req w).1.readyToTrip = cb.readyToTrip := by
  have hb := beforeRequest_readyToTrip cb now1
  simp only [Execute]
  rcases hq : beforeRequest cb now1 with ⟨cb1, g, _ | err⟩
  · rw [hq] at hb
    rcases req w with ⟨w1, ⟨r, e⟩ | e⟩ <;> simpa using hb
  · rw [hq] at hb
    simpa using hb

theorem Execute_onStateChange {W R P : Type} (cb : CircuitBreaker) (now1 now2 : Time)
    (req : W → W × Outcome R P) (w : W) :
    (Execute cb now1 now2 req w).1.onStateChange = cb.onStateChange := by
  have hb := beforeRequest_onStateChange cb now1
  simp only [Execute]
  rcases hq : beforeRequest cb now1 with ⟨cb1, g, _ | err⟩
  · rw [hq] at hb
    rcases req w with ⟨w1, ⟨r, e⟩ | e⟩ <;> simpa using hb
  · rw [hq] at hb
    simpa using hb

/-! ## Calls on a Closed breaker -/

/-- The form of `Execute` when the call is admitted and the operation returns. -/
theorem Execute_admitted_returned {W R P : Type} (cb cb1 : CircuitBreaker) (now1 now2 : Time)
    (req : W → W × Outcome R P) (w w1 : W) (g : Nat) (result : Option R)
    (err : Option Error) (hb : beforeRequest cb now1 = (cb1, g, none))
    (hr : req w = (w1, Outcome.returned result err)) :
    Execute cb now1 now2 req w =
      (afterRequest cb1 now2 g err.isNone, w1, Outcome.returned result err) := by
  simp only [Execute, hb, hr]

/-- The form of `Execute` when the call is admitted and the operation panics. -/
theorem Execute_admitted_panicked {W R P : Type} (cb cb1 : CircuitBreaker) (now1 now2 : Time)
    (req : W → W × Outcome R P) (w w1 : W) (g : Nat) (e : P)
    (hb : beforeRequest cb now1 = (cb1, g, none))
    (hr : req w = (w1, Outcome.panicked e)) :
    Execute cb now1 now2 req w = (afterRequest cb1 now2 g false, w1, Outcome.panicked e) := by
  simp only [Execute, hb, hr]

/-- A Closed breaker admits every call and stays Closed in doing so. -/
theorem beforeRequest_closed (cb : CircuitBreaker) (now : Time) (h : cb.state = StateClosed) :
    ∃ cb1 : CircuitBreaker, beforeRequest cb now = (cb1, cb1.generation, none) ∧
      cb1.state = StateClosed := by
  have hc : (currentState (Lock cb) now).state = StateClosed := by
    rw [currentState_Lock_state]
    exact currentState_state_closed cb now h
  have hb : beforeRequest cb now =
      (Unlock { currentState (Lock cb) now with counts :=
          { (currentState (Lock cb) now).counts with
            Requests := ((currentState (Lock cb) now).counts.Requests + 1) % 2 ^ 32 } },
        (currentState (Lock cb) now).generation, none) := by
    simp only [beforeRequest, hc]
    simp only [reduceCtorEq, if_false, false_and]
  exact ⟨_, hb, hc⟩

/-- A success recorded on a Closed breaker leaves it Closed. -/
theorem afterRequest_closed_success (cb : CircuitBreaker) (now : Time) (g : Nat)
    (h : cb.state = StateClosed) : (afterRequest cb now g true).state = StateClosed := by
  have hc : (currentState (Lock cb) now).state = StateClosed := by
    rw [currentState_Lock_state]
    exact currentState_state_closed cb now h
  simp only [afterRequest, onSuccess, hc]
  split_ifs <;> simp_all

/-- A call that returns a nil error, on a Closed breaker: the breaker stays Closed and
`Execute` hands on what the operation did and returned. -/
theorem Execute_closed_ok {W R P : Type} (cb : CircuitBreaker) (now1 now2 : Time)
    (req : W → W × Outcome R P) (w : W) (h : cb.state = StateClosed) (hr : ReturnsNil req) :
    (Execute cb now1 now2 req w).1.state = StateClosed ∧
    (Execute cb now1 now2 req w).2 = req w := by
  obtain ⟨cb1, hb, hs1⟩ := beforeRequest_closed cb now1 h
  obtain ⟨w1, result, hw⟩ := hr w
  rw [Execute_admitted_returned cb cb1 now1 now2 req w w1 _ _ _ hb hw, hw]
  exact ⟨afterRequest_closed_success cb1 now2 _ hs1, rfl⟩

/-- Calls that all return a nil error, on a Closed breaker. -/
theorem ExecuteAll_closed_ok {W R P : Type}
    (calls : List (Time × Time × (W → W × Outcome R P))) :
    ∀ (cb : CircuitBreaker) (w : W), cb.state = StateClosed →
      (∀ c ∈ calls, ReturnsNil c.2.2) →
      (ExecuteAll cb calls w).1.state = StateClosed ∧
      (ExecuteAll cb calls w).2 = callAll calls w := by
  induction calls with
  | nil =>
    intro cb w hs _
    exact ⟨hs, rfl⟩
  | cons c rest ih =>
    intro cb w hs hall
    obtain ⟨now1, now2, req⟩ := c
    have hreq : ReturnsNil req := hall (now1, now2, req) (List.mem_cons_self _ _)
    have hrest : ∀ c ∈ rest, ReturnsNil c.2.2 := fun c hc => hall c (List.mem_cons_of_mem _ hc)
    have hstep := Execute_closed_ok cb now1 now2 req w hs hreq
    have hrec := ih (Execute cb now1 now2 req w).1 (Execute cb now1 now2 req w).2.1
      hstep.1 hrest
    have h2 : (Execute cb now1 now2 req w).2.1 = (req w).1 := by rw [hstep.2]
    have h3 : (Execute cb now1 now2 req w).2.2 = (req w).2 := by rw [hstep.2]
    have e1 := congrArg Prod.fst hrec.2
    have e2 := congrArg Prod.snd hrec.2
    simp only [ExecuteAll, callAll]
    refine ⟨hrec.1, ?_⟩
    rw [e1, e2, h3, h2]

/-- Operations that all return a nil error, run without a breaker: every outcome is a
return with a nil error. -/
theorem callAll_ok {W R P : Type} (calls : List (Time × Time × (W → W × Outcome R P))) :
    ∀ w : W, (∀ c ∈ calls, ReturnsNil c.2.2) →
      ∀ out ∈ (callAll calls w).2, ∃ result : Option R, out = Outcome.returned result none := by
  induction calls with
  | nil =>
    intro w _ out hout
    simp [callAll] at hout
  | cons c rest ih =>
    intro w hall out hout
    obtain ⟨now1, now2, req⟩ := c
    obtain ⟨w1, result, hw⟩ := hall (now1, now2, req) (List.mem_cons_self _ _) w
    have hw2 : req w = (w1, Outcome.returned result none) := hw
    simp only [callAll, List.mem_cons] at hout
    rw [hw2] at hout
    rcases hout with h | h
    · exact ⟨result, h⟩
    · exact ih w1 (fun c hc => hall c (List.mem_cons_of_mem _ hc)) out h

/-! ## The claims about construction and about runs of calls -/

/-- C26. For a breaker fresh from `NewCircuitBreaker`, of any configuration, and any
sequence of calls of `Execute` whose operations all return a nil error, at any clock
readings: the calls do to the world and return exactly what the operations do and return
when run without the breaker, every call returns a nil error, and the breaker is Closed
after the whole sequence and after each of its calls. -/
theorem C26_successful_calls_stay_closed (W R P : Type) (config : Config) (now0 : Time)
    (calls : List (Time × Time × (W → W × Outcome R P))) (w : W)
    (hok : ∀ c ∈ calls, ReturnsNil c.2.2) :
    (ExecuteAll (NewCircuitBreaker config now0) calls w).2 = callAll calls w ∧
    (∀ out ∈ (ExecuteAll (NewCircuitBreaker config now0) calls w).2.2,
      ∃ result : Option R, out = Outcome.returned result none) ∧
    (ExecuteAll (NewCircuitBreaker config now0) calls w).1.state = StateClosed ∧
    ∀ n : Nat,
      (ExecuteAll (NewCircuitBreaker config now0) (calls.take n) w).1.state = StateClosed := by
  have hnew : (NewCircuitBreaker config now0).state = StateClosed := by
    simp [NewCircuitBreaker]
  have h := ExecuteAll_closed_ok calls (NewCircuitBreaker config now0) w hnew hok
  refine ⟨h.2, ?_, h.1, ?_⟩
  · rw [h.2]
    exact callAll_ok calls w hok
  · intro n
    exact (ExecuteAll_closed_ok (calls.take n) (NewCircuitBreaker config now0) w hnew
      (fun c hc => hok c (List.mem_of_mem_take hc))).1

/-- Witness of C26: the start of `TestCircuitBreaker_SuccessfulRequests`, three successful
calls on a fresh breaker. -/
theorem C26_successful_calls_stay_closed_witness :
    (ExecuteAll (NewCircuitBreaker exampleConfig 1000)
      [(2000, 2001, okRequest), (2002, 2003, okRequest), (2004, 2005, okRequest)] 0).1.state
        = StateClosed ∧
    (ExecuteAll (NewCircuitBreaker exampleConfig 1000)
      [(2000, 2001, okRequest), (2002, 2003, okRequest), (2004, 2005, okRequest)] 0).2.1 = 3 :=
  have h := C26_successful_calls_stay_closed Nat String String exampleConfig 1000
    [(2000, 2001, okRequest), (2002, 2003, okRequest), (2004, 2005, okRequest)] 0
    (by
      intro c hc
      simp only [List.mem_cons, List.mem_singleton, List.not_mem_nil, or_false] at hc
      rcases hc with rfl | rfl | rfl <;> exact fun w => ⟨w + 1, some "ok", rfl⟩)
  ⟨h.2.2.1, by rw [h.1]; rfl⟩

/-- C27, the code at the failing input.  A breaker built from a configuration with a nil
`ReadyToTrip` uses the rule `ConsecutiveFailures > 5`: after five consecutive failing calls
it is still Closed, with `ConsecutiveFailures = 5`, and only the sixth opens it. -/
theorem C27_default_trips_at_sixth_failure :
    exampleConfigDefaults.ReadyToTrip.isNone = true ∧
    (NewCircuitBreaker exampleConfigDefaults 1000).readyToTrip { ConsecutiveFailures := 5 }
      = false ∧
    (NewCircuitBreaker exampleConfigDefaults 1000).readyToTrip { ConsecutiveFailures := 6 }
      = true ∧
    (ExecuteAll (NewCircuitBreaker exampleConfigDefaults 1000)
      (exampleFailingCalls 5) 0).1.state = StateClosed ∧
    (ExecuteAll (NewCircuitBreaker exampleConfigDefaults 1000)
      (exampleFailingCalls 5) 0).1.counts.ConsecutiveFailures = 5 ∧
    (ExecuteAll (NewCircuitBreaker exampleConfigDefaults 1000)
      (exampleFailingCalls 6) 0).1.state = StateOpen :=
  ⟨rfl, rfl, rfl, rfl, rfl, rfl⟩

/-- C28. `NewCircuitBreaker` returns a breaker in state Closed with all five counts zero
(and generation `1`); a zero `MaxRequests` becomes `1` and a zero `Timeout` becomes sixty
seconds, non-zero values of the two are kept; name and interval are taken over. -/
theorem C28_new_breaker_defaults (config : Config) (now : Time) :
    (NewCircuitBreaker config now).state = StateClosed ∧
    (NewCircuitBreaker config now).counts =
      { Requests := 0, TotalSuccesses := 0, TotalFailures := 0, ConsecutiveSuccesses := 0,
        ConsecutiveFailures := 0 } ∧
    (NewCircuitBreaker config now).generation = 1 ∧
    (config.MaxRequests = 0 → (NewCircuitBreaker config now).maxRequests = 1) ∧
    (config.MaxRequests ≠ 0 →
      (NewCircuitBreaker config now).maxRequests = config.MaxRequests) ∧
    (config.Timeout = 0 → (NewCircuitBreaker config now).timeout = 60 * Second) ∧
    (config.Timeout ≠ 0 → (NewCircuitBreaker config now).timeout = config.Timeout) ∧
    (NewCircuitBreaker config now).name = config.Name ∧
    (NewCircuitBreaker config now).interval = config.Interval ∧
    60 * Second = 60000000000 := by
  refine ⟨by simp [NewCircuitBreaker], by simp [NewCircuitBreaker],
    by simp [NewCircuitBreaker], ?_, ?_, ?_, ?_, by simp [NewCircuitBreaker],
    by simp [NewCircuitBreaker], rfl⟩
  · intro h
    simp [NewCircuitBreaker, h]
  · intro h
    simp [NewCircuitBreaker, h]
  · intro h
    simp [NewCircuitBreaker, h]
  · intro h
    simp [NewCircuitBreaker, h]

/-! ## Failing calls on a Closed breaker without a rolling window -/

/-- The lazy evaluation leaves a Closed breaker with the zero expiry as it is. -/
theorem currentState_closed_unset (cb : CircuitBreaker) (now : Time)
    (hs : cb.state = StateClosed) (he : cb.expiry = zeroTime) : currentState cb now = cb := by
  rw [currentState_closed cb now hs, if_neg]
  intro hcon
  exact hcon.1 he

/-- The admission of a call by a Closed breaker with the zero expiry. -/
theorem beforeRequest_closed_unset (cb : CircuitBreaker) (now : Time)
    (hs : cb.state = StateClosed) (he : cb.expiry = zeroTime) :
    ∃ cb1 : CircuitBreaker, beforeRequest cb now = (cb1, cb.generation, none) ∧
      cb1.state = StateClosed ∧ cb1.expiry = zeroTime ∧ cb1.generation = cb.generation ∧
      cb1.counts = countRequest cb.counts ∧ cb1.readyToTrip = cb.readyToTrip ∧
      cb1.timeout = cb.timeout := by
  have hcur : currentState (Lock cb) now = Lock cb :=
    currentState_closed_unset (Lock cb) now (by simpa using hs) (by simpa using he)
  have hb : beforeRequest cb now =
      (Unlock { Lock cb with counts := { cb.counts with
          Requests := (cb.counts.Requests + 1) % 2 ^ 32 } }, cb.generation, none) := by
    simp only [beforeRequest, hcur, Lock_state, hs, Lock_counts, Lock_generation]
    simp only [reduceCtorEq, if_false, false_and]
  exact ⟨_, hb, by simpa [Unlock, Lock] using hs, by simpa [Unlock, Lock] using he,
    by simp [Unlock, Lock], by simp [Unlock, Lock, countRequest], by simp [Unlock, Lock],
    by simp [Unlock, Lock]⟩

/-- A failure recorded for the current generation on a Closed breaker with the zero
expiry: the breaker opens when `readyToTrip` holds of the new counts, and otherwise only
counts the failure. -/
theorem afterRequest_closed_unset_failure (cb : CircuitBreaker) (now : Time)
    (hs : cb.state = StateClosed) (he : cb.expiry = zeroTime) :
    (cb.readyToTrip (countFailure cb.counts) = true →
      (afterRequest cb now cb.generation false).state = StateOpen ∧
      (afterRequest cb now cb.generation false).expiry = now + cb.timeout) ∧
    (cb.readyToTrip (countFailure cb.counts) = false →
      (afterRequest cb now cb.generation false).state = StateClosed ∧
      (afterRequest cb now cb.generation false).expiry = zeroTime ∧
      (afterRequest cb now cb.generation false).counts = countFailure cb.counts) := by
  have hcur : currentState (Lock cb) now = Lock cb :=
    currentState_closed_unset (Lock cb) now (by simpa using hs) (by simpa using he)
  have ha : afterRequest cb now cb.generation false =
      Unlock (onFailure (Lock cb) StateClosed now) := by
    simp [afterRequest, hcur, hs]
  rw [ha]
  constructor
  · intro ht
    have hon : onFailure (Lock cb) StateClosed now =
        setState { Lock cb with counts := countFailure cb.counts } StateOpen now := by
      simp only [onFailure, reduceCtorEq, if_false, Lock_counts, Lock_readyToTrip]
      rw [if_pos (by simpa [countFailure] using ht)]
      rfl
    rw [hon]
    refine ⟨by rw [Unlock_state]; exact setState_state _ _ _, ?_⟩
    rw [Unlock_expiry, setState_expiry_open _ _ (by simp [Lock, hs])]
    rfl
  · intro ht
    have hon : onFailure (Lock cb) StateClosed now =
        { Lock cb with counts := countFailure cb.counts } := by
      simp only [onFailure, reduceCtorEq, if_false, Lock_counts, Lock_readyToTrip]
      rw [if_neg (by simpa [countFailure] using ht)]
      rfl
    rw [hon]
    exact ⟨by simpa [Unlock, Lock] using hs, by simpa [Unlock, Lock] using he,
      by simp [Unlock, Lock]⟩

/-- A failing call of `Execute` on a Closed breaker with the zero expiry. -/
theorem Execute_closed_unset_fail {W R P : Type} (cb : CircuitBreaker) (now1 now2 : Time)
    (req : W → W × Outcome R P) (w : W) (hs : cb.state = StateClosed)
    (he : cb.expiry = zeroTime) (hf : Fails req) :
    (cb.readyToTrip (countFailure (countRequest cb.counts)) = true →
      (Execute cb now1 now2 req w).1.state = StateOpen ∧
      (Execute cb now1 now2 req w).1.expiry = now2 + cb.timeout) ∧
    (cb.readyToTrip (countFailure (countRequest cb.counts)) = false →
      (Execute cb now1 now2 req w).1.state = StateClosed ∧
      (Execute cb now1 now2 req w).1.expiry = zeroTime ∧
      (Execute cb now1 now2 req w).1.counts = countFailure (countRequest cb.counts)) := by
  obtain ⟨cb1, hb, hs1, he1, hg1, hc1, hr1, ht1⟩ := beforeRequest_closed_unset cb now1 hs he
  have hex : (Execute cb now1 now2 req w).1 = afterRequest cb1 now2 cb1.generation false := by
    rcases hf w with ⟨w1, result, err, hw⟩ | ⟨w1, e, hw⟩
    · rw [Execute_admitted_returned cb cb1 now1 now2 req w w1 _ _ _ hb hw, hg1]
      rfl
    · rw [Execute_admitted_panicked cb cb1 now1 now2 req w w1 _ _ hb hw, hg1]
  have h := afterRequest_closed_unset_failure cb1 now2 hs1 he1
  rw [hex]
  rw [hc1, hr1, ht1] at h
  exact h

/-- Failing calls in sequence on a Closed breaker without a window that trips at `k`
consecutive failures, from a streak of `ConsecutiveFailures` so far. -/
theorem ExecuteAll_fail_to_trip {W R P : Type} (k : Nat)
    (calls : List (Time × Time × (W → W × Outcome R P))) :
    ∀ (cb : CircuitBreaker) (w : W), cb.state = StateClosed → cb.expiry = zeroTime →
      cb.readyToTrip = (fun c => decide (c.ConsecutiveFailures ≥ k)) → k < 2 ^ 32 →
      (∀ c ∈ calls, Fails c.2.2) →
      (cb.counts.ConsecutiveFailures + calls.length < k →
        (ExecuteAll cb calls w).1.state = StateClosed) ∧
      (1 ≤ calls.length → cb.counts.ConsecutiveFailures + calls.length = k →
        (ExecuteAll cb calls w).1.state = StateOpen ∧
        ∀ last, calls.getLast? = some last →
          (ExecuteAll cb calls w).1.expiry = last.2.1 + cb.timeout) := by
  induction calls with
  | nil =>
    intro cb w hs _ _ _ _
    simp [ExecuteAll, hs]
  | cons c rest ih =>
    intro cb w hs he hr hk hall
    obtain ⟨now1, now2, req⟩ := c
    have hreq : Fails req := hall (now1, now2, req) (List.mem_cons_self _ _)
    have hrest : ∀ c ∈ rest, Fails c.2.2 := fun c hc => hall c (List.mem_cons_of_mem _ hc)
    have hexec : (ExecuteAll cb ((now1, now2, req) :: rest) w).1 =
        (ExecuteAll (Execute cb now1 now2 req w).1 rest (Execute cb now1 now2 req w).2.1).1 := by
      simp [ExecuteAll]
    have hstep := Execute_closed_unset_fail cb now1 now2 req w hs he hreq
    have hcf : (countFailure (countRequest cb.counts)).ConsecutiveFailures =
        (cb.counts.ConsecutiveFailures + 1) % 2 ^ 32 := by
      simp [countFailure, countRequest]
    rw [hr] at hstep
    simp only [hcf, decide_eq_true_eq, decide_eq_false_iff_not, ge_iff_le, not_le] at hstep
    rw [hexec]
    simp only [List.length_cons]
    constructor
    · intro hlt
      have hmod : (cb.counts.ConsecutiveFailures + 1) % 2 ^ 32 =
          cb.counts.ConsecutiveFailures + 1 := Nat.mod_eq_of_lt (by omega)
      have h2 := hstep.2 (by rw [hmod]; omega)
      refine (ih _ _ h2.1 h2.2.1 (by rw [Execute_readyToTrip]; exact hr) hk hrest).1 ?_
      rw [h2.2.2, hcf, hmod]
      omega
    · intro _ heq
      have hmod : (cb.counts.ConsecutiveFailures + 1) % 2 ^ 32 =
          cb.counts.ConsecutiveFailures + 1 := Nat.mod_eq_of_lt (by omega)
      cases rest with
      | nil =>
        simp only [List.length_nil, Nat.zero_add] at heq
        have h1 := hstep.1 (by rw [hmod]; omega)
        refine ⟨by simpa [ExecuteAll] using h1.1, ?_⟩
        intro last hlast
        simp only [List.getLast?_singleton, Option.some.injEq] at hlast
        rw [← hlast]
        simpa [ExecuteAll] using h1.2
      | cons c2 rest2 =>
        simp only [List.length_cons] at heq
        have h2 := hstep.2 (by rw [hmod]; omega)
        have hi := (ih _ (Execute cb now1 now2 req w).2.1 h2.1 h2.2.1
          (by rw [Execute_readyToTrip]; exact hr) hk hrest).2 (by simp)
          (by rw [h2.2.2, hcf, hmod]; simp only [List.length_cons]; omega)
        refine ⟨hi.1, ?_⟩
        intro last hlast
        rw [List.getLast?_cons_cons] at hlast
        rw [hi.2 last hlast, Execute_timeout]

/-- An Open breaker whose expiry is not before `now1` rejects the call without running
the operation. -/
theorem Execute_open_rejects {W R P : Type} (cb : CircuitBreaker) (now1 now2 : Time)
    (req : W → W × Outcome R P) (w : W) (hopen : cb.state = StateOpen)
    (hnot : now1 ≤ cb.expiry) :
    (Execute cb now1 now2 req w).2.2 = Outcome.returned none (some ErrCircuitOpen) ∧
    (Execute cb now1 now2 req w).2.1 = w ∧
    (Execute cb now1 now2 req w).1.state = StateOpen := by
  have hcur : currentState (Lock cb) now1 = Lock cb := by
    rw [currentState_open (Lock cb) now1 (by simpa using hopen)]
    simp [not_lt.mpr hnot]
  have hb : beforeRequest cb now1 = (Unlock (Lock cb), cb.generation, some ErrCircuitOpen) := by
    simp [beforeRequest, hcur, hopen]
  simp [Execute, hb, hopen]

/-- C25. For `1 ≤ k` (and `k` a `uint32`), a breaker fresh from `NewCircuitBreaker` with a
zero interval and `ReadyToTrip = (ConsecutiveFailures ≥ k)`, and failing calls of `Execute`
in sequence, at any clock readings: after fewer than `k` calls the breaker is Closed, after
exactly `k` it is Open with the expiry at the completion of the last call plus the timeout;
and a call issued then at an instant not after that expiry returns `(nil, ErrCircuitOpen)`
without running its operation. -/
theorem C25_opens_at_kth_failure (W R P : Type) (config : Config) (k : Nat) (now0 : Time)
    (calls : List (Time × Time × (W → W × Outcome R P))) (w : W)
    (hk : 1 ≤ k) (hrange : k < 2 ^ 32) (hinterval : config.Interval = 0)
    (htrip : config.ReadyToTrip = some (fun c => decide (c.ConsecutiveFailures ≥ k)))
    (hfail : ∀ c ∈ calls, Fails c.2.2) :
    (calls.length < k →
      (ExecuteAll (NewCircuitBreaker config now0) calls w).1.state = StateClosed) ∧
    (calls.length = k →
      (ExecuteAll (NewCircuitBreaker config now0) calls w).1.state = StateOpen ∧
      (∀ last, calls.getLast? = some last →
        (ExecuteAll (NewCircuitBreaker config now0) calls w).1.expiry =
          last.2.1 + (NewCircuitBreaker config now0).timeout) ∧
      ∀ (now1 now2 : Time) (req : W → W × Outcome R P) (w2 : W),
        now1 ≤ (ExecuteAll (NewCircuitBreaker config now0) calls w).1.expiry →
        (Execute (ExecuteAll (NewCircuitBreaker config now0) calls w).1 now1 now2 req w2).2.2
          = Outcome.returned none (some ErrCircuitOpen) ∧
        (Execute (ExecuteAll (NewCircuitBreaker config now0) calls w).1 now1 now2 req w2).2.1
          = w2) := by
  have hs : (NewCircuitBreaker config now0).state = StateClosed := by
    simp [NewCircuitBreaker]
  have he : (NewCircuitBreaker config now0).expiry = zeroTime := by
    unfold NewCircuitBreaker
    rw [toNewGeneration_expiry_closed _ now0 rfl]
    simp [hinterval]
  have hr : (NewCircuitBreaker config now0).readyToTrip =
      (fun c => decide (c.ConsecutiveFailures ≥ k)) := by
    simp [NewCircuitBreaker, htrip]
  have hc : (NewCircuitBreaker config now0).counts.ConsecutiveFailures = 0 := by
    simp [NewCircuitBreaker]
  have h := ExecuteAll_fail_to_trip k calls (NewCircuitBreaker config now0) w hs he hr hrange
    hfail
  rw [hc] at h
  constructor
  · intro hlt
    exact h.1 (by omega)
  · intro heq
    have h2 := h.2 (by omega) (by omega)
    refine ⟨h2.1, h2.2, ?_⟩
    intro now1 now2 req w2 hnow
    have hrej := Execute_open_rejects _ now1 now2 req w2 h2.1 hnow
    exact ⟨hrej.1, hrej.2.1⟩

/-- Witness of C25 on the breaker of `TestCircuitBreaker_OpenAfterFailures`: three failing
calls, the third completing at instant `2002`, then a call `1 ms` later. -/
theorem C25_opens_at_kth_failure_witness :
    (ExecuteAll (NewCircuitBreaker exampleConfigTripAt3 1000) (exampleFailingCalls 3) 0).1.state
      = StateOpen ∧
    (Execute (ExecuteAll (NewCircuitBreaker exampleConfigTripAt3 1000)
      (exampleFailingCalls 3) 0).1 1002002 1002003 okRequest 7).2.2
        = Outcome.returned none (some ErrCircuitOpen) ∧
    (Execute (ExecuteAll (NewCircuitBreaker exampleConfigTripAt3 1000)
      (exampleFailingCalls 3) 0).1 1002002 1002003 okRequest 7).2.1 = 7 :=
  have h := (C25_opens_at_kth_failure Nat String String exampleConfigTripAt3 3 1000
    (exampleFailingCalls 3) 0 (by decide) (by decide) rfl rfl
    (by
      intro c hc
      simp only [exampleFailingCalls, List.mem_map] at hc
      obtain ⟨i, _, rfl⟩ := hc
      exact fun w => Or.inl ⟨w + 1, none, Error.other "failed", rfl⟩)).2 rfl
  ⟨h.1, h.2.2 1002002 1002003 okRequest 7 (by decide)⟩

end circuitbreaker

namespace circuitbreaker

open State Error

/-! ## The calls of the state-change observer -/

/-- The relation `notifiedStep` looks at name, state, mutex and observer calls of the
breaker before and at state and observer calls of the breaker after. -/
theorem notifiedStep_congr (a a1 b b1 : CircuitBreaker) (hs : a1.state = a.state)
    (hn : a1.notified = a.notified) (hname : a1.name = a.name) (hmu : a1.mu = a.mu)
    (hbs : b1.state = b.state) (hbn : b1.notified = b.notified) (h : notifiedStep a b) :
    notifiedStep a1 b1 := by
  unfold notifiedStep at h ⊢
  rw [hs, hn, hname, hmu, hbs, hbn]
  exact h

theorem setState_notifiedStep (cb : CircuitBreaker) (s : State) (now : Time)
    (hobs : cb.onStateChange = true) : notifiedStep cb (setState cb s now) := by
  by_cases h : cb.state = s
  · left
    rw [setState_eq_of_state cb now s h]
    exact ⟨rfl, rfl⟩
  · right
    refine ⟨by rw [setState_state]; exact fun hc => h hc.symm, ?_⟩
    rw [setState_state]
    simp [setState, h, hobs]

theorem currentState_notifiedStep (cb : CircuitBreaker) (now : Time)
    (hobs : cb.onStateChange = true) : notifiedStep cb (currentState cb now) := by
  simp only [currentState]
  split
  · split_ifs
    · left
      exact ⟨toNewGeneration_state cb now, toNewGeneration_notified cb now⟩
    · left
      exact ⟨rfl, rfl⟩
  · split_ifs
    · exact setState_notifiedStep cb _ now hobs
    · left
      exact ⟨rfl, rfl⟩
  · left
    exact ⟨rfl, rfl⟩

theorem onSuccess_notifiedStep (cb : CircuitBreaker) (s : State) (now : Time)
    (hobs : cb.onStateChange = true) : notifiedStep cb (onSuccess cb s now) := by
  simp only [onSuccess]
  split_ifs
  · exact notifiedStep_congr _ cb _ _ rfl rfl rfl rfl rfl rfl
      (setState_notifiedStep _ StateClosed now (by simpa using hobs))
  · left
    exact ⟨rfl, rfl⟩

theorem onFailure_notifiedStep (cb : CircuitBreaker) (s : State) (now : Time)
    (hobs : cb.onStateChange = true) : notifiedStep cb (onFailure cb s now) := by
  simp only [onFailure]
  split_ifs
  · exact notifiedStep_congr _ cb _ _ rfl rfl rfl rfl rfl rfl
      (setState_notifiedStep _ StateOpen now (by simpa using hobs))
  · exact notifiedStep_congr _ cb _ _ rfl rfl rfl rfl rfl rfl
      (setState_notifiedStep _ StateOpen now (by simpa using hobs))
  · left
    exact ⟨rfl, rfl⟩

/-- The observer calls that `setState` adds, if any, carry the value of the mutex. -/
theorem setState_appended (cb : CircuitBreaker) (s : State) (now : Time) :
    ∃ evs : List StateChange, (setState cb s now).notified = cb.notified ++ evs ∧
      ∀ ev ∈ evs, ev.locked = cb.mu := by
  simp only [setState]
  split_ifs
  · exact ⟨[], by simp, by simp⟩
  · exact ⟨[{ name := cb.name, prev := cb.state, state := s, locked := cb.mu }], by simp,
      by simp⟩
  · exact ⟨[], by simp, by simp⟩

theorem currentState_appended (cb : CircuitBreaker) (now : Time) :
    ∃ evs : List StateChange, (currentState cb now).notified = cb.notified ++ evs ∧
      ∀ ev ∈ evs, ev.locked = cb.mu := by
  simp only [currentState]
  split
  · split_ifs
    · exact ⟨[], by simp, by simp⟩
    · exact ⟨[], by simp, by simp⟩
  · split_ifs
    · exact setState_appended cb _ now
    · exact ⟨[], by simp, by simp⟩
  · exact ⟨[], by simp, by simp⟩

theorem onSuccess_appended (cb : CircuitBreaker) (s : State) (now : Time) :
    ∃ evs : List StateChange, (onSuccess cb s now).notified = cb.notified ++ evs ∧
      ∀ ev ∈ evs, ev.locked = cb.mu := by
  simp only [onSuccess]
  split_ifs
  · exact setState_appended _ StateClosed now
  · exact ⟨[], by simp, by simp⟩

theorem onFailure_appended (cb : CircuitBreaker) (s : State) (now : Time) :
    ∃ evs : List StateChange, (onFailure cb s now).notified = cb.notified ++ evs ∧
      ∀ ev ∈ evs, ev.locked = cb.mu := by
  simp only [onFailure]
  split_ifs
  · exact setState_appended _ StateOpen now
  · exact setState_appended _ StateOpen now
  · exact ⟨[], by simp, by simp⟩

/-- C29. With an observer set, every step in which the state can change calls the observer
exactly once when the state changes, with the name of the breaker, the state before and
the state after, and not at all when the state is kept (`notifiedStep`): this holds for
`setState`, for the lazy evaluation `currentState`, and for the recording of the outcome in
`afterRequest`, which follows the lazy evaluation, so the calls are in the order of the
transitions.  The rolling-window reset `toNewGeneration`, the admission or rejection that
follows the lazy evaluation in `beforeRequest`, and a discarded stale result keep the state
and call nothing. -/
theorem C29_observer_called_once_per_transition (cb : CircuitBreaker) (now : Time) (g : Nat)
    (success : Bool) (hobserver : cb.onStateChange = true) :
    (∀ s : State, notifiedStep cb (setState cb s now)) ∧
    ((toNewGeneration cb now).state = cb.state ∧
      (toNewGeneration cb now).notified = cb.notified) ∧
    notifiedStep cb (currentState cb now) ∧
    ((beforeRequest cb now).1.state = (currentState (Lock cb) now).state ∧
      (beforeRequest cb now).1.notified = (currentState (Lock cb) now).notified) ∧
    notifiedStep (currentState (Lock cb) now) (afterRequest cb now g success) ∧
    (g ≠ (currentState cb now).generation →
      (afterRequest cb now g success).state = (currentState (Lock cb) now).state ∧
      (afterRequest cb now g success).notified = (currentState (Lock cb) now).notified) := by
  have hobs1 : (currentState (Lock cb) now).onStateChange = true := by simpa using hobserver
  refine ⟨fun s => setState_notifiedStep cb s now hobserver,
    ⟨toNewGeneration_state cb now, toNewGeneration_notified cb now⟩,
    currentState_notifiedStep cb now hobserver, ?_, ?_, ?_⟩
  · simp only [beforeRequest]
    split_ifs <;> exact ⟨rfl, rfl⟩
  · simp only [afterRequest]
    split_ifs
    · left
      exact ⟨rfl, rfl⟩
    · exact notifiedStep_congr _ _ _ _ rfl rfl rfl rfl rfl rfl
        (onSuccess_notifiedStep _ _ now hobs1)
    · exact notifiedStep_congr _ _ _ _ rfl rfl rfl rfl rfl rfl
        (onFailure_notifiedStep _ _ now hobs1)
  · intro hstale
    simp [afterRequest, hstale]

/-- Witness of C29: the failure that reopens `exampleHalfOpen`, whose observer is set. -/
theorem C29_observer_called_once_per_transition_witness :
    exampleHalfOpen.onStateChange = true ∧
    notifiedStep (currentState (Lock exampleHalfOpen) 60000500)
      (afterRequest exampleHalfOpen 60000500 exampleHalfOpen.generation false) ∧
    (afterRequest exampleHalfOpen 60000500 exampleHalfOpen.generation false).notified =
      exampleHalfOpen.notified ++
        [{ name := "test", prev := StateHalfOpen, state := StateOpen, locked := true }] :=
  ⟨rfl, (C29_observer_called_once_per_transition exampleHalfOpen 60000500
    exampleHalfOpen.generation false rfl).2.2.2.2.1, rfl⟩

/-- C30, refuted as stated: the admission that moves `exampleOpen` to HalfOpen calls the
observer while the mutex taken by `beforeRequest` is held. -/
theorem C30_counterexample :
    (beforeRequest exampleOpen 60000000).1.notified =
      exampleOpen.notified ++
        [{ name := "test", prev := StateOpen, state := StateHalfOpen, locked := true }] :=
  rfl

/-- C30, amended.  Every call of the observer that `beforeRequest` or `afterRequest` makes
is made while the mutex taken by that method is held; the mutex is released when the
method returns. -/
theorem C30_observer_called_under_lock (cb : CircuitBreaker) (now : Time) (g : Nat)
    (success : Bool) :
    (∃ evs : List StateChange, (beforeRequest cb now).1.notified = cb.notified ++ evs ∧
      ∀ ev ∈ evs, ev.locked = true) ∧
    (beforeRequest cb now).1.mu = false ∧
    (∃ evs : List StateChange, (afterRequest cb now g success).notified = cb.notified ++ evs ∧
      ∀ ev ∈ evs, ev.locked = true) ∧
    (afterRequest cb now g success).mu = false := by
  obtain ⟨evs1, h1, hl1⟩ := currentState_appended (Lock cb) now
  simp only [Lock_notified, Lock_mu] at h1 hl1
  have hmu : (currentState (Lock cb) now).mu = true := by simp
  refine ⟨⟨evs1, ?_, hl1⟩, ?_, ?_, ?_⟩
  · simp only [beforeRequest]
    split_ifs <;> exact h1
  · simp only [beforeRequest]
    split_ifs <;> rfl
  · simp only [afterRequest]
    split_ifs
    · exact ⟨evs1, h1, hl1⟩
    · obtain ⟨evs2, h2, hl2⟩ := onSuccess_appended (currentState (Lock cb) now)
        (currentState (Lock cb) now).state now
      rw [hmu] at hl2
      refine ⟨evs1 ++ evs2, by rw [Unlock_notified, h2, h1, List.append_assoc], ?_⟩
      intro ev hev
      rcases List.mem_append.mp hev with h | h
      · exact hl1 ev h
      · exact hl2 ev h
    · obtain ⟨evs2, h2, hl2⟩ := onFailure_appended (currentState (Lock cb) now)
        (currentState (Lock cb) now).state now
      rw [hmu] at hl2
      refine ⟨evs1 ++ evs2, by rw [Unlock_notified, h2, h1, List.append_assoc], ?_⟩
      intro ev hev
      rcases List.mem_append.mp hev with h | h
      · exact hl1 ev h
      · exact hl2 ev h
  · simp only [afterRequest]
    split_ifs <;> rfl

end circuitbreaker

namespace healthcheck

open HealthStatus
open circuitbreaker (Time)

/-! ## The claim about the active checker -/

/-- C24. For every outcome of the probe, `checkBackend` leaves the backend healthy if and
only if a response arrived (no request-construction error, no transport error or timeout)
and its status code lies in `[200, 400)`; in every other case it leaves the backend
unhealthy. -/
theorem C24_probe_classification (backend : Backend) (probe : ProbeOutcome) (now : Time) :
    ((checkBackend backend probe now).Status = Healthy ↔
      ∃ code : Int, probe = ProbeOutcome.response code ∧ 200 ≤ code ∧ code < 400) ∧
    ((checkBackend backend probe now).Status = Unhealthy ↔
      ¬ ∃ code : Int, probe = ProbeOutcome.response code ∧ 200 ≤ code ∧ code < 400) ∧
    (checkBackend backend ProbeOutcome.requestError now).Status = Unhealthy ∧
    (checkBackend backend ProbeOutcome.transportError now).Status = Unhealthy ∧
    (∀ code : Int, code < 200 →
      (checkBackend backend (ProbeOutcome.response code) now).Status = Unhealthy) ∧
    (∀ code : Int, 400 ≤ code →
      (checkBackend backend (ProbeOutcome.response code) now).Status = Unhealthy) := by
  have key : ∀ code : Int,
      (checkBackend backend (ProbeOutcome.response code) now).Status =
        if 200 ≤ code ∧ code < 400 then Healthy else Unhealthy := by
    intro code
    simp only [checkBackend, ge_iff_le]
    split_ifs <;> rfl
  refine ⟨?_, ?_, rfl, rfl, ?_, ?_⟩
  · cases probe with
    | requestError => simp [checkBackend, Backend.MarkUnhealthy]
    | transportError => simp [checkBackend, Backend.MarkUnhealthy]
    | response code =>
      rw [key]
      split_ifs with h
      · simp [h]
      · simp only [reduceCtorEq, ProbeOutcome.response.injEq, false_iff, not_exists, not_and]
        intro c hc h1 h2
        rw [← hc] at h1 h2
        exact h ⟨h1, h2⟩
  · cases probe with
    | requestError => simp [checkBackend, Backend.MarkUnhealthy]
    | transportError => simp [checkBackend, Backend.MarkUnhealthy]
    | response code =>
      rw [key]
      split_ifs with h
      · simp only [reduceCtorEq, ProbeOutcome.response.injEq, false_iff, not_not]
        exact ⟨code, rfl, h.1, h.2⟩
      · simp only [ProbeOutcome.response.injEq, true_iff, not_exists, not_and]
        intro c hc h1 h2
        rw [← hc] at h1 h2
        exact h ⟨h1, h2⟩
  · intro code hlt
    rw [key, if_neg]
    intro hcon
    omega
  · intro code hge
    rw [key, if_neg]
    intro hcon
    omega

end healthcheck

namespace resilient

open circuitbreaker (CircuitBreaker Time Outcome Error Execute)
open circuitbreaker.State
open circuitbreaker.Error
open healthcheck (Backend PassiveHealthChecker)
open healthcheck.HealthStatus

/-! ## Helper lemmas for the request handler -/

/-- The recorder passes every call on to the response writer it wraps. -/
theorem handle_ResponseWriter (calls : List ResponseEvent) :
    ∀ rec : statusRecorder, (rec.handle calls).ResponseWriter = rec.ResponseWriter ++ calls := by
  induction calls with
  | nil =>
    intro rec
    simp [statusRecorder.handle]
  | cons ev rest ih =>
    intro rec
    cases ev with
    | WriteHeader code =>
      simp [statusRecorder.handle, ih, statusRecorder.WriteHeader]
    | Write body =>
      simp [statusRecorder.handle, ih, statusRecorder.Write]

/-- The status the recorder holds after the calls: the code of the last `WriteHeader`, or
the status it held before when there was none. -/
theorem handle_statusCode (calls : List ResponseEvent) :
    ∀ rec : statusRecorder, (rec.handle calls).statusCode =
      ((calls.filterMap (fun ev =>
        match ev with
        | ResponseEvent.WriteHeader code => some code
        | ResponseEvent.Write _ => none)).getLast?).getD rec.statusCode := by
  induction calls with
  | nil =>
    intro rec
    simp [statusRecorder.handle]
  | cons ev rest ih =>
    intro rec
    cases ev with
    | WriteHeader code =>
      simp only [statusRecorder.handle, ih, statusRecorder.WriteHeader, List.filterMap_cons,
        List.getLast?_cons, Option.getD_some]
    | Write body =>
      simp only [statusRecorder.handle, ih, statusRecorder.Write, List.filterMap_cons]

/-- The operation handed to the breaker, when the forwarded call returns. -/
theorem forwardOperation_returns {W P : Type}
    (forward : Nat → W → W × List ResponseEvent × Option P) (idx : Nat) (w : ResponseWriter)
    (world world1 : W) (calls : List ResponseEvent)
    (h : forward idx world = (world1, calls, none)) :
    forwardOperation forward idx (w, world) =
      ((w ++ calls, world1),
        if 500 ≤ recordedStatus calls then
          Outcome.returned none
            (some (Error.other ("backend returned " ++ toString (recordedStatus calls))))
        else Outcome.returned none none) := by
  have hs := handle_statusCode calls { ResponseWriter := w, statusCode := StatusOK }
  have hw := handle_ResponseWriter calls { ResponseWriter := w, statusCode := StatusOK }
  simp only [forwardOperation, h, ge_iff_le]
  rw [hs, hw]
  simp only [StatusOK, recordedStatus]
  split_ifs <;> rfl

/-- The operation handed to the breaker, when the forwarded call panics. -/
theorem forwardOperation_panics {W P : Type}
    (forward : Nat → W → W × List ResponseEvent × Option P) (idx : Nat) (w : ResponseWriter)
    (world world1 : W) (calls : List ResponseEvent) (e : P)
    (h : forward idx world = (world1, calls, some e)) :
    forwardOperation forward idx (w, world) = ((w ++ calls, world1), Outcome.panicked e) := by
  have hw := handle_ResponseWriter calls { ResponseWriter := w, statusCode := StatusOK }
  simp only [forwardOperation, h]
  rw [hw]

/-! ## The claims about the request handler -/

/-- C21, refuted as stated: the forwarded call of `exampleForwardAbort` sends the header
with status `200` and then panics, as the reverse proxy does with `http.ErrAbortHandler`.
The recorded status is `200`, below `500`, yet the operation handed to the breaker does
not return a nil error (it returns nothing, the panic passes through it), and the breaker
counts a failure and no success. -/
theorem C21_counterexample :
    exampleForwardAbort 0 0 = (1, [ResponseEvent.WriteHeader 200], some "net/http: abort Handler") ∧
    recordedStatus [ResponseEvent.WriteHeader 200] = 200 ∧
    (forwardOperation exampleForwardAbort 0 ([], 0)).2 =
      Outcome.panicked "net/http: abort Handler" ∧
    (forwardOperation exampleForwardAbort 0 ([], 0)).2 ≠ Outcome.returned none none ∧
    (Execute circuitbreaker.exampleClosed 3000 3001 (forwardOperation exampleForwardAbort 0)
      ([], 0)).1.counts.TotalFailures = 1 ∧
    (Execute circuitbreaker.exampleClosed 3000 3001 (forwardOperation exampleForwardAbort 0)
      ([], 0)).1.counts.TotalSuccesses = 0 ∧
    (Execute circuitbreaker.exampleClosed 3000 3001 (forwardOperation exampleForwardAbort 0)
      ([], 0)).1.counts.ConsecutiveFailures = 1 :=
  ⟨rfl, rfl, rfl, by simp [forwardOperation, exampleForwardAbort], rfl, rfl, rfl⟩

/-- C21, amended.  Let the forwarded call make the calls `calls` on the recorder and then
return (`panicValue = none`) or panic (`panicValue = some e`).  The recorded status is the
code last passed to `WriteHeader`, and `200` when `WriteHeader` was not called; every call
of the forwarded request reaches the response writer.  When the forwarded call returns, the
operation that `ServeHTTP` hands to the breaker returns a non-nil error if and only if the
recorded status is at least `500`, and a nil error if and only if it is below `500` (a `4xx`
status included).  When the forwarded call panics, the operation returns nothing: the panic
passes through it, whatever the recorded status.  For a call that the breaker admits, the
breaker records a success (`afterRequest(generation, true)`) exactly when the forwarded
call returns with a recorded status below `500`, and a failure
(`afterRequest(generation, false)`) when the recorded status is at least `500` or the
forwarded call panics; a panic leaves `Execute` with the same value. -/
theorem C21_breaker_failure_iff_5xx_or_panic (W P : Type)
    (forward : Nat → W → W × List ResponseEvent × Option P) (idx : Nat) (w : ResponseWriter)
    (world world1 : W) (calls : List ResponseEvent) (panicValue : Option P)
    (cb cb1 : CircuitBreaker) (g : Nat) (now1 now2 : Time)
    (hforward : forward idx world = (world1, calls, panicValue))
    (hadmitted : circuitbreaker.beforeRequest cb now1 = (cb1, g, none)) :
    (panicValue = none →
      ((∃ err : Error, (forwardOperation forward idx (w, world)).2 =
          Outcome.returned none (some err)) ↔ 500 ≤ recordedStatus calls) ∧
      ((forwardOperation forward idx (w, world)).2 = Outcome.returned none none ↔
        recordedStatus calls < 500)) ∧
    (∀ e : P, panicValue = some e →
      (forwardOperation forward idx (w, world)).2 = Outcome.panicked e ∧
      (Execute cb now1 now2 (forwardOperation forward idx) (w, world)).2.2 =
        Outcome.panicked e) ∧
    (forwardOperation forward idx (w, world)).1 = (w ++ calls, world1) ∧
    (Execute cb now1 now2 (forwardOperation forward idx) (w, world)).1 =
      circuitbreaker.afterRequest cb1 now2 g
        (panicValue.isNone && decide (recordedStatus calls < 500)) ∧
    (∀ body : List ResponseEvent,
      (∀ ev ∈ body, ∃ text : String, ev = ResponseEvent.Write text) →
        recordedStatus body = 200) ∧
    (∀ (before after : List ResponseEvent) (code : Int),
      (∀ ev ∈ after, ∃ text : String, ev = ResponseEvent.Write text) →
        recordedStatus (before ++ ResponseEvent.WriteHeader code :: after) = code) := by
  refine ⟨?_, ?_, ?_, ?_, ?_, ?_⟩
  · intro hnone
    subst hnone
    rw [forwardOperation_returns forward idx w world world1 calls hforward]
    constructor
    · split_ifs with h
      · simp [h]
      · simp [h]
    · split_ifs with h
      · simp only [reduceCtorEq, false_iff, not_lt]
        simp only [Outcome.returned.injEq, reduceCtorEq, and_false, false_iff, not_lt]
        exact h
      · simp only [true_iff]
        omega
  · intro e hsome
    subst hsome
    have hop := forwardOperation_panics forward idx w world world1 calls e hforward
    refine ⟨by rw [hop], ?_⟩
    rw [circuitbreaker.Execute_admitted_panicked cb cb1 now1 now2 _ (w, world)
      (w ++ calls, world1) g e hadmitted hop]
  · cases panicValue with
    | none => rw [forwardOperation_returns forward idx w world world1 calls hforward]
    | some e => rw [forwardOperation_panics forward idx w world world1 calls e hforward]
  · cases panicValue with
    | none =>
      have hop := forwardOperation_returns forward idx w world world1 calls hforward
      by_cases h : 500 ≤ recordedStatus calls
      · rw [if_pos h] at hop
        rw [circuitbreaker.Execute_admitted_returned cb cb1 now1 now2 _ (w, world)
          (w ++ calls, world1) g none _ hadmitted hop]
        have : ¬ recordedStatus calls < 500 := by omega
        simp [this]
      · rw [if_neg h] at hop
        rw [circuitbreaker.Execute_admitted_returned cb cb1 now1 now2 _ (w, world)
          (w ++ calls, world1) g none _ hadmitted hop]
        have : recordedStatus calls < 500 := by omega
        simp [this]
    | some e =>
      have hop := forwardOperation_panics forward idx w world world1 calls e hforward
      rw [circuitbreaker.Execute_admitted_panicked cb cb1 now1 now2 _ (w, world)
        (w ++ calls, world1) g e hadmitted hop]
      simp
  · intro body hbody
    have hnone : body.filterMap (fun ev =>
        match ev with
        | ResponseEvent.WriteHeader code => some code
        | ResponseEvent.Write _ => none) = [] := by
      rw [List.filterMap_eq_nil_iff]
      intro ev hev
      obtain ⟨text, rfl⟩ := hbody ev hev
      rfl
    simp [recordedStatus, hnone]
  · intro before after code hafter
    have hnone : after.filterMap (fun ev =>
        match ev with
        | ResponseEvent.WriteHeader code => some code
        | ResponseEvent.Write _ => none) = [] := by
      rw [List.filterMap_eq_nil_iff]
      intro ev hev
      obtain ⟨text, rfl⟩ := hafter ev hev
      rfl
    simp [recordedStatus, List.filterMap_append, hnone]

/-- Witness of C21, amended: a forwarded call that answers `404` on a Closed breaker
returns a nil error and is counted as a success. -/
theorem C21_breaker_failure_iff_5xx_or_panic_witness :
    exampleForwardNotFound 0 7 =
      (8, [ResponseEvent.WriteHeader 404, ResponseEvent.Write "no"], none) ∧
    circuitbreaker.beforeRequest circuitbreaker.exampleClosed 3000 =
      ((circuitbreaker.beforeRequest circuitbreaker.exampleClosed 3000).1, 1, none) ∧
    recordedStatus [ResponseEvent.WriteHeader 404, ResponseEvent.Write "no"] = 404 ∧
    ((forwardOperation exampleForwardNotFound 0 ([], 7)).2 = Outcome.returned none none ↔
      recordedStatus [ResponseEvent.WriteHeader 404, ResponseEvent.Write "no"] < 500) ∧
    (Execute circuitbreaker.exampleClosed 3000 3001 (forwardOperation exampleForwardNotFound 0)
      ([], 7)).1 =
        circuitbreaker.afterRequest
          (circuitbreaker.beforeRequest circuitbreaker.exampleClosed 3000).1 3001 1 true :=
  ⟨rfl, rfl, rfl,
    ((C21_breaker_failure_iff_5xx_or_panic Nat String exampleForwardNotFound 0 [] 7 8
      [ResponseEvent.WriteHeader 404, ResponseEvent.Write "no"] none
      circuitbreaker.exampleClosed _ 1 3000 3001 rfl rfl).1 rfl).2,
    (C21_breaker_failure_iff_5xx_or_panic Nat String exampleForwardNotFound 0 [] 7 8
      [ResponseEvent.WriteHeader 404, ResponseEvent.Write "no"] none
      circuitbreaker.exampleClosed _ 1 3000 3001 rfl rfl).2.2.2.1⟩

end resilient

namespace resilient

open circuitbreaker (CircuitBreaker Time Outcome Error Execute)
open circuitbreaker.State
open circuitbreaker.Error
open healthcheck (Backend PassiveHealthChecker)
open healthcheck.HealthStatus

/-- The selection leaves the pool as it was. -/
theorem selectHealthyBackend_backends (rp : ResilientProxy) :
    (selectHealthyBackend rp).1.backends = rp.backends := by
  rcases selectHealthyBackend_spec rp with ⟨j, _, _, _, h⟩ | ⟨_, h⟩ <;> rw [h]

/-- Replacing the breaker of one backend server leaves the backends of the pool as they
were. -/
theorem map_Backend_set (l : List BackendServer) (idx : Nat) (b : BackendServer)
    (cb1 : CircuitBreaker) (h : l[idx]? = some b) :
    (l.set idx { b with CircuitBreaker := cb1 }).map (fun srv => srv.Backend) =
      l.map (fun srv => srv.Backend) := by
  apply List.ext_getElem?
  intro i
  by_cases hi : idx = i
  · subst hi
    have hlt : idx < l.length := (List.getElem?_eq_some_iff.mp h).1
    rw [List.getElem?_map, List.getElem?_set_self hlt, List.getElem?_map, h]
    rfl
  · rw [List.getElem?_map, List.getElem?_set_ne hi, List.getElem?_map]

/-- The checker sees the same backends after the cursor has moved and a breaker has been
replaced. -/
theorem checker_after_execute (d : Dispatcher) (rp1 : ResilientProxy) (idx : Nat)
    (b : BackendServer) (cb1 : CircuitBreaker) (hb : rp1.backends = d.proxy.backends)
    (h : rp1.backends[idx]? = some b) :
    Dispatcher.checker
      { proxy := { rp1 with backends := rp1.backends.set idx { b with CircuitBreaker := cb1 } }
        passiveHealthCheck := d.passiveHealthCheck
        passiveCalls := d.passiveCalls } = d.checker := by
  simp only [Dispatcher.checker]
  rw [map_Backend_set rp1.backends idx b cb1 h, hb]

/-- What `serveSelected` does, by the outcome of `Execute` on the breaker of the selected
backend server. -/
theorem serveSelected_spec {W P : Type} (d : Dispatcher) (idx : Nat) (w : ResponseWriter)
    (forward : Nat → W → W × List ResponseEvent × Option P) (now1 now2 now3 : Time)
    (world : W) (backend : BackendServer) (hb : d.proxy.backends[idx]? = some backend) :
    (∀ (result : Option Unit) (err : Error),
      (Execute backend.CircuitBreaker now1 now2 (forwardOperation forward idx)
        (w, world)).2.2 = Outcome.returned result (some err) →
      (serveSelected d idx w forward now1 now2 now3 world).1.passiveCalls =
        d.passiveCalls ++ [PassiveCall.RecordFailure backend.Backend.URL] ∧
      (serveSelected d idx w forward now1 now2 now3 world).1.passiveHealthCheck =
        d.checker.RecordFailure backend.Backend.URL now3 ∧
      (serveSelected d idx w forward now1 now2 now3 world).2.1 =
        writeRejection (Execute backend.CircuitBreaker now1 now2
          (forwardOperation forward idx) (w, world)).2.1.1 err ∧
      (serveSelected d idx w forward now1 now2 now3 world).2.2.2 = none) ∧
    (∀ result : Option Unit,
      (Execute backend.CircuitBreaker now1 now2 (forwardOperation forward idx)
        (w, world)).2.2 = Outcome.returned result none →
      (serveSelected d idx w forward now1 now2 now3 world).1.passiveCalls =
        d.passiveCalls ++ [PassiveCall.RecordSuccess backend.Backend.URL] ∧
      (serveSelected d idx w forward now1 now2 now3 world).1.passiveHealthCheck =
        d.checker.RecordSuccess backend.Backend.URL now3 ∧
      (serveSelected d idx w forward now1 now2 now3 world).2.2.2 = none) ∧
    (∀ e : P,
      (Execute backend.CircuitBreaker now1 now2 (forwardOperation forward idx)
        (w, world)).2.2 = Outcome.panicked e →
      (serveSelected d idx w forward now1 now2 now3 world).1.passiveCalls = d.passiveCalls ∧
      (serveSelected d idx w forward now1 now2 now3 world).1.passiveHealthCheck =
        d.passiveHealthCheck ∧
      (serveSelected d idx w forward now1 now2 now3 world).2.2.2 = some e) := by
  have hchk := fun cb1 => checker_after_execute d d.proxy idx backend cb1 rfl hb
  simp only [serveSelected, hb]
  rcases hex : Execute backend.CircuitBreaker now1 now2 (forwardOperation forward idx)
    (w, world) with ⟨cb1, ⟨w1, world1⟩, out⟩
  refine ⟨?_, ?_, ?_⟩
  · intro result err hout
    simp only at hout
    subst hout
    simp only [Dispatcher.RecordFailure]
    rw [hchk cb1]
    refine ⟨?_, ?_, ?_, ?_⟩ <;> trivial
  · intro result hout
    simp only at hout
    subst hout
    simp only [Dispatcher.RecordSuccess]
    rw [hchk cb1]
    refine ⟨?_, ?_, ?_⟩ <;> trivial
  · intro e hout
    simp only at hout
    subst hout
    refine ⟨?_, ?_, ?_⟩ <;> trivial

/-- C22, refuted as stated: a backend is selected from `examplePool`, the forwarded call
panics, and `ServeHTTP` makes no call on the passive checker, neither `RecordFailure` nor
`RecordSuccess`; the breaker has counted the failure and the panic leaves `ServeHTTP`. -/
theorem C22_counterexample :
    (selectHealthyBackend exampleDispatcher.proxy).2 = some 0 ∧
    (ServeHTTP exampleDispatcher [] exampleForwardAbort 3000 3001 3002 0).1.passiveCalls = [] ∧
    (ServeHTTP exampleDispatcher [] exampleForwardAbort 3000 3001 3002 0).2.2.2 =
      some "net/http: abort Handler" ∧
    (ServeHTTP exampleDispatcher [] exampleForwardAbort 3000 3001 3002 0).1.proxy.backends.map
      (fun srv => srv.CircuitBreaker.counts.TotalFailures) = [1, 0, 0] :=
  ⟨rfl, rfl, rfl, rfl⟩

/-- C22, amended.  When no backend is selected `ServeHTTP` leaves the world of the
forwarded call, the pool with its breakers and the passive checker untouched and makes no
call on the checker.  When a backend is selected and `Execute` returns, `ServeHTTP` makes
exactly one call on the passive checker, for the URL of the selected backend:
`RecordFailure` when `Execute` returned an error, `RecordSuccess` when it returned a nil
error.  When the forwarded call panics, `ServeHTTP` makes no call on the passive checker
and the panic leaves `ServeHTTP`. -/
theorem C22_one_passive_record_per_returned_call (W P : Type) (d : Dispatcher)
    (w : ResponseWriter) (forward : Nat → W → W × List ResponseEvent × Option P)
    (now1 now2 now3 : Time) (world : W) :
    ((selectHealthyBackend d.proxy).2 = none →
      (ServeHTTP d w forward now1 now2 now3 world).1.passiveCalls = d.passiveCalls ∧
      (ServeHTTP d w forward now1 now2 now3 world).1.passiveHealthCheck =
        d.passiveHealthCheck ∧
      (ServeHTTP d w forward now1 now2 now3 world).1.proxy = d.proxy ∧
      (ServeHTTP d w forward now1 now2 now3 world).2.2.1 = world ∧
      (ServeHTTP d w forward now1 now2 now3 world).2.2.2 = none) ∧
    (∀ (idx : Nat) (backend : BackendServer),
      (selectHealthyBackend d.proxy).2 = some idx → d.proxy.backends[idx]? = some backend →
      (∀ (result : Option Unit) (err : Error),
        (Execute backend.CircuitBreaker now1 now2 (forwardOperation forward idx)
          (w, world)).2.2 = Outcome.returned result (some err) →
        (ServeHTTP d w forward now1 now2 now3 world).1.passiveCalls =
          d.passiveCalls ++ [PassiveCall.RecordFailure backend.Backend.URL] ∧
        (ServeHTTP d w forward now1 now2 now3 world).1.passiveHealthCheck =
          d.checker.RecordFailure backend.Backend.URL now3 ∧
        (ServeHTTP d w forward now1 now2 now3 world).2.2.2 = none) ∧
      (∀ result : Option Unit,
        (Execute backend.CircuitBreaker now1 now2 (forwardOperation forward idx)
          (w, world)).2.2 = Outcome.returned result none →
        (ServeHTTP d w forward now1 now2 now3 world).1.passiveCalls =
          d.passiveCalls ++ [PassiveCall.RecordSuccess backend.Backend.URL] ∧
        (ServeHTTP d w forward now1 now2 now3 world).1.passiveHealthCheck =
          d.checker.RecordSuccess backend.Backend.URL now3 ∧
        (ServeHTTP d w forward now1 now2 now3 world).2.2.2 = none) ∧
      (∀ e : P,
        (Execute backend.CircuitBreaker now1 now2 (forwardOperation forward idx)
          (w, world)).2.2 = Outcome.panicked e →
        (ServeHTTP d w forward now1 now2 now3 world).1.passiveCalls = d.passiveCalls ∧
        (ServeHTTP d w forward now1 now2 now3 world).1.passiveHealthCheck =
          d.passiveHealthCheck ∧
        (ServeHTTP d w forward now1 now2 now3 world).2.2.2 = some e)) := by
  have hback := selectHealthyBackend_backends d.proxy
  constructor
  · intro hnone
    rcases selectHealthyBackend_spec d.proxy with ⟨j, _, _, _, h⟩ | ⟨_, h⟩
    · rw [h] at hnone
      exact absurd hnone (by simp)
    · simp only [ServeHTTP, h]
      refine ⟨?_, ?_, ?_, ?_, ?_⟩ <;> trivial
  · intro idx backend hsel hb
    rcases hq : selectHealthyBackend d.proxy with ⟨rp1, r⟩
    rw [hq] at hsel hback
    simp only at hsel hback
    subst hsel
    have hb1 : ({ d with proxy := rp1 } : Dispatcher).proxy.backends[idx]? = some backend := by
      simp only [hback]
      exact hb
    have hspec := serveSelected_spec { d with proxy := rp1 } idx w forward now1 now2 now3
      world backend hb1
    have hchk : Dispatcher.checker { d with proxy := rp1 } = d.checker := by
      simp only [Dispatcher.checker, hback]
    rw [hchk] at hspec
    simp only [ServeHTTP, hq]
    refine ⟨?_, ?_, ?_⟩
    · intro result err hout
      have h := hspec.1 result err hout
      exact ⟨h.1, h.2.1, h.2.2.2⟩
    · intro result hout
      exact hspec.2.1 result hout
    · intro e hout
      exact hspec.2.2 e hout

/-- Witness of C22 as amended: a forwarded `502` on `exampleDispatcher` is recorded once,
as a failure of backend `A`. -/
theorem C22_one_passive_record_per_returned_call_witness :
    (selectHealthyBackend exampleDispatcher.proxy).2 = some 0 ∧
    (ServeHTTP exampleDispatcher [] exampleForwardBadGateway 3000 3001 3002 0).1.passiveCalls =
      exampleDispatcher.passiveCalls ++ [PassiveCall.RecordFailure "A"] :=
  ⟨rfl, (((C22_one_passive_record_per_returned_call Nat String exampleDispatcher []
    exampleForwardBadGateway 3000 3001 3002 0).2 0
      { Backend := healthcheck.NewBackend "A" 1000,
        CircuitBreaker := circuitbreaker.exampleClosed } rfl rfl).1 none
      (Error.other "backend returned 502") rfl).1⟩

/-- A HalfOpen breaker whose trial slots are taken rejects the call without running the
operation. -/
theorem Execute_halfOpen_rejects {W R P : Type} (cb : CircuitBreaker) (now1 now2 : Time)
    (req : W → W × Outcome R P) (w : W) (hhalf : cb.state = StateHalfOpen)
    (hfull : cb.maxRequests ≤ cb.counts.Requests) :
    (Execute cb now1 now2 req w).2.2 = Outcome.returned none (some ErrTooManyRequests) ∧
    (Execute cb now1 now2 req w).2.1 = w := by
  have hb := circuitbreaker.beforeRequest_halfOpen cb now1 hhalf
  rw [if_pos hfull] at hb
  simp [Execute, hb]

/-- The response that `serveSelected` writes when `Execute` rejects the call. -/
theorem serveSelected_rejection {W P : Type} (d : Dispatcher) (idx : Nat) (w : ResponseWriter)
    (forward : Nat → W → W × List ResponseEvent × Option P) (now1 now2 now3 : Time)
    (world : W) (backend : BackendServer) (err : Error)
    (hb : d.proxy.backends[idx]? = some backend)
    (hout : (Execute backend.CircuitBreaker now1 now2 (forwardOperation forward idx)
      (w, world)).2.2 = Outcome.returned none (some err))
    (hworld : (Execute backend.CircuitBreaker now1 now2 (forwardOperation forward idx)
      (w, world)).2.1 = (w, world)) :
    (serveSelected d idx w forward now1 now2 now3 world).2.1 = writeRejection w err ∧
    (serveSelected d idx w forward now1 now2 now3 world).2.2.1 = world := by
  simp only [serveSelected, hb]
  rcases hex : Execute backend.CircuitBreaker now1 now2 (forwardOperation forward idx)
    (w, world) with ⟨cb1, ⟨w1, world1⟩, out⟩
  rw [hex] at hout hworld
  simp only at hout hworld
  subst hout
  simp only [Prod.mk.injEq] at hworld
  obtain ⟨h1, h2⟩ := hworld
  subst h1 h2
  exact ⟨rfl, rfl⟩

/-- C23. `ServeHTTP` answers each of the three local rejections with status `503` and a
body of its own: `Service Unavailable` when no backend is selected,
`Service Unavailable - Circuit Open` when `Execute` returns `ErrCircuitOpen` (the breaker
of the selected backend is Open, its expiry not before the admission), and
`Service Unavailable - Too Many Requests` when it returns `ErrTooManyRequests` (the breaker
is HalfOpen with its trial slots taken); nothing else is written and the forwarded call is
not made.  The three bodies are pairwise distinct. -/
theorem C23_rejections_are_503_and_distinct (W P : Type) (d : Dispatcher) (w : ResponseWriter)
    (forward : Nat → W → W × List ResponseEvent × Option P) (now1 now2 now3 : Time)
    (world : W) :
    ((selectHealthyBackend d.proxy).2 = none →
      (ServeHTTP d w forward now1 now2 now3 world).2.1 =
        w ++ [ResponseEvent.WriteHeader 503, ResponseEvent.Write "Service Unavailable\n"]) ∧
    (∀ (idx : Nat) (backend : BackendServer), d.proxy.backends[idx]? = some backend →
      backend.CircuitBreaker.state = StateOpen → now1 ≤ backend.CircuitBreaker.expiry →
      (serveSelected d idx w forward now1 now2 now3 world).2.1 =
        w ++ [ResponseEvent.WriteHeader 503,
          ResponseEvent.Write "Service Unavailable - Circuit Open\n"] ∧
      (serveSelected d idx w forward now1 now2 now3 world).2.2.1 = world) ∧
    (∀ (idx : Nat) (backend : BackendServer), d.proxy.backends[idx]? = some backend →
      backend.CircuitBreaker.state = StateHalfOpen →
      backend.CircuitBreaker.maxRequests ≤ backend.CircuitBreaker.counts.Requests →
      (serveSelected d idx w forward now1 now2 now3 world).2.1 =
        w ++ [ResponseEvent.WriteHeader 503,
          ResponseEvent.Write "Service Unavailable - Too Many Requests\n"] ∧
      (serveSelected d idx w forward now1 now2 now3 world).2.2.1 = world) ∧
    (ServeHTTP exampleDispatcherTrialsTaken [] exampleForwardOK 60000005 60000006 60000007
      0).2.1 =
        [ResponseEvent.WriteHeader 503,
          ResponseEvent.Write "Service Unavailable - Too Many Requests\n"] ∧
    "Service Unavailable" ≠ "Service Unavailable - Circuit Open" ∧
    "Service Unavailable" ≠ "Service Unavailable - Too Many Requests" ∧
    "Service Unavailable - Circuit Open" ≠ "Service Unavailable - Too Many Requests" ∧
    StatusServiceUnavailable = 503 := by
  refine ⟨?_, ?_, ?_, rfl, by decide, by decide, by decide, rfl⟩
  · intro hnone
    rcases selectHealthyBackend_spec d.proxy with ⟨j, _, _, _, h⟩ | ⟨_, h⟩
    · rw [h] at hnone
      exact absurd hnone (by simp)
    · simp only [ServeHTTP, h]
      rfl
  · intro idx backend hb hopen hnow
    have hrej := circuitbreaker.Execute_open_rejects backend.CircuitBreaker now1 now2
      (forwardOperation forward idx) (w, world) hopen hnow
    have h := serveSelected_rejection d idx w forward now1 now2 now3 world backend
      ErrCircuitOpen hb hrej.1 hrej.2.1
    exact ⟨by rw [h.1]; rfl, h.2⟩
  · intro idx backend hb hhalf hfull
    have hrej := Execute_halfOpen_rejects backend.CircuitBreaker now1 now2
      (forwardOperation forward idx) (w, world) hhalf hfull
    have h := serveSelected_rejection d idx w forward now1 now2 now3 world backend
      ErrTooManyRequests hb hrej.1 hrej.2
    exact ⟨by rw [h.1]; rfl, h.2⟩

end resilient

namespace middleware

/-! ## The claim about the rate-limit middleware -/

/-- Claim C31.  The handler of `RateLimitMiddleware` calls `limiter.Allow` once, with the
client identity of `getClientIP`, and calls the wrapped handler exactly when the answer is
`true`.  On `true` the wrapped handler is called once, on the writer with the header
`X-RateLimit-Allowed: true` set, and what it leaves is what the handler leaves.  On `false`
the wrapped handler is not called (its world is untouched, whatever the handler is), and
the writer receives the header `X-RateLimit-Exceeded: true`, then the status `429`, then
the two lines of the body. -/
theorem C31_next_called_iff_allowed {L W : Type} (net : Net) (Allow : L → String → L × Bool)
    (next : ResponseWriter → Request → W → W × ResponseWriter)
    (w : ResponseWriter) (r : Request) (limiter : L) (world : W) :
    ((RateLimitMiddleware net Allow next w r limiter world).nextCalls = 1 ↔
      (Allow limiter (getClientIP net r)).2 = true) ∧
    ((RateLimitMiddleware net Allow next w r limiter world).nextCalls = 0 ↔
      (Allow limiter (getClientIP net r)).2 = false) ∧
    (RateLimitMiddleware net Allow next w r limiter world).limiter =
      (Allow limiter (getClientIP net r)).1 ∧
    ((Allow limiter (getClientIP net r)).2 = true →
      (RateLimitMiddleware net Allow next w r limiter world).world =
        (next (w ++ [ResponseEvent.SetHeader "X-RateLimit-Allowed" "true"]) r world).1 ∧
      (RateLimitMiddleware net Allow next w r limiter world).w =
        (next (w ++ [ResponseEvent.SetHeader "X-RateLimit-Allowed" "true"]) r world).2) ∧
    ((Allow limiter (getClientIP net r)).2 = false →
      (RateLimitMiddleware net Allow next w r limiter world).world = world ∧
      (RateLimitMiddleware net Allow next w r limiter world).w =
        w ++
          [ ResponseEvent.SetHeader "X-RateLimit-Exceeded" "true",
            ResponseEvent.WriteHeader 429,
            ResponseEvent.Write
              ("Rate limit exceeded for IP: " ++ getClientIP net r ++ "\n"),
            ResponseEvent.Write "Please try again later.\n" ]) := by
  rcases h : Allow limiter (getClientIP net r) with ⟨limiter1, allowed⟩
  cases allowed
  · simp [RateLimitMiddleware, h, StatusTooManyRequests]
  · rcases hn : next (w ++ [ResponseEvent.SetHeader "X-RateLimit-Allowed" "true"]) r world
      with ⟨world1, w1⟩
    simp [RateLimitMiddleware, h, hn]

end middleware

namespace reverseproxy

open healthcheck (wrapInt wrapInt_of_range)

/-! ## The load balancer -/

/-- The loop of `NewLoadBalancer` appends the parsed URLs to what it was given. -/
theorem parseBackends_spec {URL : Type} (Parse : String → Option URL) (urls : List String) :
    ∀ (acc backends : List URL), parseBackends Parse urls acc = some backends →
      backends.map some = acc.map some ++ urls.map Parse := by
  induction urls with
  | nil =>
    intro acc backends h
    simp [parseBackends] at h
    simp [h]
  | cons u rest ih =>
    intro acc backends h
    rcases hp : Parse u with _ | parsed
    · simp [parseBackends, hp] at h
    · simp only [parseBackends, hp] at h
      have := ih _ _ h
      simp [this, hp]

/-- What `NewLoadBalancer` builds: the parsed URLs, in order, and the cursor at zero. -/
theorem NewLoadBalancer_spec {URL : Type} (Parse : String → Option URL) (urls : List String)
    (lb : LoadBalancer URL) (h : NewLoadBalancer Parse urls = some lb) :
    lb.current = 0 ∧ lb.backends.map some = urls.map Parse ∧
      lb.backends.length = urls.length := by
  unfold NewLoadBalancer at h
  rcases hp : parseBackends Parse urls [] with _ | backends
  · simp [hp] at h
  · simp only [hp, Option.some.injEq] at h
    subst h
    have hs := parseBackends_spec Parse urls [] backends hp
    simp only [List.map_nil, List.nil_append] at hs
    refine ⟨rfl, hs, ?_⟩
    have := congrArg List.length hs
    simpa using this

/-- One call of `NextBackend` with the cursor in range: the backend under the cursor is
returned and the cursor moves to the next position, cyclically. -/
theorem NextBackend_spec {URL : Type} (lb : LoadBalancer URL) (c : Nat)
    (hc : lb.current = (c : Int)) (hlt : c < lb.backends.length)
    (hlen : lb.backends.length < 2 ^ 63) :
    ∃ backend, lb.backends[c]? = some backend ∧
      lb.NextBackend =
        some ({ lb with current := (((c + 1) % lb.backends.length : Nat) : Int) }, backend) := by
  have hget : lb.backends[c]? = some (lb.backends[c]) := List.getElem?_eq_getElem hlt
  refine ⟨lb.backends[c], hget, ?_⟩
  have hw : wrapInt ((c : Int) + 1) = (c : Int) + 1 := by
    apply wrapInt_of_range <;> omega
  have hmod : Int.tmod ((c : Int) + 1) (lb.backends.length : Int) =
      (((c + 1) % lb.backends.length : Nat) : Int) := by
    rw [Int.tmod_eq_emod (by omega) (by omega)]
    push_cast
    rfl
  simp [LoadBalancer.NextBackend, hc, hget, hw, hmod]

/-- Sequential calls of `NextBackend` from a cursor in range: no call panics, the calls
return the backends at the consecutive positions after the cursor, cyclically, and the
cursor ends at the position after the last one returned. -/
theorem NextBackends_spec {URL : Type} (k : Nat) :
    ∀ (lb : LoadBalancer URL) (c : Nat), lb.current = (c : Int) → c < lb.backends.length →
      lb.backends.length < 2 ^ 63 →
      ∃ lbk outs, lb.NextBackends k = some (lbk, outs) ∧
        lbk.backends = lb.backends ∧
        lbk.current = (((c + k) % lb.backends.length : Nat) : Int) ∧
        outs.map some =
          (List.range k).map (fun i => lb.backends[(c + i) % lb.backends.length]?) := by
  induction k with
  | zero =>
    intro lb c hc hlt _
    refine ⟨lb, [], rfl, rfl, ?_, rfl⟩
    simp [hc, Nat.mod_eq_of_lt hlt]
  | succ k ih =>
    intro lb c hc hlt hlen
    obtain ⟨backend, hget, hnext⟩ := NextBackend_spec lb c hc hlt hlen
    have hpos : 0 < lb.backends.length := by omega
    obtain ⟨lbk, outs, hrun, hb, hcur, houts⟩ :=
      ih { lb with current := (((c + 1) % lb.backends.length : Nat) : Int) }
        ((c + 1) % lb.backends.length) rfl (Nat.mod_lt _ hpos) hlen
    refine ⟨lbk, backend :: outs, ?_, hb, ?_, ?_⟩
    · simp only [LoadBalancer.NextBackends, hnext, hrun]
    · rw [hcur]
      congr 1
      show ((c + 1) % lb.backends.length + k) % lb.backends.length = _
      rw [Nat.add_mod, Nat.mod_mod, ← Nat.add_mod]
      congr 1
      omega
    · rw [List.range_succ_eq_map, List.map_cons, List.map_cons, List.map_map, houts]
      congr 1
      · simp [Nat.mod_eq_of_lt hlt, hget]
      · apply List.map_congr_left
        intro i _
        show lb.backends[((c + 1) % lb.backends.length + i) % lb.backends.length]? = _
        have : ((c + 1) % lb.backends.length + i) % lb.backends.length =
            (c + (i + 1)) % lb.backends.length := by
          rw [Nat.add_mod, Nat.mod_mod, ← Nat.add_mod]
          congr 1
          omega
        simp [this]

/-! ## The claim about the load balancer -/

/-- Claim C36.  For a `LoadBalancer` that `NewLoadBalancer` built from `n >= 1` backend URLs
that all parse, any number `k` of sequential calls of `NextBackend` runs without an
out-of-range access, the `i`-th of them (counting from zero) returns the backend at index
`i mod n`, and the cursor afterwards is `k mod n`, within `[0, n)`.  In particular with
three backends nine calls return them in the order 1, 2, 3, 1, 2, 3, 1, 2, 3, and with a
single backend every call returns that backend. -/
theorem C36_round_robin_by_index {URL : Type} (Parse : String → Option URL)
    (backendURLs : List String) (lb : LoadBalancer URL)
    (hnew : NewLoadBalancer Parse backendURLs = some lb)
    (hn : 1 ≤ backendURLs.length) (hlen : backendURLs.length < 2 ^ 63) :
    lb.backends.map some = backendURLs.map Parse ∧
    (∀ k : Nat, ∃ lbk outs, lb.NextBackends k = some (lbk, outs) ∧
      outs.length = k ∧
      (∀ i, i < k → outs[i]? = lb.backends[i % backendURLs.length]? ∧ (outs[i]?).isSome) ∧
      lbk.backends = lb.backends ∧
      lbk.current = ((k % backendURLs.length : Nat) : Int) ∧
      0 ≤ lbk.current ∧ lbk.current < backendURLs.length) ∧
    (∀ b1 b2 b3 : URL, lb.backends = [b1, b2, b3] →
      (lb.NextBackends 9).map Prod.snd = some [b1, b2, b3, b1, b2, b3, b1, b2, b3]) ∧
    (∀ b : URL, lb.backends = [b] →
      ∀ k : Nat, (lb.NextBackends k).map Prod.snd = some (List.replicate k b)) := by
  obtain ⟨hcur, hmap, hlength⟩ := NewLoadBalancer_spec Parse backendURLs lb hnew
  have hlt : 0 < lb.backends.length := by omega
  have hlen2 : lb.backends.length < 2 ^ 63 := by omega
  have hc0 : lb.current = ((0 : Nat) : Int) := by simp [hcur]
  have key : ∀ k : Nat, ∃ lbk outs, lb.NextBackends k = some (lbk, outs) ∧
      lbk.backends = lb.backends ∧
      lbk.current = ((k % lb.backends.length : Nat) : Int) ∧
      outs.map some = (List.range k).map (fun i => lb.backends[i % lb.backends.length]?) := by
    intro k
    obtain ⟨lbk, outs, h1, h2, h3, h4⟩ := NextBackends_spec k lb 0 hc0 hlt hlen2
    refine ⟨lbk, outs, h1, h2, ?_, ?_⟩
    · simpa using h3
    · simpa using h4
  refine ⟨hmap, ?_, ?_, ?_⟩
  · intro k
    obtain ⟨lbk, outs, h1, h2, h3, h4⟩ := key k
    have hl : outs.length = k := by
      have := congrArg List.length h4
      simpa using this
    refine ⟨lbk, outs, h1, hl, ?_, h2, ?_, ?_, ?_⟩
    · intro i hi
      have hi2 : i < outs.length := by omega
      have := congrArg (fun l => l[i]?) h4
      simp only [List.getElem?_map, List.getElem?_range hi,
        List.getElem?_eq_getElem hi2, Option.map_some'] at this
      rw [List.getElem?_eq_getElem hi2, ← hlength]
      exact ⟨Option.some.inj this, rfl⟩
    · rw [h3, hlength]
    · rw [h3]; omega
    · rw [h3, ← hlength]
      have := Nat.mod_lt k hlt
      omega
  · intro b1 b2 b3 hb
    obtain ⟨lbk, outs, h1, _, _, h4⟩ := key 9
    rw [h1]
    simp only [Option.map_some', Option.some.injEq]
    apply List.map_injective_iff.mpr (Option.some_injective URL)
    rw [h4, hb]
    simp [List.range_succ]
  · intro b hb k
    obtain ⟨lbk, outs, h1, _, _, h4⟩ := key k
    rw [h1]
    simp only [Option.map_some', Option.some.injEq]
    apply List.map_injective_iff.mpr (Option.some_injective URL)
    rw [h4, hb]
    simp only [List.length_singleton, Nat.mod_one, List.getElem?_cons_zero, List.map_replicate]
    apply List.ext_getElem
    · simp
    · intro i h1 h2
      simp

end reverseproxy

namespace reverseproxy

/-- Witness of C36 on the load balancer of `TestRoundRobin`: nine calls return the three
backends in order, three times over. -/
theorem C36_round_robin_by_index_witness :
    NewLoadBalancer exampleParse exampleBackendURLs = some exampleLoadBalancer ∧
    1 ≤ exampleBackendURLs.length ∧ exampleBackendURLs.length < 2 ^ 63 ∧
    (exampleLoadBalancer.NextBackends 9).map Prod.snd =
      some
        [ "http://backend1.com", "http://backend2.com", "http://backend3.com",
          "http://backend1.com", "http://backend2.com", "http://backend3.com",
          "http://backend1.com", "http://backend2.com", "http://backend3.com" ] :=
  ⟨rfl, by decide, by norm_num [exampleBackendURLs],
    (C36_round_robin_by_index exampleParse exampleBackendURLs exampleLoadBalancer rfl
      (by decide) (by norm_num [exampleBackendURLs])).2.2.1 _ _ _ rfl⟩

end reverseproxy

namespace healthcheck

open HealthStatus
open circuitbreaker (Time)

/-! ## The bounds of the passive counters -/

/-- The counters and thresholds after `RecordSuccess`, for every URL. -/
theorem RecordSuccess_counters (phc : PassiveHealthChecker) (url : String) (now : Time) :
    (∀ u, (phc.RecordSuccess url now).consecutiveSuccesses u =
      if u = url then
        (if phc.successThreshold ≤ wrapInt (phc.consecutiveSuccesses url + 1) then 0
          else wrapInt (phc.consecutiveSuccesses url + 1))
      else phc.consecutiveSuccesses u) ∧
    (∀ u, (phc.RecordSuccess url now).consecutiveFailures u =
      if u = url then 0 else phc.consecutiveFailures u) ∧
    (phc.RecordSuccess url now).successThreshold = phc.successThreshold ∧
    (phc.RecordSuccess url now).failureThreshold = phc.failureThreshold := by
  by_cases h : phc.successThreshold ≤ wrapInt (phc.consecutiveSuccesses url + 1)
  · simp only [PassiveHealthChecker.RecordSuccess, Function.update_same, ge_iff_le, h, if_true]
    refine ⟨?_, ?_, ?_, ?_⟩
    · intro u
      by_cases hu : u = url
      · subst hu; simp
      · simp only [Function.update_noteq hu, hu, if_false]
        split
        · split
          · split_ifs <;> simp [Function.update_noteq hu]
          · simp [Function.update_noteq hu]
        · simp [Function.update_noteq hu]
    · intro u
      by_cases hu : u = url
      · subst hu
        rw [if_pos rfl]
        split
        · split
          · split_ifs <;> simp
          · simp
        · simp
      · simp only [hu, if_false]
        split
        · split
          · split_ifs <;> simp [Function.update_noteq hu]
          · simp [Function.update_noteq hu]
        · simp [Function.update_noteq hu]
    · split
      · split
        · split_ifs <;> simp
        · simp
      · simp
    · split
      · split
        · split_ifs <;> simp
        · simp
      · simp
  · rw [RecordSuccess_below phc url now (not_le.mp h)]
    refine ⟨?_, ?_, rfl, rfl⟩
    · intro u
      by_cases hu : u = url
      · subst hu; simp [h]
      · simp [Function.update_noteq hu, hu]
    · intro u
      by_cases hu : u = url
      · subst hu; simp
      · simp [Function.update_noteq hu, hu]

/-- The counters and thresholds after `RecordFailure`, for every URL. -/
theorem RecordFailure_counters (phc : PassiveHealthChecker) (url : String) (now : Time) :
    (∀ u, (phc.RecordFailure url now).consecutiveFailures u =
      if u = url then
        (if phc.failureThreshold ≤ wrapInt (phc.consecutiveFailures url + 1) then 0
          else wrapInt (phc.consecutiveFailures url + 1))
      else phc.consecutiveFailures u) ∧
    (∀ u, (phc.RecordFailure url now).consecutiveSuccesses u =
      if u = url then 0 else phc.consecutiveSuccesses u) ∧
    (phc.RecordFailure url now).failureThreshold = phc.failureThreshold ∧
    (phc.RecordFailure url now).successThreshold = phc.successThreshold := by
  by_cases h : phc.failureThreshold ≤ wrapInt (phc.consecutiveFailures url + 1)
  · simp only [PassiveHealthChecker.RecordFailure, Function.update_same, ge_iff_le, h, if_true]
    refine ⟨?_, ?_, ?_, ?_⟩
    · intro u
      by_cases hu : u = url
      · subst hu; simp
      · simp only [Function.update_noteq hu, hu, if_false]
        split
        · split
          · split_ifs <;> simp [Function.update_noteq hu]
          · simp [Function.update_noteq hu]
        · simp [Function.update_noteq hu]
    · intro u
      by_cases hu : u = url
      · subst hu
        rw [if_pos rfl]
        split
        · split
          · split_ifs <;> simp
          · simp
        · simp
      · simp only [hu, if_false]
        split
        · split
          · split_ifs <;> simp [Function.update_noteq hu]
          · simp [Function.update_noteq hu]
        · simp [Function.update_noteq hu]
    · split
      · split
        · split_ifs <;> simp
        · simp
      · simp
    · split
      · split
        · split_ifs <;> simp
        · simp
      · simp
  · rw [RecordFailure_below phc url now (not_le.mp h)]
    refine ⟨?_, ?_, rfl, rfl⟩
    · intro u
      by_cases hu : u = url
      · subst hu; simp [h]
      · simp [Function.update_noteq hu, hu]
    · intro u
      by_cases hu : u = url
      · subst hu; simp
      · simp [Function.update_noteq hu, hu]


/-- One call keeps both counters of every URL within their bounds. -/
theorem record_bounds (phc : PassiveHealthChecker) (call : Record)
    (hf : 1 ≤ phc.failureThreshold) (hf64 : phc.failureThreshold < 2 ^ 63)
    (hs : 1 ≤ phc.successThreshold) (hs64 : phc.successThreshold < 2 ^ 63)
    (h : ∀ u, (0 ≤ phc.consecutiveFailures u ∧ phc.consecutiveFailures u < phc.failureThreshold) ∧
      (0 ≤ phc.consecutiveSuccesses u ∧ phc.consecutiveSuccesses u < phc.successThreshold)) :
    (phc.record call).failureThreshold = phc.failureThreshold ∧
    (phc.record call).successThreshold = phc.successThreshold ∧
    ∀ u, (0 ≤ (phc.record call).consecutiveFailures u ∧
        (phc.record call).consecutiveFailures u < phc.failureThreshold) ∧
      (0 ≤ (phc.record call).consecutiveSuccesses u ∧
        (phc.record call).consecutiveSuccesses u < phc.successThreshold) := by
  cases call with
  | success url now =>
    obtain ⟨h1, h2, h3, h4⟩ := RecordSuccess_counters phc url now
    refine ⟨h4, h3, ?_⟩
    intro u
    simp only [PassiveHealthChecker.record]
    rw [h1 u, h2 u]
    have hw : wrapInt (phc.consecutiveSuccesses url + 1) = phc.consecutiveSuccesses url + 1 := by
      have := (h url).2
      apply wrapInt_of_range <;> omega
    have hu := h u
    have hurl := h url
    by_cases e : u = url
    · simp only [e, if_true, hw]
      split_ifs <;> omega
    · simp only [e, if_false]
      exact hu
  | failure url now =>
    obtain ⟨h1, h2, h3, h4⟩ := RecordFailure_counters phc url now
    refine ⟨h3, h4, ?_⟩
    intro u
    simp only [PassiveHealthChecker.record]
    rw [h1 u, h2 u]
    have hw : wrapInt (phc.consecutiveFailures url + 1) = phc.consecutiveFailures url + 1 := by
      have := (h url).1
      apply wrapInt_of_range <;> omega
    have hu := h u
    have hurl := h url
    by_cases e : u = url
    · simp only [e, if_true, hw]
      split_ifs <;> omega
    · simp only [e, if_false]
      exact hu

/-- The bounds hold after every sequence of calls that starts within the bounds. -/
theorem recordAll_bounds (calls : List Record) :
    ∀ phc : PassiveHealthChecker,
      1 ≤ phc.failureThreshold → phc.failureThreshold < 2 ^ 63 →
      1 ≤ phc.successThreshold → phc.successThreshold < 2 ^ 63 →
      (∀ u, (0 ≤ phc.consecutiveFailures u ∧
          phc.consecutiveFailures u < phc.failureThreshold) ∧
        (0 ≤ phc.consecutiveSuccesses u ∧
          phc.consecutiveSuccesses u < phc.successThreshold)) →
      ∀ u, (0 ≤ (phc.recordAll calls).consecutiveFailures u ∧
          (phc.recordAll calls).consecutiveFailures u < phc.failureThreshold) ∧
        (0 ≤ (phc.recordAll calls).consecutiveSuccesses u ∧
          (phc.recordAll calls).consecutiveSuccesses u < phc.successThreshold) := by
  induction calls with
  | nil => intro phc _ _ _ _ h; exact h
  | cons call rest ih =>
    intro phc hf hf64 hs hs64 h
    obtain ⟨e1, e2, hb⟩ := record_bounds phc call hf hf64 hs hs64 h
    have := ih (phc.record call) (by rw [e1]; exact hf) (by rw [e1]; exact hf64)
      (by rw [e2]; exact hs) (by rw [e2]; exact hs64) (by rw [e1, e2]; exact hb)
    rw [e1, e2] at this
    exact this

/-! ## The claim about the bounds of the passive counters -/

/-- Claim C39.  For a `PassiveHealthChecker` built by `NewPassiveHealthChecker` with
`failureThreshold >= 1` and `successThreshold >= 1` (both in the range of `int`), after
every sequence of `RecordSuccess` and `RecordFailure` calls, and so after every such call,
for every backend URL, registered or not and whatever the status of the backend:
`0 <= consecutiveFailures < failureThreshold` and
`0 <= consecutiveSuccesses < successThreshold`, as the two getters return them. -/
theorem C39_passive_counters_bounded (backends : List Backend)
    (config : PassiveHealthCheckConfig) (calls : List Record) (url : String)
    (hf : 1 ≤ config.FailureThreshold) (hf64 : config.FailureThreshold < 2 ^ 63)
    (hs : 1 ≤ config.SuccessThreshold) (hs64 : config.SuccessThreshold < 2 ^ 63) :
    (0 ≤ ((NewPassiveHealthChecker backends config).recordAll calls).GetConsecutiveFailures url ∧
      ((NewPassiveHealthChecker backends config).recordAll calls).GetConsecutiveFailures url <
        config.FailureThreshold) ∧
    (0 ≤ ((NewPassiveHealthChecker backends config).recordAll calls).GetConsecutiveSuccesses url ∧
      ((NewPassiveHealthChecker backends config).recordAll calls).GetConsecutiveSuccesses url <
        config.SuccessThreshold) := by
  have h := recordAll_bounds calls (NewPassiveHealthChecker backends config) hf hf64 hs hs64
    (by
      intro u
      simp only [NewPassiveHealthChecker]
      omega) url
  exact h

/-- Witness of C39 on the checker of the tests (thresholds three and two): after two
failures, a success and three more failures the counters of the backend are zero. -/
theorem C39_passive_counters_bounded_witness :
    1 ≤ exampleThresholds.FailureThreshold ∧ exampleThresholds.FailureThreshold < 2 ^ 63 ∧
    1 ≤ exampleThresholds.SuccessThreshold ∧ exampleThresholds.SuccessThreshold < 2 ^ 63 ∧
    (0 ≤ ((NewPassiveHealthChecker [NewBackend "http://localhost:8081" 1000]
        exampleThresholds).recordAll exampleRecords).GetConsecutiveFailures
          "http://localhost:8081" ∧
      ((NewPassiveHealthChecker [NewBackend "http://localhost:8081" 1000]
        exampleThresholds).recordAll exampleRecords).GetConsecutiveFailures
          "http://localhost:8081" < exampleThresholds.FailureThreshold) ∧
    (0 ≤ ((NewPassiveHealthChecker [NewBackend "http://localhost:8081" 1000]
        exampleThresholds).recordAll exampleRecords).GetConsecutiveSuccesses
          "http://localhost:8081" ∧
      ((NewPassiveHealthChecker [NewBackend "http://localhost:8081" 1000]
        exampleThresholds).recordAll exampleRecords).GetConsecutiveSuccesses
          "http://localhost:8081" < exampleThresholds.SuccessThreshold) :=
  ⟨by decide, by decide, by decide, by decide,
    C39_passive_counters_bounded [NewBackend "http://localhost:8081" 1000] exampleThresholds
      exampleRecords "http://localhost:8081" (by decide) (by decide) (by decide) (by decide)⟩

end healthcheck

namespace ratelimiter

open circuitbreaker (Time Duration zeroTime Before Add)
open healthcheck (wrapInt wrapInt_of_range)

/-! ## Helper lemmas for the fixed window -/

theorem answersFor_cons_same (identifier : String) (t : Time) (rest : List (String × Time))
    (a : Bool) (answers : List Bool) :
    answersFor identifier ((identifier, t) :: rest) (a :: answers) =
      a :: answersFor identifier rest answers := by
  simp [answersFor]

theorem answersFor_cons_other (identifier other : String) (h : other ≠ identifier) (t : Time)
    (rest : List (String × Time)) (a : Bool) (answers : List Bool) :
    answersFor identifier ((other, t) :: rest) (a :: answers) =
      answersFor identifier rest answers := by
  simp [answersFor, h]

theorem FixedWindow_AllowAll_cons (fw : FixedWindow) (identifier : String) (now : Time)
    (rest : List (String × Time)) :
    fw.AllowAll ((identifier, now) :: rest) =
      (((fw.Allow identifier now).1.AllowAll rest).1,
        (fw.Allow identifier now).2 :: ((fw.Allow identifier now).1.AllowAll rest).2) := by
  simp [FixedWindow.AllowAll]

/-- A call of `Allow` keeps the limit and the window, and keeps the counter and the window
end of every other identifier. -/
theorem FixedWindow_Allow_frame (fw : FixedWindow) (identifier : String) (now : Time) :
    (fw.Allow identifier now).1.limit = fw.limit ∧
    (fw.Allow identifier now).1.window = fw.window ∧
    ∀ other, other ≠ identifier →
      (fw.Allow identifier now).1.counters other = fw.counters other ∧
      (fw.Allow identifier now).1.windowEnd other = fw.windowEnd other := by
  refine ⟨?_, ?_, ?_⟩
  · simp only [FixedWindow.Allow]
    split_ifs <;> rfl
  · simp only [FixedWindow.Allow]
    split_ifs <;> rfl
  · intro other h
    simp only [FixedWindow.Allow]
    split_ifs <;> simp [Function.update_noteq h]

/-- A call of `Allow` that opens a window: the identifier has no window end yet, or the
clock is strictly after it. -/
theorem FixedWindow_Allow_opens (fw : FixedWindow) (identifier : String) (now : Time)
    (hopen : fw.windowEnd identifier = none ∨
      ∃ e, fw.windowEnd identifier = some e ∧ e < now) :
    (fw.Allow identifier now).2 = decide (0 < fw.limit) ∧
    (fw.Allow identifier now).1.windowEnd identifier = some (now + fw.window) ∧
    (fw.Allow identifier now).1.counters identifier = (if 0 < fw.limit then 1 else 0) := by
  have hw : wrapInt 1 = 1 := by
    apply wrapInt_of_range <;> norm_num
  have hcond : (!(fw.windowEnd identifier).isSome ||
      After now ((fw.windowEnd identifier).getD zeroTime)) = true := by
    rcases hopen with h | ⟨e, h, hlt⟩
    · simp [h]
    · simp [h, After, hlt]
  simp only [FixedWindow.Allow, hcond, if_true, Function.update_same, circuitbreaker.Add,
    ge_iff_le]
  by_cases h0 : 0 < fw.limit
  · simp [h0, not_le.mpr h0, hw]
  · have : fw.limit ≤ 0 := not_lt.mp h0
    simp [h0, this]

/-- A call of `Allow` inside the window of the identifier: the answer is `true` exactly
when the counter is below the limit, and the counter is then incremented. -/
theorem FixedWindow_Allow_inside (fw : FixedWindow) (identifier : String) (now e : Time)
    (j : Nat) (hend : fw.windowEnd identifier = some e) (hnow : now ≤ e)
    (hj : fw.counters identifier = (j : Int)) (hL64 : fw.limit < 2 ^ 63) :
    (fw.Allow identifier now).2 = decide ((j : Int) < fw.limit) ∧
    (fw.Allow identifier now).1.windowEnd identifier = some e ∧
    (fw.Allow identifier now).1.counters identifier =
      (((if (j : Int) < fw.limit then j + 1 else j : Nat)) : Int) := by
  have hcond : (!(fw.windowEnd identifier).isSome ||
      After now ((fw.windowEnd identifier).getD zeroTime)) = false := by
    simp [hend, After, not_lt.mpr hnow]
  simp only [FixedWindow.Allow, hcond, Bool.false_eq_true, if_false, ge_iff_le, hj]
  by_cases h : (j : Int) < fw.limit
  · have hw : wrapInt ((j : Int) + 1) = (j : Int) + 1 := by
      apply wrapInt_of_range <;> omega
    simp [h, not_le.mpr h, hend, hw]
  · have : fw.limit ≤ (j : Int) := not_lt.mp h
    simp [h, this, hend, hj]

/-- Calls that all fall inside the current window of the identifier: the calls for the
identifier are answered `true` while the counter is below the limit, and the window end
does not move. -/
theorem FixedWindow_AllowAll_inside (identifier : String) (e : Time) (L : Int)
    (hL64 : L < 2 ^ 63) (calls : List (String × Time)) :
    ∀ (fw : FixedWindow) (j : Nat), fw.limit = L → fw.windowEnd identifier = some e →
      fw.counters identifier = (j : Int) →
      (∀ c ∈ calls, c.1 = identifier → c.2 ≤ e) →
      answersFor identifier calls (fw.AllowAll calls).2 =
        (List.range (calls.countP (fun c => decide (c.1 = identifier)))).map
          (fun k => decide (((j + k : Nat) : Int) < L)) ∧
      (fw.AllowAll calls).1.limit = L ∧
      (fw.AllowAll calls).1.window = fw.window ∧
      (fw.AllowAll calls).1.windowEnd identifier = some e := by
  induction calls with
  | nil =>
    intro fw j hl hend _ _
    simp [FixedWindow.AllowAll, answersFor, hl, hend]
  | cons c rest ih =>
    intro fw j hl hend hj hin
    subst hl
    rcases c with ⟨i, t⟩
    obtain ⟨f1, f2, f3⟩ := FixedWindow_Allow_frame fw i t
    have hrest : ∀ c ∈ rest, c.1 = identifier → c.2 ≤ e :=
      fun c hc => hin c (List.mem_cons_of_mem _ hc)
    rw [FixedWindow_AllowAll_cons]
    by_cases hi : i = identifier
    · subst hi
      have hl64 : fw.limit < 2 ^ 63 := hL64
      obtain ⟨a1, a2, a3⟩ := FixedWindow_Allow_inside fw i t e j hend
        (hin (i, t) (List.mem_cons_self _ _) rfl) hj hl64
      obtain ⟨r1, r2, r3, r4⟩ := ih (fw.Allow i t).1 _ f1 a2 a3 hrest
      refine ⟨?_, r2, r3.trans f2, r4⟩
      rw [answersFor_cons_same, r1, a1]
      simp only [List.countP_cons_of_pos, decide_True, List.range_succ_eq_map, List.map_cons,
        List.map_map, Nat.add_zero]
      congr 1
      apply List.map_congr_left
      intro k _
      simp only [Function.comp, Nat.succ_eq_add_one]
      rw [decide_eq_decide]
      by_cases h : (j : Int) < fw.limit
      · simp only [h, if_true]
        constructor <;> intro hh <;> push_cast at hh ⊢ <;> omega
      · simp only [h, if_false]
        constructor <;> intro hh <;> push_cast at hh ⊢ <;> omega
    · obtain ⟨o1, o2⟩ := f3 identifier (Ne.symm hi)
      obtain ⟨r1, r2, r3, r4⟩ := ih (fw.Allow i t).1 j f1 (o2.trans hend)
        (o1.trans hj) hrest
      refine ⟨?_, r2, r3.trans f2, r4⟩
      rw [answersFor_cons_other identifier i hi, r1]
      have : List.countP (fun c : String × Time => decide (c.1 = identifier)) ((i, t) :: rest) =
          List.countP (fun c : String × Time => decide (c.1 = identifier)) rest := by
        apply List.countP_cons_of_neg
        simp [hi]
      rw [this]

/-! ## The claim about the fixed window -/

/-- Claim C33.  For a `FixedWindow` with limit `L` in the range of `int` (`L >= 0` for the
claim; with a negative limit no call is answered `true`) and any identifier: take a call at `t0` that opens a window (the identifier has no window yet, or
`t0` is strictly after its window end) and any calls after it, for this and for other
identifiers, of which those for the identifier come no later than `t0 + window`.  Then
the calls for the identifier are answered in order `true` for the first `L` of them and
`false` for all later ones (the `k`-th, counting the opening call as `0`, gets `k < L`),
and the window end stays `t0 + window`.  A call for the identifier strictly after
`t0 + window` opens a fresh window: the counter restarts from zero (the call is answered
`0 < L` and leaves the counter at `1` when allowed, at `0` otherwise) and the window end
becomes the time of that call plus `window`. -/
theorem C33_fixed_window_first_L (fw : FixedWindow) (identifier : String) (t0 : Time)
    (rest : List (String × Time))
    (hL64 : fw.limit < 2 ^ 63)
    (hopen : fw.windowEnd identifier = none ∨
      ∃ e, fw.windowEnd identifier = some e ∧ e < t0)
    (hin : ∀ c ∈ rest, c.1 = identifier → c.2 ≤ t0 + fw.window) :
    answersFor identifier ((identifier, t0) :: rest)
        (fw.AllowAll ((identifier, t0) :: rest)).2 =
      (List.range (((identifier, t0) :: rest).countP (fun c => decide (c.1 = identifier)))).map
        (fun k : Nat => decide ((k : Int) < fw.limit)) ∧
    (fw.AllowAll ((identifier, t0) :: rest)).1.windowEnd identifier = some (t0 + fw.window) ∧
    ∀ t : Time, t0 + fw.window < t →
      (((fw.AllowAll ((identifier, t0) :: rest)).1).Allow identifier t).2 =
        decide (0 < fw.limit) ∧
      (((fw.AllowAll ((identifier, t0) :: rest)).1).Allow identifier t).1.counters identifier =
        (if 0 < fw.limit then 1 else 0) ∧
      (((fw.AllowAll ((identifier, t0) :: rest)).1).Allow identifier t).1.windowEnd identifier =
        some (t + fw.window) := by
  obtain ⟨f1, f2, _⟩ := FixedWindow_Allow_frame fw identifier t0
  obtain ⟨a1, a2, a3⟩ := FixedWindow_Allow_opens fw identifier t0 hopen
  have hj : (fw.Allow identifier t0).1.counters identifier =
      (((if 0 < fw.limit then 1 else 0 : Nat)) : Int) := by
    rw [a3]; split_ifs <;> rfl
  obtain ⟨r1, r2, r3, r4⟩ := FixedWindow_AllowAll_inside identifier (t0 + fw.window) fw.limit
    hL64 rest (fw.Allow identifier t0).1 _ f1 a2 hj hin
  rw [FixedWindow_AllowAll_cons]
  dsimp only
  refine ⟨?_, r4, ?_⟩
  · rw [answersFor_cons_same, r1, a1]
    simp only [List.countP_cons_of_pos, decide_True, List.range_succ_eq_map, List.map_cons,
      List.map_map]
    congr 1
    apply List.map_congr_left
    intro k _
    simp only [Function.comp, Nat.succ_eq_add_one]
    rw [decide_eq_decide]
    by_cases h : 0 < fw.limit
    · simp only [h, if_true]
      constructor <;> intro hh <;> push_cast at hh ⊢ <;> omega
    · simp only [h, if_false]
      constructor <;> intro hh <;> push_cast at hh ⊢ <;> omega
  · intro t ht
    have hlim : ((fw.Allow identifier t0).1.AllowAll rest).1.limit = fw.limit := r2
    have hwin : ((fw.Allow identifier t0).1.AllowAll rest).1.window = fw.window := r3.trans f2
    have := FixedWindow_Allow_opens ((fw.Allow identifier t0).1.AllowAll rest).1 identifier t
      (Or.inr ⟨_, r4, ht⟩)
    rw [hlim, hwin] at this
    exact ⟨this.1, this.2.2, this.2.1⟩

/-- Witness of C33 on the limiter of `testNormalRateLimiting` (limit five, window ten
seconds): of eight rapid calls the first five are answered `true`, the last three `false`,
and a call after the window is answered `true` again. -/
theorem C33_fixed_window_first_L_witness :
    exampleFixedWindow.limit < 2 ^ 63 ∧
    (exampleFixedWindow.windowEnd "192.168.1.1" = none ∨
      ∃ e, exampleFixedWindow.windowEnd "192.168.1.1" = some e ∧ e < 0) ∧
    (∀ c ∈ exampleRapidCalls, c.1 = "192.168.1.1" → c.2 ≤ 0 + exampleFixedWindow.window) ∧
    answersFor "192.168.1.1" (("192.168.1.1", 0) :: exampleRapidCalls)
        (exampleFixedWindow.AllowAll (("192.168.1.1", 0) :: exampleRapidCalls)).2 =
      [true, true, true, true, true, false, false, false] ∧
    (((exampleFixedWindow.AllowAll (("192.168.1.1", 0) :: exampleRapidCalls)).1).Allow
      "192.168.1.1" 10000000001).2 = true :=
  ⟨by decide, Or.inl rfl, by decide,
    (C33_fixed_window_first_L exampleFixedWindow "192.168.1.1" 0 exampleRapidCalls (by decide)
      (Or.inl rfl) (by decide)).1,
    ((C33_fixed_window_first_L exampleFixedWindow "192.168.1.1" 0 exampleRapidCalls (by decide)
      (Or.inl rfl) (by decide)).2.2 10000000001 (by decide)).1⟩

end ratelimiter

namespace ratelimiter

open circuitbreaker (Time Duration zeroTime Before Add)
open healthcheck (wrapInt wrapInt_of_range)

/-! ## Helper lemmas for the sliding window -/

theorem allowedTimes_cons (identifier i : String) (t : Time) (rest : List (String × Time))
    (a : Bool) (answers : List Bool) :
    allowedTimes identifier ((i, t) :: rest) (a :: answers) =
      (if i = identifier ∧ a = true then [t] else []) ++
        allowedTimes identifier rest answers := by
  by_cases h : i = identifier ∧ a = true
  · simp [allowedTimes, h]
  · simp only [allowedTimes, h, if_false, List.nil_append, List.zip_cons_cons]
    rw [List.filter_cons_of_neg]
    simpa using h

theorem SlidingWindow_AllowAll_cons (sw : SlidingWindow) (identifier : String) (now : Time)
    (rest : List (String × Time)) :
    sw.AllowAll ((identifier, now) :: rest) =
      (sw.Allow identifier now).2 :: (sw.Allow identifier now).1.AllowAll rest := by
  simp [SlidingWindow.AllowAll]

theorem countWithin_append (start stop : Time) (xs ys : List Time) :
    countWithin start stop (xs ++ ys) = countWithin start stop xs + countWithin start stop ys := by
  simp [countWithin]

/-- One call of `Allow` with a window in `[0, 2^63)`: the stored timestamps that are not
older than `now - window` are kept, the call is answered `true` exactly when fewer than
`limit` of them are left, and `now` is then appended; the other identifiers are untouched. -/
theorem SlidingWindow_Allow_spec (sw : SlidingWindow) (identifier : String) (now : Time)
    (hw0 : 0 ≤ sw.window) (hw : sw.window < 2 ^ 63) :
    (sw.Allow identifier now).1.limit = sw.limit ∧
    (sw.Allow identifier now).1.window = sw.window ∧
    (∀ other, other ≠ identifier →
      (sw.Allow identifier now).1.requests other = sw.requests other) ∧
    (sw.Allow identifier now).2 =
      decide ((((sw.requests identifier).filter
        (fun ts => decide (now - sw.window ≤ ts))).length : Int) < sw.limit) ∧
    (sw.Allow identifier now).1.requests identifier =
      (sw.requests identifier).filter (fun ts => decide (now - sw.window ≤ ts)) ++
        (if (sw.Allow identifier now).2 = true then [now] else []) := by
  have hneg : wrapInt (-sw.window) = -sw.window := by
    apply wrapInt_of_range <;>
    · simp only [circuitbreaker.Duration] at *
      omega
  have hf : (fun ts : Time => !Before ts (circuitbreaker.Add now (wrapInt (-sw.window)))) =
      (fun ts => decide (now - sw.window ≤ ts)) := by
    funext ts
    simp only [Before, circuitbreaker.Add, hneg]
    by_cases h : now - sw.window ≤ ts
    · have h2 : ¬ ts < now + -sw.window := by
        simp only [circuitbreaker.Duration, circuitbreaker.Time] at *
        omega
      rw [decide_eq_true h, decide_eq_false h2]
      rfl
    · have h2 : ts < now + -sw.window := by
        simp only [circuitbreaker.Duration, circuitbreaker.Time] at *
        omega
      rw [decide_eq_false h, decide_eq_true h2]
      rfl
  simp only [SlidingWindow.Allow, hf]
  by_cases h : (((sw.requests identifier).filter
      (fun ts => decide (now - sw.window ≤ ts))).length : Int) ≥ sw.limit
  · simp only [if_pos h]
    refine ⟨trivial, trivial, ?_, ?_, ?_⟩
    · intro other ho
      exact Function.update_noteq ho _ _
    · exact (decide_eq_false (not_lt.mpr h)).symm
    · simp only [Function.update_same, Bool.false_eq_true, if_false, List.append_nil]
  · simp only [if_neg h]
    refine ⟨trivial, trivial, ?_, ?_, ?_⟩
    · intro other ho
      exact Function.update_noteq ho _ _
    · exact (decide_eq_true (not_le.mp h)).symm
    · simp only [Function.update_same, if_true]

/-- The bound of the sliding window, from any state whose stored timestamps are the
allowed instants `history` that are not older than some cutoff lying a window before
every call to come. -/
theorem SlidingWindow_bound_from (identifier : String) (L : Int) (w : Duration)
    (hw0 : 0 ≤ w) (hw : w < 2 ^ 63) (calls : List (String × Time)) :
    ∀ (sw : SlidingWindow) (history : List Time), sw.limit = L → sw.window = w →
      (∃ cut : Time, sw.requests identifier = history.filter (fun ts => decide (cut ≤ ts)) ∧
        ∀ c ∈ calls, cut + w ≤ c.2) →
      (calls.map Prod.snd).Pairwise (fun a b => a ≤ b) →
      (∀ start : Time, (countWithin start (start + w) history : Int) ≤ L) →
      ∀ start : Time,
        (countWithin start (start + w)
          (history ++ allowedTimes identifier calls (sw.AllowAll calls)) : Int) ≤ L := by
  induction calls with
  | nil =>
    intro sw history _ _ _ _ hP start
    simpa [allowedTimes, SlidingWindow.AllowAll] using hP start
  | cons c rest ih =>
    intro sw history hl hwin hcut hmono hP
    rcases c with ⟨i, t⟩
    obtain ⟨cut, hreq, hfut⟩ := hcut
    have hmono2 : (rest.map Prod.snd).Pairwise (fun a b => a ≤ b) := by
      simp only [List.map_cons, List.pairwise_cons] at hmono
      exact hmono.2
    have hle : ∀ c ∈ rest, t ≤ c.2 := by
      simp only [List.map_cons, List.pairwise_cons] at hmono
      intro c hc
      exact hmono.1 c.2 (List.mem_map_of_mem _ hc)
    have hct : cut + w ≤ t := hfut (i, t) (List.mem_cons_self _ _)
    obtain ⟨s1, s2, s3, s4, s5⟩ := SlidingWindow_Allow_spec sw i t (by rw [hwin]; exact hw0)
      (by rw [hwin]; exact hw)
    unfold circuitbreaker.Time circuitbreaker.Duration at *
    rw [hwin] at s4 s5
    rw [hl] at s4
    rw [SlidingWindow_AllowAll_cons, allowedTimes_cons, ← List.append_assoc]
    by_cases hi : i = identifier
    · subst hi
      -- the timestamps kept by this call are the allowed instants since `t - w`
      have hvalid : (sw.requests i).filter (fun ts => decide (t - w ≤ ts)) =
          history.filter (fun ts => decide (t - w ≤ ts)) := by
        rw [hreq, List.filter_filter]
        apply List.filter_congr
        intro x _
        by_cases hx : t - w ≤ x
        · have : cut ≤ x := by omega
          simp [hx, this]
        · simp [hx]
      rw [hvalid] at s4 s5
      apply ih (sw.Allow i t).1 _ (s1.trans hl) (s2.trans hwin) ?_ hmono2
      · -- the bound for the history extended by this call
        intro start
        by_cases ha : (sw.Allow i t).2 = true
        · simp only [ha, and_self, if_true]
          rw [countWithin_append]
          by_cases hin : start ≤ t ∧ t ≤ start + w
          · have hlt : ((history.filter (fun ts => decide (t - w ≤ ts))).length : Int) < L := by
              rw [s4] at ha
              simpa using ha
            have hsub : countWithin start (start + w) history ≤
                (history.filter (fun ts => decide (t - w ≤ ts))).length := by
              rw [countWithin, ← List.countP_eq_length_filter]
              apply List.countP_mono_left
              intro x _ hx
              simp only [Bool.and_eq_true, decide_eq_true_eq, circuitbreaker.Time] at hx ⊢
              omega
            have h1 : countWithin start (start + w) [t] = 1 := by
              simp [countWithin, hin.1, hin.2]
            rw [h1]
            push_cast
            have : (countWithin start (start + w) history : Int) ≤
                ((history.filter (fun ts => decide (t - w ≤ ts))).length : Int) := by
              exact_mod_cast hsub
            omega
          · have h0 : countWithin start (start + w) [t] = 0 := by
              rw [not_and_or] at hin
              rcases hin with h | h <;> simp [countWithin, h]
            rw [h0]
            simpa using hP start
        · rw [if_neg (fun h => ha h.2), List.append_nil]
          exact hP start
      · -- the stored timestamps afterwards
        refine ⟨t - w, ?_, ?_⟩
        · rw [s5]
          by_cases ha : (sw.Allow i t).2 = true
          · have hself : t - w ≤ t := by omega
            have hone : List.filter (fun ts => decide (t - w ≤ ts)) [t] = [t] := by
              rw [List.filter_cons_of_pos (by exact decide_eq_true hself), List.filter_nil]
            rw [if_pos ha, if_pos ⟨rfl, ha⟩, List.filter_append, hone]
          · rw [if_neg ha, if_neg (fun h => ha h.2), List.append_nil, List.append_nil]
        · intro c hc
          have := hle c hc
          omega
    · have hne : ¬ (i = identifier ∧ (sw.Allow i t).2 = true) := fun h => hi h.1
      simp only [hne, if_false, List.append_nil]
      apply ih (sw.Allow i t).1 history (s1.trans hl) (s2.trans hwin) ?_ hmono2 hP
      refine ⟨cut, ?_, ?_⟩
      · rw [s3 identifier (Ne.symm hi), hreq]
      · intro c hc
        exact hfut c (List.mem_cons_of_mem _ hc)

/-- No instant lies in an interval whose end is before its start. -/
theorem countWithin_empty (start stop : Time) (h : stop < start) (xs : List Time) :
    countWithin start stop xs = 0 := by
  rw [countWithin, List.countP_eq_zero]
  intro x _
  simp only [Bool.and_eq_true, decide_eq_true_eq, not_and, not_le, circuitbreaker.Time] at h ⊢
  intro hx
  omega

/-- The bound of the sliding window for a run that starts with `NewSlidingWindow`. -/
theorem SlidingWindow_bound (limit : Int) (window : Duration) (calls : List (String × Time))
    (identifier : String) (start : Time)
    (hlimit : 0 ≤ limit) (hwindow : window < 2 ^ 63)
    (hmono : (calls.map Prod.snd).Pairwise (fun a b => a ≤ b)) :
    (countWithin start (start + window)
      (allowedTimes identifier calls ((NewSlidingWindow limit window).AllowAll calls)) : Int) ≤
      limit := by
  by_cases hw0 : 0 ≤ window
  · have h := SlidingWindow_bound_from identifier limit window hw0 hwindow calls
      (NewSlidingWindow limit window) [] rfl rfl
      (by
        cases calls with
        | nil => exact ⟨0, rfl, fun c hc => absurd hc (List.not_mem_nil c)⟩
        | cons c rest =>
          refine ⟨c.2 - window, rfl, ?_⟩
          intro d hd
          simp only [List.map_cons, List.pairwise_cons] at hmono
          rcases List.mem_cons.mp hd with h | h
          · subst h
            simp only [circuitbreaker.Time, circuitbreaker.Duration] at *
            omega
          · have := hmono.1 d.2 (List.mem_map_of_mem _ h)
            simp only [circuitbreaker.Time, circuitbreaker.Duration] at *
            omega)
      hmono
      (by intro s; simpa [countWithin] using hlimit)
      start
    simpa using h
  · rw [countWithin_empty start (start + window) (by
      simp only [circuitbreaker.Time, circuitbreaker.Duration] at *
      omega)]
    simpa using hlimit

/-! ## The claims about the sliding window and the demo -/

/-- Claim C32.  For every identifier, every limit `>= 1`, every window (a `time.Duration`,
so below `2^63`) and every sequence of `Allow` calls on a new `SlidingWindow` whose clock
readings are non-decreasing: every closed time interval of length `window`, whatever its
start, contains at most `limit` calls for the identifier that were answered `true`. -/
theorem C32_sliding_window_bound (limit : Int) (window : Duration)
    (calls : List (String × Time)) (identifier : String) (start : Time)
    (hlimit : 1 ≤ limit) (hwindow : window < 2 ^ 63)
    (hmono : (calls.map Prod.snd).Pairwise (fun a b => a ≤ b)) :
    (countWithin start (start + window)
      (allowedTimes identifier calls ((NewSlidingWindow limit window).AllowAll calls)) : Int) ≤
      limit :=
  SlidingWindow_bound limit window calls identifier start (by omega) hwindow hmono

end ratelimiter

namespace ratelimiter

open circuitbreaker (Time Duration Second)

/-- Witness of C32 on the calls of `testEdgeCase` (limit five, window five seconds): the
interval from `0.5 s` to `5.5 s` holds at most five allowed calls. -/
theorem C32_sliding_window_bound_witness :
    (1 : Int) ≤ 5 ∧ 5 * Second < 2 ^ 63 ∧
    (exampleEdgeCalls.map Prod.snd).Pairwise (fun a b => a ≤ b) ∧
    (countWithin 500000000 (500000000 + 5 * Second)
      (allowedTimes "192.168.1.1" exampleEdgeCalls
        ((NewSlidingWindow 5 (5 * Second)).AllowAll exampleEdgeCalls)) : Int) ≤ 5 :=
  ⟨by decide, by decide, by decide,
    C32_sliding_window_bound 5 (5 * Second) exampleEdgeCalls "192.168.1.1" 500000000
      (by decide) (by decide) (by decide)⟩

/-- Claim C34.  On the calls of the demo `testEdgeCase` (limit five, window five seconds,
one identifier, one call at `0 s`, four at `4 s`, five at `5.5 s`, a non-decreasing
sequence) the `FixedWindow` answers all ten calls `true`, the five of the last batch
included, so that nine calls, more than the limit, are allowed between `4 s` and `5.5 s`,
a span shorter than the window.  The `SlidingWindow` answers `true` to the first five
calls, to one call of the last batch and to no other, and never allows more than five
calls within any closed interval of the length of the window. -/
theorem C34_fixed_window_boundary_burst :
    (exampleEdgeCalls.map Prod.snd).Pairwise (fun a b => a ≤ b) ∧
    (exampleEdgeFixed.AllowAll exampleEdgeCalls).2 =
      [true, true, true, true, true, true, true, true, true, true] ∧
    countWithin 4000000000 5500000000
      (allowedTimes "192.168.1.1" exampleEdgeCalls
        (exampleEdgeFixed.AllowAll exampleEdgeCalls).2) = 9 ∧
    exampleEdgeFixed.limit < 9 ∧
    (5500000000 : Time) - 4000000000 < exampleEdgeFixed.window ∧
    exampleEdgeSliding.AllowAll exampleEdgeCalls =
      [true, true, true, true, true, true, false, false, false, false] ∧
    ∀ start : Time,
      (countWithin start (start + exampleEdgeSliding.window)
        (allowedTimes "192.168.1.1" exampleEdgeCalls
          (exampleEdgeSliding.AllowAll exampleEdgeCalls)) : Int) ≤ exampleEdgeSliding.limit := by
  refine ⟨by decide, by decide, by decide, by decide, by decide, by decide, ?_⟩
  intro start
  exact SlidingWindow_bound 5 (5 * Second) exampleEdgeCalls "192.168.1.1" start (by decide)
    (by decide) (by decide)

end ratelimiter

namespace circuitbreaker

open State Error

/-! ## What one call does to the fields the invariants speak of -/

/-- The three outcomes of `currentState`: nothing changes; a Closed window rolls over; an
Open breaker whose timeout has elapsed becomes HalfOpen. -/
theorem currentState_step (cb : CircuitBreaker) (now : Time) :
    ((currentState cb now).state = cb.state ∧
      (currentState cb now).generation = cb.generation ∧
      (currentState cb now).counts = cb.counts ∧
      (currentState cb now).expiry = cb.expiry) ∨
    (cb.state = StateClosed ∧ (currentState cb now).state = StateClosed ∧
      (currentState cb now).generation = (cb.generation + 1) % 2 ^ 64 ∧
      (currentState cb now).counts = {}) ∨
    (cb.state = StateOpen ∧ (currentState cb now).state = StateHalfOpen ∧
      (currentState cb now).generation = (cb.generation + 1) % 2 ^ 64 ∧
      (currentState cb now).counts = {} ∧
      (currentState cb now).expiry = zeroTime) := by
  rcases hs : cb.state with _ | _ | _
  · rw [currentState_closed cb now hs]
    split_ifs
    · right; left
      refine ⟨rfl, ?_, ?_, ?_⟩
      · rw [toNewGeneration_state, hs]
      · rw [toNewGeneration_generation]
      · rw [toNewGeneration_counts]
    · left
      exact ⟨hs, rfl, rfl, rfl⟩
  · rw [currentState_open cb now hs]
    split_ifs
    · right; right
      have hne : cb.state ≠ StateHalfOpen := by rw [hs]; decide
      exact ⟨rfl, setState_state cb now _, setState_generation cb now _ hne,
        setState_counts cb now _ hne, setState_expiry_halfOpen cb now hne⟩
    · left
      exact ⟨hs, rfl, rfl, rfl⟩
  · rw [currentState_halfOpen cb now hs]
    left
    exact ⟨hs, rfl, rfl, rfl⟩

/-- The outcomes of `beforeRequest` in terms of the breaker `currentState` leaves: the call
is rejected and the counts stay, or it is admitted and `Requests` is incremented. -/
theorem beforeRequest_step (cb : CircuitBreaker) (now : Time) :
    (beforeRequest cb now).1.state = (currentState cb now).state ∧
    (beforeRequest cb now).1.generation = (currentState cb now).generation ∧
    (beforeRequest cb now).1.expiry = (currentState cb now).expiry ∧
    (beforeRequest cb now).2.1 = (currentState cb now).generation ∧
    (((beforeRequest cb now).2.2 ≠ none ∧
        (beforeRequest cb now).1.counts = (currentState cb now).counts) ∨
      ((beforeRequest cb now).2.2 = none ∧
        (currentState cb now).state ≠ StateOpen ∧
        ((currentState cb now).state = StateHalfOpen →
          (currentState cb now).counts.Requests < cb.maxRequests) ∧
        (beforeRequest cb now).1.counts = countRequest (currentState cb now).counts)) := by
  simp only [beforeRequest]
  split_ifs with h1 h2
  · simp
  · simp
  · refine ⟨by simp, by simp, by simp, by simp, Or.inr ⟨rfl, ?_, ?_, ?_⟩⟩
    · simpa using h1
    · intro hh
      have := fun k => h2 ⟨by simpa using hh, k⟩
      simpa using this
    · simp [countRequest]

end circuitbreaker

namespace circuitbreaker

open State Error

/-- The outcomes of `afterRequest` in terms of the breaker `currentState` leaves: a result
with another generation is dropped; a success is counted and closes a HalfOpen breaker
that has reached `maxRequests` consecutive successes; a failure is counted, or opens the
breaker. -/
theorem afterRequest_step (cb : CircuitBreaker) (now : Time) (g : Nat) (success : Bool) :
    (g ≠ (currentState cb now).generation ∧
      (afterRequest cb now g success).state = (currentState cb now).state ∧
      (afterRequest cb now g success).generation = (currentState cb now).generation ∧
      (afterRequest cb now g success).counts = (currentState cb now).counts ∧
      (afterRequest cb now g success).expiry = (currentState cb now).expiry) ∨
    (g = (currentState cb now).generation ∧ success = true ∧
      (((currentState cb now).state = StateHalfOpen ∧
          cb.maxRequests ≤ (countSuccess (currentState cb now).counts).ConsecutiveSuccesses ∧
          (afterRequest cb now g success).state = StateClosed ∧
          (afterRequest cb now g success).generation =
            ((currentState cb now).generation + 1) % 2 ^ 64 ∧
          (afterRequest cb now g success).counts = {}) ∨
        (¬ ((currentState cb now).state = StateHalfOpen ∧
            cb.maxRequests ≤ (countSuccess (currentState cb now).counts).ConsecutiveSuccesses) ∧
          (afterRequest cb now g success).state = (currentState cb now).state ∧
          (afterRequest cb now g success).generation = (currentState cb now).generation ∧
          (afterRequest cb now g success).counts = countSuccess (currentState cb now).counts ∧
          (afterRequest cb now g success).expiry = (currentState cb now).expiry))) ∨
    (g = (currentState cb now).generation ∧ success = false ∧
      (((currentState cb now).state ≠ StateOpen ∧
          (afterRequest cb now g success).state = StateOpen ∧
          (afterRequest cb now g success).generation =
            ((currentState cb now).generation + 1) % 2 ^ 64 ∧
          (afterRequest cb now g success).counts = {} ∧
          (afterRequest cb now g success).expiry = now + cb.timeout) ∨
        ((currentState cb now).state ≠ StateHalfOpen ∧
          (afterRequest cb now g success).state = (currentState cb now).state ∧
          (afterRequest cb now g success).generation = (currentState cb now).generation ∧
          (afterRequest cb now g success).counts = countFailure (currentState cb now).counts ∧
          (afterRequest cb now g success).expiry = (currentState cb now).expiry))) := by
  obtain ⟨cs, hcs, hst, hgen, hcnt, hexp, hmax, htime⟩ :
      ∃ cs, currentState (Lock cb) now = cs ∧ cs.state = (currentState cb now).state ∧
        cs.generation = (currentState cb now).generation ∧
        cs.counts = (currentState cb now).counts ∧
        cs.expiry = (currentState cb now).expiry ∧
        cs.maxRequests = cb.maxRequests ∧ cs.timeout = cb.timeout :=
    ⟨_, rfl, by simp, by simp, by simp, by simp, by simp, by simp⟩
  simp only [afterRequest, hcs]
  rw [← hst, ← hgen, ← hcnt, ← hexp, ← hmax, ← htime]
  by_cases hg : g = cs.generation
  · right
    rw [if_neg (not_not.mpr hg)]
    cases success
    · right
      refine ⟨hg, rfl, ?_⟩
      simp only [Bool.false_eq_true, if_false, Unlock_state, Unlock_generation, Unlock_counts,
        Unlock_expiry]
      obtain ⟨c1, hc1, e1, e2, e3, e4, e5⟩ :
          ∃ c1 : CircuitBreaker, c1 = { cs with counts := countFailure cs.counts } ∧
            c1.state = cs.state ∧ c1.generation = cs.generation ∧
            c1.counts = countFailure cs.counts ∧ c1.expiry = cs.expiry ∧
            c1.timeout = cs.timeout :=
        ⟨_, rfl, rfl, rfl, rfl, rfl, rfl⟩
      have hon : onFailure cs cs.state now =
          if cs.state = StateHalfOpen then setState c1 StateOpen now
          else if cs.readyToTrip (countFailure cs.counts) then setState c1 StateOpen now
          else c1 := by
        rw [hc1]; rfl
      rw [hon]
      by_cases hh : cs.state = StateHalfOpen
      · left
        have hne : c1.state ≠ StateOpen := by rw [e1, hh]; decide
        rw [if_pos hh]
        refine ⟨by rw [hh]; decide, setState_state c1 now _, ?_, setState_counts c1 now _ hne, ?_⟩
        · rw [setState_generation c1 now _ hne, e2]
        · rw [setState_expiry_open c1 now hne, e5]
      · rw [if_neg hh]
        by_cases ht : cs.readyToTrip (countFailure cs.counts) = true
        · rw [if_pos ht]
          by_cases ho : cs.state = StateOpen
          · right
            rw [setState_eq_of_state c1 now _ (e1.trans ho)]
            exact ⟨hh, e1, e2, e3, e4⟩
          · left
            have hne : c1.state ≠ StateOpen := by rw [e1]; exact ho
            refine ⟨ho, setState_state c1 now _, ?_, setState_counts c1 now _ hne, ?_⟩
            · rw [setState_generation c1 now _ hne, e2]
            · rw [setState_expiry_open c1 now hne, e5]
        · rw [if_neg ht]
          right
          exact ⟨hh, e1, e2, e3, e4⟩
    · left
      refine ⟨hg, rfl, ?_⟩
      simp only [if_true, Unlock_state, Unlock_generation, Unlock_counts, Unlock_expiry]
      obtain ⟨c1, hc1, e1, e2, e3, e4, e5⟩ :
          ∃ c1 : CircuitBreaker, c1 = { cs with counts := countSuccess cs.counts } ∧
            c1.state = cs.state ∧ c1.generation = cs.generation ∧
            c1.counts = countSuccess cs.counts ∧ c1.expiry = cs.expiry ∧
            c1.maxRequests = cs.maxRequests :=
        ⟨_, rfl, rfl, rfl, rfl, rfl, rfl⟩
      have hon : onSuccess cs cs.state now =
          if cs.state = StateHalfOpen ∧
              (countSuccess cs.counts).ConsecutiveSuccesses ≥ cs.maxRequests then
            setState c1 StateClosed now
          else c1 := by
        rw [hc1]; rfl
      rw [hon]
      by_cases hh : cs.state = StateHalfOpen ∧
          (countSuccess cs.counts).ConsecutiveSuccesses ≥ cs.maxRequests
      · left
        have hne : c1.state ≠ StateClosed := by rw [e1, hh.1]; decide
        rw [if_pos hh]
        refine ⟨hh.1, hh.2, setState_state c1 now _, ?_, setState_counts c1 now _ hne⟩
        rw [setState_generation c1 now _ hne, e2]
      · rw [if_neg hh]
        right
        exact ⟨hh, e1, e2, e3, e4⟩
  · left
    rw [if_pos hg]
    exact ⟨hg, rfl, rfl, rfl, rfl⟩

end circuitbreaker

namespace circuitbreaker

open State Error

/-! ## The invariant is kept by every step -/

/-- The invariant holds of a breaker whose fields satisfy it; the form in which the steps
establish it. -/
theorem Flight.Invariant_of_fields (t : Flight) (state : State) (generation : Nat)
    (counts : Counts) (expiry : Time) (maxRequests : Nat) (timeout : Duration)
    (hs : t.cb.state = state) (hg : t.cb.generation = generation)
    (hc : t.cb.counts = counts) (he : t.cb.expiry = expiry)
    (hm : t.cb.maxRequests = maxRequests) (ht : t.cb.timeout = timeout)
    (h : counts.TotalSuccesses + counts.TotalFailures + t.pending.count generation ≤
        counts.Requests ∧
      counts.ConsecutiveSuccesses ≤ counts.TotalSuccesses ∧
      counts.ConsecutiveFailures ≤ counts.TotalFailures ∧
      (counts.ConsecutiveSuccesses = 0 ∨ counts.ConsecutiveFailures = 0) ∧
      (∀ x ∈ t.pending, x ≤ generation) ∧
      counts.Requests < 2 ^ 32 ∧
      1 ≤ maxRequests ∧
      (state = StateOpen → counts = {} ∧ expiry = t.openedAt + timeout) ∧
      (state = StateHalfOpen →
        counts.TotalFailures = 0 ∧ counts.ConsecutiveSuccesses < maxRequests ∧
        counts.Requests ≤ maxRequests ∧ expiry = zeroTime)) :
    t.Invariant := by
  unfold Flight.Invariant
  rw [hs, hg, hc, he, hm, ht]
  exact h

/-- No admission in flight carries the generation after the current one. -/
theorem count_next_generation (pending : List Nat) (g : Nat) (h : ∀ x ∈ pending, x ≤ g) :
    pending.count (g + 1) = 0 := by
  apply List.count_eq_zero_of_not_mem
  intro hm
  have := h _ hm
  omega

/-- What an admission that is taken leaves. -/
theorem Flight.step_admission_fields (t t1 : Flight) (now : Time)
    (hstep : t.step (Event.admission now) = some t1) :
    t1.cb = (beforeRequest t.cb now).1 ∧
    t1.openedAt = openedAtAfter t.cb (beforeRequest t.cb now).1 now t.openedAt ∧
    t1.pending = (if (beforeRequest t.cb now).2.2 = none then
      (beforeRequest t.cb now).2.1 :: t.pending else t.pending) ∧
    t.cb.generation ≤ (beforeRequest t.cb now).1.generation ∧
    ((beforeRequest t.cb now).2.2 = none → (beforeRequest t.cb now).1.counts.Requests ≠ 0) := by
  simp only [Flight.step] at hstep
  rcases hq : beforeRequest t.cb now with ⟨cb1, generation, _ | err⟩
  · rw [hq] at hstep
    simp only at hstep
    split_ifs at hstep with hguard
    simp only [Option.some.injEq] at hstep
    subst hstep
    exact ⟨rfl, rfl, by simp, hguard.1, fun _ => hguard.2⟩
  · rw [hq] at hstep
    simp only at hstep
    split_ifs at hstep with hguard
    simp only [Option.some.injEq] at hstep
    subst hstep
    exact ⟨rfl, rfl, by simp, hguard, by simp⟩

/-- What a completion that is taken leaves. -/
theorem Flight.step_completion_fields (t t1 : Flight) (now : Time) (g : Nat) (success : Bool)
    (hstep : t.step (Event.completion now g success) = some t1) :
    t1.cb = afterRequest t.cb now g success ∧
    t1.openedAt = openedAtAfter t.cb (afterRequest t.cb now g success) now t.openedAt ∧
    t1.pending = t.pending.erase g ∧
    g ∈ t.pending ∧
    t.cb.generation ≤ (afterRequest t.cb now g success).generation := by
  simp only [Flight.step] at hstep
  split_ifs at hstep with hguard
  simp only [Option.some.injEq] at hstep
  subst hstep
  exact ⟨rfl, rfl, rfl, hguard.1, hguard.2⟩

/-- An admission keeps the invariant. -/
theorem Flight.Invariant_admission (t t1 : Flight) (now : Time)
    (hstep : t.step (Event.admission now) = some t1) (hinv : t.Invariant) :
    t1.Invariant := by
  obtain ⟨i1, i2, i3, i4, i5, i6, i7, i8, i9⟩ := hinv
  obtain ⟨hcb, hopened, hpend, hgen, hreq⟩ := Flight.step_admission_fields t t1 now hstep
  obtain ⟨b1, b2, b3, b4, hb⟩ := beforeRequest_step t.cb now
  rw [b2] at hgen
  have hmax : (beforeRequest t.cb now).1.maxRequests = t.cb.maxRequests := by simp
  have htime : (beforeRequest t.cb now).1.timeout = t.cb.timeout := by simp
  -- the state is Open afterwards only if it was Open before
  have hopenedAt : t1.openedAt = t.openedAt := by
    rw [hopened, openedAtAfter, b1]
    rw [if_neg]
    intro hh
    rcases currentState_step t.cb now with ⟨h1, _⟩ | ⟨_, h1, _⟩ | ⟨_, h1, _⟩
    · exact hh.2 (h1 ▸ hh.1)
    · rw [h1] at hh; exact absurd hh.1 (by decide)
    · rw [h1] at hh; exact absurd hh.1 (by decide)
  apply Flight.Invariant_of_fields t1 (currentState t.cb now).state
    (currentState t.cb now).generation (beforeRequest t.cb now).1.counts
    (currentState t.cb now).expiry t.cb.maxRequests t.cb.timeout
    (by rw [hcb, b1]) (by rw [hcb, b2]) (by rw [hcb]) (by rw [hcb, b3]) (by rw [hcb, hmax])
    (by rw [hcb, htime])
  rw [hopenedAt, hpend]
  rcases hb with ⟨hrej, hcnt⟩ | ⟨hadm, hno, hhalf, hcnt⟩
  · -- rejected: the counts are those `currentState` left
    rw [if_neg hrej, hcnt]
    rcases currentState_step t.cb now with ⟨h1, h2, h3, h4⟩ | ⟨_, h1, h2, h3⟩ | ⟨_, h1, h2, h3, h4⟩
    · rw [h1, h2, h3, h4]
      exact ⟨i1, i2, i3, i4, i5, i6, i7, i8, i9⟩
    · rw [h2] at hgen
      have hwrap : (t.cb.generation + 1) % 2 ^ 64 = t.cb.generation + 1 := by omega
      rw [h1, h2, h3, hwrap, count_next_generation _ _ i5]
      refine ⟨by simp, by simp, by simp, by simp, ?_, by simp, i7, by simp, by simp⟩
      intro x hx
      have := i5 x hx
      omega
    · rw [h2] at hgen
      have hwrap : (t.cb.generation + 1) % 2 ^ 64 = t.cb.generation + 1 := by omega
      rw [h1, h2, h3, h4, hwrap, count_next_generation _ _ i5]
      refine ⟨by simp, by simp, by simp, by simp, ?_, by simp, i7, by simp, ?_⟩
      · intro x hx
        have := i5 x hx
        omega
      · intro _
        exact ⟨rfl, i7, Nat.zero_le _, rfl⟩
  · -- admitted: `Requests` is incremented and the generation joins the flight
    have hreq0 := hreq hadm
    rw [hcnt] at hreq0
    rw [if_pos hadm, hcnt, b4]
    rcases currentState_step t.cb now with ⟨h1, h2, h3, h4⟩ | ⟨_, h1, h2, h3⟩ | ⟨_, h1, h2, h3, h4⟩
    · rw [h1, h2, h3, h4]
      rw [h1] at hno
      rw [h1, h3] at hhalf
      rw [h3] at hreq0
      have hr : (t.cb.counts.Requests + 1) % 2 ^ 32 = t.cb.counts.Requests + 1 := by
        simp only [countRequest] at hreq0
        omega
      simp only [countRequest, List.count_cons_self, hr]
      refine ⟨by omega, i2, i3, i4, ?_, by omega, i7, ?_, ?_⟩
      · intro x hx
        rcases List.mem_cons.mp hx with h | h
        · omega
        · exact i5 x h
      · intro ho
        exact absurd ho hno
      · intro hh
        obtain ⟨j1, j2, j3, j4⟩ := i9 hh
        have := hhalf hh
        exact ⟨j1, j2, by omega, j4⟩
    · rw [h2] at hgen
      have hwrap : (t.cb.generation + 1) % 2 ^ 64 = t.cb.generation + 1 := by omega
      rw [h1, h2, h3, hwrap]
      simp only [countRequest, List.count_cons_self, count_next_generation _ _ i5]
      refine ⟨by simp, by simp, by simp, by simp, ?_, by simp, i7, by simp, by simp⟩
      intro x hx
      rcases List.mem_cons.mp hx with h | h
      · omega
      · have := i5 x h
        omega
    · rw [h2] at hgen
      have hwrap : (t.cb.generation + 1) % 2 ^ 64 = t.cb.generation + 1 := by omega
      rw [h1, h2, h3, h4, hwrap]
      simp only [countRequest, List.count_cons_self, count_next_generation _ _ i5]
      refine ⟨by simp, by simp, by simp, by simp, ?_, by simp, i7, by simp, ?_⟩
      · intro x hx
        rcases List.mem_cons.mp hx with h | h
        · omega
        · have := i5 x h
          omega
      · intro _
        refine ⟨trivial, i7, ?_, trivial⟩
        show (0 + 1) % 2 ^ 32 ≤ t.cb.maxRequests
        have : (0 + 1) % 2 ^ 32 = 1 := by norm_num
        omega

/-- A completion keeps the invariant. -/
theorem Flight.Invariant_completion (t t1 : Flight) (now : Time) (g : Nat) (success : Bool)
    (hstep : t.step (Event.completion now g success) = some t1) (hinv : t.Invariant) :
    t1.Invariant := by
  obtain ⟨i1, i2, i3, i4, i5, i6, i7, i8, i9⟩ := hinv
  obtain ⟨hcb, hopened, hpend, hmem, hgen⟩ :=
    Flight.step_completion_fields t t1 now g success hstep
  have hmax : (afterRequest t.cb now g success).maxRequests = t.cb.maxRequests := by simp
  have htime : (afterRequest t.cb now g success).timeout = t.cb.timeout := by simp
  have hgle : g ≤ t.cb.generation := i5 g hmem
  have herase : ∀ x ∈ t.pending.erase g, x ≤ t.cb.generation :=
    fun x hx => i5 x (List.mem_of_mem_erase hx)
  have herase1 : ∀ x ∈ t.pending.erase g, x ≤ t.cb.generation + 1 :=
    fun x hx => Nat.le_succ_of_le (herase x hx)
  have hfresh : (t.pending.erase g).count (t.cb.generation + 1) = 0 :=
    count_next_generation _ _ herase
  apply Flight.Invariant_of_fields t1 (afterRequest t.cb now g success).state
    (afterRequest t.cb now g success).generation (afterRequest t.cb now g success).counts
    (afterRequest t.cb now g success).expiry t.cb.maxRequests t.cb.timeout
    (by rw [hcb]) (by rw [hcb]) (by rw [hcb]) (by rw [hcb]) (by rw [hcb, hmax])
    (by rw [hcb, htime])
  rw [hopened, hpend, openedAtAfter]
  -- the generation afterwards is the one `currentState` left, or the next one
  have hag : (afterRequest t.cb now g success).generation = (currentState t.cb now).generation ∨
      (afterRequest t.cb now g success).generation =
        ((currentState t.cb now).generation + 1) % 2 ^ 64 := by
    rcases afterRequest_step t.cb now g success with
      ⟨_, _, a2, _⟩ | ⟨_, _, ⟨_, _, _, a2, _⟩ | ⟨_, _, a2, _⟩⟩ |
        ⟨_, _, ⟨_, _, a2, _⟩ | ⟨_, _, a2, _⟩⟩
    · exact Or.inl a2
    · exact Or.inr a2
    · exact Or.inl a2
    · exact Or.inr a2
    · exact Or.inl a2
  rcases afterRequest_step t.cb now g success with
    ⟨hne, a1, a2, a3, a4⟩ | ⟨heq, _, hsucc⟩ | ⟨heq, _, hfail⟩
  · -- the result is dropped
    rw [a2] at hgen
    rw [a1, a2, a3, a4]
    rcases currentState_step t.cb now with ⟨h1, h2, h3, h4⟩ | ⟨_, h1, h2, h3⟩ | ⟨_, h1, h2, h3, h4⟩
    · rw [h1, h2, h3, h4]
      rw [h2] at hne
      rw [List.count_erase_of_ne (Ne.symm hne), if_neg (fun hh => hh.2 hh.1)]
      exact ⟨i1, i2, i3, i4, herase, i6, i7, i8, i9⟩
    · rw [h2] at hgen
      have hwrap : (t.cb.generation + 1) % 2 ^ 64 = t.cb.generation + 1 := by omega
      rw [h1, h2, h3, hwrap, hfresh]
      exact ⟨by simp, by simp, by simp, by simp, herase1, by simp, i7, by simp, by simp⟩
    · rw [h2] at hgen
      have hwrap : (t.cb.generation + 1) % 2 ^ 64 = t.cb.generation + 1 := by omega
      rw [h1, h2, h3, h4, hwrap, hfresh]
      refine ⟨by simp, by simp, by simp, by simp, herase1, by simp, i7, by simp, ?_⟩
      intro _
      exact ⟨rfl, i7, Nat.zero_le _, rfl⟩
  all_goals
    -- the result is counted: `currentState` has changed nothing
    obtain ⟨h1, h2, h3, h4⟩ : (currentState t.cb now).state = t.cb.state ∧
        (currentState t.cb now).generation = t.cb.generation ∧
        (currentState t.cb now).counts = t.cb.counts ∧
        (currentState t.cb now).expiry = t.cb.expiry := by
      rcases currentState_step t.cb now with h | ⟨_, _, h2, _⟩ | ⟨_, _, h2, _⟩
      · exact h
      · rw [h2] at heq hag; omega
      · rw [h2] at heq hag; omega
    rw [h2] at heq
    subst heq
    have hpos : 0 < t.pending.count t.cb.generation := List.count_pos_iff.mpr hmem
    have hnotOpen : t.cb.state ≠ StateOpen := by
      intro ho
      have := (i8 ho).1
      rw [this] at i1
      simp at i1
      omega
  · -- a success
    rcases hsucc with ⟨_, _, a1, a2, a3⟩ | ⟨hno, a1, a2, a3, a4⟩
    · rw [a2, h2] at hgen
      have hwrap : (t.cb.generation + 1) % 2 ^ 64 = t.cb.generation + 1 := by omega
      rw [a1, a2, a3, h2, hwrap, hfresh]
      exact ⟨by simp, by simp, by simp, by simp, herase1, by simp, i7, by simp, by simp⟩
    · rw [a1, a2, a3, a4, h1, h2, h3, h4, List.count_erase_self,
        if_neg (fun hh => hh.2 hh.1)]
      rw [h1, h3] at hno
      have hts : (t.cb.counts.TotalSuccesses + 1) % 2 ^ 32 = t.cb.counts.TotalSuccesses + 1 :=
        Nat.mod_eq_of_lt (by omega)
      have hcs : (t.cb.counts.ConsecutiveSuccesses + 1) % 2 ^ 32 =
          t.cb.counts.ConsecutiveSuccesses + 1 := Nat.mod_eq_of_lt (by omega)
      simp only [countSuccess, hts, hcs] at hno ⊢
      refine ⟨by omega, by omega, Nat.zero_le _, Or.inr trivial, herase, i6, i7, ?_, ?_⟩
      · intro ho
        exact absurd ho hnotOpen
      · intro hh
        obtain ⟨j1, j2, j3, j4⟩ := i9 hh
        refine ⟨j1, ?_, j3, j4⟩
        by_contra hcon
        exact hno ⟨hh, not_lt.mp hcon⟩
  · -- a failure
    rcases hfail with ⟨_, a1, a2, a3, a4⟩ | ⟨hno, a1, a2, a3, a4⟩
    · rw [a2, h2] at hgen
      have hwrap : (t.cb.generation + 1) % 2 ^ 64 = t.cb.generation + 1 := by omega
      rw [a1, a2, a3, a4, h2, hwrap, hfresh, if_pos ⟨rfl, hnotOpen⟩]
      exact ⟨by simp, by simp, by simp, by simp, herase1, by simp, i7, by simp, by simp⟩
    · rw [a1, a2, a3, a4, h1, h2, h3, h4, List.count_erase_self,
        if_neg (fun hh => hh.2 hh.1)]
      rw [h1] at hno
      have htf : (t.cb.counts.TotalFailures + 1) % 2 ^ 32 = t.cb.counts.TotalFailures + 1 :=
        Nat.mod_eq_of_lt (by omega)
      have hcf : (t.cb.counts.ConsecutiveFailures + 1) % 2 ^ 32 =
          t.cb.counts.ConsecutiveFailures + 1 := Nat.mod_eq_of_lt (by omega)
      simp only [countFailure, htf, hcf]
      refine ⟨by omega, Nat.zero_le _, by omega, Or.inl trivial, herase, i6, i7, ?_, ?_⟩
      · intro ho
        exact absurd ho hnotOpen
      · intro hh
        exact absurd hh hno

/-- Every step keeps the invariant. -/
theorem Flight.Invariant_step (t t1 : Flight) (ev : Event) (hstep : t.step ev = some t1)
    (hinv : t.Invariant) : t1.Invariant := by
  cases ev with
  | admission now => exact Flight.Invariant_admission t t1 now hstep hinv
  | completion now g success => exact Flight.Invariant_completion t t1 now g success hstep hinv

/-- A new breaker with nothing in flight satisfies the invariant. -/
theorem Flight.Invariant_start (config : Config) (now : Time) :
    (Flight.start config now).Invariant := by
  have hm := (NewCircuitBreaker_maxRequests now config).1
  unfold Flight.Invariant
  simp only [Flight.start]
  have hs : (NewCircuitBreaker config now).state = StateClosed := by
    simp [NewCircuitBreaker]
  have hc : (NewCircuitBreaker config now).counts = {} := by
    simp [NewCircuitBreaker]
  rw [hs, hc]
  exact ⟨by simp, by simp, by simp, by simp, by simp, by simp, hm, by simp, by simp⟩

/-- Every breaker in use reached from one that satisfies the invariant satisfies it. -/
theorem Flight.Invariant_run (events : List Event) :
    ∀ t t1 : Flight, t.run events = some t1 → t.Invariant → t1.Invariant := by
  induction events with
  | nil =>
    intro t t1 h hinv
    simp only [Flight.run, Option.some.injEq] at h
    rw [← h]
    exact hinv
  | cons ev rest ih =>
    intro t t1 h hinv
    simp only [Flight.run] at h
    rcases hs : t.step ev with _ | t2
    · rw [hs] at h
      cases h
    · rw [hs] at h
      exact ih t2 t1 h (Flight.Invariant_step t t2 ev hs hinv)

/-- What one step does to the bookkeeping of the latest change to Open, and to the
timeout. -/
theorem Flight.step_openedAt (t t1 : Flight) (ev : Event) (hstep : t.step ev = some t1) :
    t1.openedAt = openedAtAfter t.cb t1.cb ev.now t.openedAt ∧ t1.cb.timeout = t.cb.timeout := by
  cases ev with
  | admission now =>
    obtain ⟨hcb, hopened, _⟩ := Flight.step_admission_fields t t1 now hstep
    rw [hopened, hcb]
    exact ⟨rfl, by simp⟩
  | completion now g success =>
    obtain ⟨hcb, hopened, _⟩ := Flight.step_completion_fields t t1 now g success hstep
    rw [hopened, hcb]
    exact ⟨rfl, by simp⟩

/-- No step changes the timeout of the breaker. -/
theorem Flight.run_timeout (events : List Event) :
    ∀ t t1 : Flight, t.run events = some t1 → t1.cb.timeout = t.cb.timeout := by
  induction events with
  | nil =>
    intro t t1 h
    simp only [Flight.run, Option.some.injEq] at h
    rw [← h]
  | cons ev rest ih =>
    intro t t1 h
    simp only [Flight.run] at h
    rcases hs : t.step ev with _ | t2
    · rw [hs] at h
      cases h
    · rw [hs] at h
      rw [ih t2 t1 h, (Flight.step_openedAt t t2 ev hs).2]

/-! ## The claims about the reachable states of the breaker -/

/-- Claim C37.  In every breaker state reached from `NewCircuitBreaker` by a sequence of
admissions (`beforeRequest`) and completions (`afterRequest`) in any interleaving, each
completion carrying the generation returned by an admission that has not completed yet,
with any clock readings and any outcomes, and no step wrapping `Requests` or the
generation around (`step` refuses an admission whose `Requests++` gives zero and a step
that leaves the generation smaller than it was; the other four counts are not restricted,
they cannot wrap before `Requests` does): `TotalSuccesses + TotalFailures <= Requests`,
`ConsecutiveSuccesses <= TotalSuccesses`, `ConsecutiveFailures <= TotalFailures`, and at
most one of `ConsecutiveSuccesses` and `ConsecutiveFailures` is non-zero. -/
theorem C37_counts_invariants (config : Config) (now : Time) (events : List Event)
    (t : Flight) (hrun : (Flight.start config now).run events = some t) :
    t.cb.Counts.TotalSuccesses + t.cb.Counts.TotalFailures ≤ t.cb.Counts.Requests ∧
    t.cb.Counts.ConsecutiveSuccesses ≤ t.cb.Counts.TotalSuccesses ∧
    t.cb.Counts.ConsecutiveFailures ≤ t.cb.Counts.TotalFailures ∧
    (t.cb.Counts.ConsecutiveSuccesses = 0 ∨ t.cb.Counts.ConsecutiveFailures = 0) := by
  obtain ⟨i1, i2, i3, i4, _⟩ :=
    Flight.Invariant_run events _ t hrun (Flight.Invariant_start config now)
  exact ⟨by simp only [CircuitBreaker.Counts]; omega, i2, i3, i4⟩

/-- Witness of C37 on `exampleEventsOverlap`: two requests admitted, one failure and then
one success counted. -/
theorem C37_counts_invariants_witness :
    (Flight.start exampleConfigTripAt3 0).run exampleEventsOverlap = some exampleFlightOverlap ∧
    exampleFlightOverlap.cb.Counts =
      { Requests := 2, TotalSuccesses := 1, TotalFailures := 1,
        ConsecutiveSuccesses := 1, ConsecutiveFailures := 0 } ∧
    exampleFlightOverlap.cb.Counts.TotalSuccesses + exampleFlightOverlap.cb.Counts.TotalFailures ≤
      exampleFlightOverlap.cb.Counts.Requests ∧
    exampleFlightOverlap.cb.Counts.ConsecutiveSuccesses ≤
      exampleFlightOverlap.cb.Counts.TotalSuccesses ∧
    exampleFlightOverlap.cb.Counts.ConsecutiveFailures ≤
      exampleFlightOverlap.cb.Counts.TotalFailures ∧
    (exampleFlightOverlap.cb.Counts.ConsecutiveSuccesses = 0 ∨
      exampleFlightOverlap.cb.Counts.ConsecutiveFailures = 0) :=
  ⟨rfl, rfl,
    C37_counts_invariants exampleConfigTripAt3 0 exampleEventsOverlap exampleFlightOverlap rfl⟩

/-- Claim C38.  In every breaker state reached from `NewCircuitBreaker` by the steps of
`run` (admissions and completions in any interleaving, each completion carrying the
generation of an admission that has not completed yet, no step wrapping `Requests` or the
generation around):
whenever the stored state is Open, all five counts are zero and the expiry is the clock
reading of the step that changed the state to Open plus the timeout (the timeout is the
configured one, `60 s` for zero); whenever the stored state is HalfOpen,
`TotalFailures = 0`, `ConsecutiveSuccesses < maxRequests`, `Requests <= maxRequests` and
the expiry is the zero time.  The last part spells out the expiry of state Open step by
step: a step that changes the state to Open sets the expiry to its clock reading plus the
timeout, and a step that finds and leaves the state Open does not change the expiry. -/
theorem C38_open_and_halfOpen_invariants (config : Config) (now : Time)
    (events : List Event) (t : Flight)
    (hrun : (Flight.start config now).run events = some t) :
    t.cb.timeout = (if config.Timeout = 0 then 60 * Second else config.Timeout) ∧
    (t.cb.State = StateOpen →
      t.cb.Counts.Requests = 0 ∧ t.cb.Counts.TotalSuccesses = 0 ∧
      t.cb.Counts.TotalFailures = 0 ∧ t.cb.Counts.ConsecutiveSuccesses = 0 ∧
      t.cb.Counts.ConsecutiveFailures = 0 ∧
      t.cb.expiry = Add t.openedAt t.cb.timeout) ∧
    (t.cb.State = StateHalfOpen →
      t.cb.Counts.TotalFailures = 0 ∧
      t.cb.Counts.ConsecutiveSuccesses < t.cb.maxRequests ∧
      t.cb.Counts.Requests ≤ t.cb.maxRequests ∧
      IsZero t.cb.expiry = true) ∧
    (∀ (ev : Event) (t1 : Flight), t.step ev = some t1 → t1.cb.State = StateOpen →
      (t.cb.State ≠ StateOpen → t1.cb.expiry = Add ev.now t1.cb.timeout) ∧
      (t.cb.State = StateOpen → t1.cb.expiry = t.cb.expiry)) := by
  have hinv := Flight.Invariant_run events _ t hrun (Flight.Invariant_start config now)
  obtain ⟨_, _, _, _, _, _, _, i8, i9⟩ := hinv
  have htime := Flight.run_timeout events _ t hrun
  refine ⟨?_, ?_, ?_, ?_⟩
  · rw [htime]
    simp [Flight.start, NewCircuitBreaker]
  · intro ho
    obtain ⟨j1, j2⟩ := i8 ho
    simp only [CircuitBreaker.Counts, j1, Add]
    exact ⟨trivial, trivial, trivial, trivial, trivial, j2⟩
  · intro hh
    obtain ⟨j1, j2, j3, j4⟩ := i9 hh
    exact ⟨j1, j2, j3, by simp [IsZero, j4, zeroTime]⟩
  · intro ev t1 hstep ho1
    have hinv1 := Flight.Invariant_step t t1 ev hstep
      (Flight.Invariant_run events _ t hrun (Flight.Invariant_start config now))
    obtain ⟨_, _, _, _, _, _, _, k8, _⟩ := hinv1
    obtain ⟨hop, ht1⟩ := Flight.step_openedAt t t1 ev hstep
    obtain ⟨_, k2⟩ := k8 ho1
    constructor
    · intro hno
      rw [k2, hop, openedAtAfter, if_pos ⟨ho1, hno⟩]
      rfl
    · intro ho
      rw [k2, hop, openedAtAfter, if_neg (fun hh => hh.2 ho), ht1, (i8 ho).2]

/-- Witness of C38 on `exampleEventsToOpen`: the third failure, at instant `1005`, opens
the breaker; the counts are zero and the expiry is `1005` plus the timeout of `100 ms`. -/
theorem C38_open_and_halfOpen_invariants_witness :
    (Flight.start exampleConfigTripAt3 0).run exampleEventsToOpen = some exampleFlightOpen ∧
    exampleFlightOpen.cb.State = StateOpen ∧
    exampleFlightOpen.openedAt = 1005 ∧
    exampleFlightOpen.cb.timeout = 100000000 ∧
    exampleFlightOpen.cb.Counts.Requests = 0 ∧
    exampleFlightOpen.cb.Counts.TotalSuccesses = 0 ∧
    exampleFlightOpen.cb.Counts.TotalFailures = 0 ∧
    exampleFlightOpen.cb.Counts.ConsecutiveSuccesses = 0 ∧
    exampleFlightOpen.cb.Counts.ConsecutiveFailures = 0 ∧
    exampleFlightOpen.cb.expiry = Add exampleFlightOpen.openedAt exampleFlightOpen.cb.timeout :=
  ⟨rfl, rfl, rfl, rfl,
    (C38_open_and_halfOpen_invariants exampleConfigTripAt3 0 exampleEventsToOpen
      exampleFlightOpen rfl).2.1 rfl⟩

end circuitbreaker
